import Mathlib

/-!
# Input dispatch core of `xbmc/input/InputManager.cpp`

A shallow embedding of `CInputManager`: the action queue (`QueueAction`,
`ProcessQueuedActions`), the keyboard handler registry
(`RegisterKeyboardHandler`, `UnregisterKeyboardHandler`), the key pipeline
(`OnKey`, `HandleKey`, `OnKeyUp`, `ExecuteInputAction`, `AlwaysProcess`), the
platform events (`OnEvent`, `ProcessMouse`), the built-in commands
(`HasBuiltin`, `ExecuteBuiltin`), the per-frame tick (`Process` with
`ProcessRemote`, `ProcessEventServer`, `ProcessPeripherals`) and the producer
entry `OnAction`; and of the rating part of `CGUIDialogMusicInfo`
(`music/dialogs/GUIDialogMusicInfo.cpp`).

The object state is the record `CInputManager`.  Calls that leave the class
(application, messenger, audio manager, keyboard handlers, translator) are
answered by the oracles of `Env` and written, in call order, to the `trace`
field, so that "what was dispatched, and in which order" is a statement about
a list.
-/

namespace InputManager

/-! ## Data model -/

/-- Keyboard handlers are held by pointer (`KEYBOARD::IKeyboardHandler*`); a pointer is
compared by address only, so it is a number here. -/
abbrev Handler := Nat

/-- Modelled from the spec: `CKey` is declared in `input/Key.h`, not part of the sources at
hand.  The fields are the ones the spec lists for a Key (button code, modifiers, hold time,
unicode code point, vkey, origin) together with the ascii byte read by `GetAscii` and the
analog values set by `ProcessEventServer`. -/
structure CKey where
  buttonCode : Nat
  modifiers : Nat
  held : Nat
  unicode : Nat
  vkey : Nat
  ascii : Nat
  fromService : Bool
  /-- the trigger and thumb-stick values and the repeat time of an analog key (float fields,
  as integer stand-ins; only copied here) -/
  analog : List Int
deriving DecidableEq, Repr

/-- Modelled from the spec: `CAction` is declared in `input/Action.h`, not part of the sources
at hand.  `amount` stands for the float magnitude and position fields, which the code embedded
here only copies. -/
structure CAction where
  id : Int
  name : String
  holdTime : Nat
  unicode : Nat
  amount : Int
  /-- the further magnitudes `m_amount[1..]` (second amount, offsets, velocities) -/
  amountRest : List Int
deriving DecidableEq, Repr

/-- Modelled from the spec: constructor `CAction(int id)`; the fields that are not passed take
neutral defaults. -/
def CAction.ofId (id : Int) : CAction :=
  { id := id, name := "", holdTime := 0, unicode := 0, amount := 0, amountRest := [] }

/-- Modelled from the spec: constructor `CAction(int id, wchar_t unicode)`. -/
def CAction.ofUnicode (id : Int) (unicode : Nat) : CAction :=
  { id := id, name := "", holdTime := 0, unicode := unicode, amount := 0, amountRest := [] }

/-- Modelled from the spec: constructor `CAction(int id, const std::string& name)`. -/
def CAction.ofName (id : Int) (name : String) : CAction :=
  { id := id, name := name, holdTime := 0, unicode := 0, amount := 0, amountRest := [] }

/-- Modelled from the spec: constructor
`CAction(int id, float amount1, float amount2, const std::string& name)`. -/
def CAction.ofAmounts (id : Int) (amount1 amount2 : Int) (name : String) : CAction :=
  { id := id, name := name, holdTime := 0, unicode := 0, amount := amount1,
    amountRest := [amount2] }

/-- Modelled from the spec: constructor `CAction(int id, unsigned int state, float posX,
float posY, float offsetX, float offsetY, float velocityX, float velocityY,
const std::string& name)`; the state is the hold time. -/
def CAction.ofState (id : Int) (state : Nat) (posX posY offsetX offsetY velocityX velocityY : Int)
    (name : String) : CAction :=
  { id := id, name := name, holdTime := state, unicode := 0, amount := posX,
    amountRest := [posY, offsetX, offsetY, velocityX, velocityY] }

/-- The touch member of `XBMC_Event` (coordinates are floats, as integer stand-ins). -/
structure TouchEvent where
  action : Int
  x : Int
  y : Int
  x2 : Int
  y2 : Int
  x3 : Int
  y3 : Int
  pointers : Int
deriving DecidableEq, Repr

/-- The platform events `CInputManager::OnEvent` switches on; a key event carries its keysym
(an uninterpreted number here), `Other` is every event type without a case. -/
inductive XBMC_Event where
  | KeyDown (keysym : Nat)
  | KeyUp (keysym : Nat)
  | MouseButtonDown (button : Nat)
  | MouseButtonUp (button : Nat)
  | MouseMotion (x y : Int)
  | Touch (t : TouchEvent)
  | Other
deriving DecidableEq, Repr

/-- What `CEventServer::GetButtonCode` hands back: the code and its four out-parameters. -/
structure EsButton where
  wKeyID : Nat
  strMapName : String
  isAxis : Bool
  fAmount : Int
  isJoystick : Bool
deriving DecidableEq, Repr

/-- The event server as `ProcessEventServer` tests it (`GetInstance()` may be null). -/
structure EsState where
  running : Bool
  numberOfClients : Nat
deriving DecidableEq, Repr

/-- The four steps called by `CInputManager::Process`. -/
inductive Step where
  | ProcessRemote | ProcessEventServer | ProcessPeripherals | ProcessQueuedActions
deriving DecidableEq, Repr

/-- The focused control, as far as `HandleKey` looks at it. -/
structure CGUIControl where
  isEdit : Bool
  isContainer : Bool
deriving DecidableEq, Repr

/-- A window, as far as `HandleKey` looks at it: `GetFocusedControl()` may be null. -/
structure CGUIWindow where
  focusedControl : Option CGUIControl
deriving DecidableEq, Repr

/-- The compile-time target selected by the `TARGET_*` branches of `HandleKey`. -/
inductive Platform where
  | windows | linux | darwinOsx | other
deriving DecidableEq, Repr

/-- The named constants of `Key.h`, `Action.h`, `XBMC_vkeys.h` and `WindowIDs.h` used by the
embedded functions.  The headers are not part of the sources at hand, so the values are
parameters. -/
structure Consts where
  KEY_INVALID : Nat
  KEY_VKEY : Nat
  KEY_ASCII : Nat
  MODIFIER_LONG : Nat
  MODIFIER_SHIFT : Nat
  MODIFIER_CTRL : Nat
  MODIFIER_META : Nat
  XBMCVK_A : Nat
  XBMCVK_Z : Nat
  XBMCVK_V : Nat
  WINDOW_FULLSCREEN_VIDEO : Int
  WINDOW_FULLSCREEN_GAME : Int
  WINDOW_DIALOG_KEYBOARD : Int
  WINDOW_DIALOG_NUMERIC : Int
  ACTION_MOVE_LEFT : Int
  ACTION_MOVE_RIGHT : Int
  ACTION_MOVE_UP : Int
  ACTION_MOVE_DOWN : Int
  ACTION_SELECT_ITEM : Int
  ACTION_ENTER : Int
  ACTION_PREVIOUS_MENU : Int
  ACTION_NAV_BACK : Int
  ACTION_VOICE_RECOGNIZE : Int
  REMOTE_0 : Int
  REMOTE_9 : Int
  ACTION_BACKSPACE : Int
  ACTION_SHIFT : Int
  ACTION_SYMBOLS : Int
  ACTION_CURSOR_LEFT : Int
  ACTION_CURSOR_RIGHT : Int
  ACTION_PASTE : Int
  KEY_MOUSE_NOOP : Nat
  ES_FLAG_UNICODE : Nat
  KEY_BUTTON_LEFT_ANALOG_TRIGGER : Nat
  KEY_BUTTON_RIGHT_ANALOG_TRIGGER : Nat
  KEY_BUTTON_LEFT_THUMB_STICK_LEFT : Nat
  KEY_BUTTON_LEFT_THUMB_STICK_RIGHT : Nat
  KEY_BUTTON_LEFT_THUMB_STICK_UP : Nat
  KEY_BUTTON_LEFT_THUMB_STICK_DOWN : Nat
  KEY_BUTTON_RIGHT_THUMB_STICK_LEFT : Nat
  KEY_BUTTON_RIGHT_THUMB_STICK_RIGHT : Nat
  KEY_BUTTON_RIGHT_THUMB_STICK_UP : Nat
  KEY_BUTTON_RIGHT_THUMB_STICK_DOWN : Nat
  ACTION_NOOP : Int
  ACTION_MOUSE_START : Int
  ACTION_MOUSE_MOVE : Int
  ACTION_MOUSE_END : Int
  ACTION_TOUCH_TAP : Int
  ACTION_GESTURE_BEGIN : Int
  ACTION_GESTURE_ABORT : Int
  ACTION_GESTURE_END : Int
  ACTION_BUILT_IN_FUNCTION : Int
  ACTION_NONE : Int
  ACTION_PAGE_UP : Int
  ACTION_PAGE_DOWN : Int
  ACTION_INCREASE_RATING : Int
  ACTION_DECREASE_RATING : Int
  ACTION_SHOW_INFO : Int

/-- The external collaborators of the dispatch core, as oracles. -/
structure Env where
  /-- named constants -/
  c : Consts
  /-- answer of `CAction::IsAnalog` -/
  IsAnalog : CAction → Bool
  /-- answer of `g_application.OnAction` -/
  appOnAction : CAction → Bool
  /-- answer of `IKeyboardHandler::OnKeyPress` -/
  OnKeyPress : Handler → CKey → Bool
  /-- answer of `g_windowManager.GetActiveWindowID` -/
  GetActiveWindowID : Int
  /-- answer of `g_windowManager.GetWindow` -/
  GetWindow : Int → Option CGUIWindow
  /-- answer of `CButtonTranslator::HasLongpressMapping` -/
  HasLongpressMapping : Int → CKey → Bool
  /-- answer of `CButtonTranslator::GetAction(window, key, fallback)` -/
  GetAction : Int → CKey → Bool → CAction
  /-- function name produced by `CUtil::SplitExecFunction` -/
  SplitExecFunction : String → String
  /-- result of `StringUtils::ToLower` -/
  ToLower : String → String
  /-- answer of `StringUtils::StartsWithNoCase` -/
  StartsWithNoCase : String → String → Bool
  /-- the `result` written by the synchronous `TMSG_CECTOGGLESTATE` message -/
  cecToggleResult : Bool
  /-- answer of `g_application.WakeUpScreenSaverAndDPMS(processKey)` -/
  WakeUpScreenSaverAndDPMS : Bool → Bool
  /-- answer of `CKey::FromKeyboard` -/
  FromKeyboard : CKey → Bool
  /-- compile-time target -/
  platform : Platform
  /-- compile-time target: plain `char` is a signed type there (x86), not an unsigned one (ARM) -/
  charIsSigned : Bool
  /-- compile-time switch `HAS_LIRC || HAS_IRSERVERSUITE` -/
  hasRemoteControl : Bool
  /-- answer of `m_RemoteControl.GetButton` -/
  RemoteGetButton : Nat
  /-- answer of `m_RemoteControl.GetHoldTime` -/
  RemoteGetHoldTime : Nat
  /-- answer of `CAction::IsMouse` -/
  IsMouse : CAction → Bool
  /-- answer of `g_application.IsAppFocused` -/
  IsAppFocused : Bool
  /-- answer of `m_Mouse.GetKey` -/
  MouseGetKey : Nat
  /-- answer of `m_Mouse.GetHold(MOUSE_LEFT_BUTTON)` -/
  MouseGetHold : Nat
  /-- answer of `m_Mouse.GetX` -/
  MouseGetX : Int
  /-- answer of `m_Mouse.GetY` -/
  MouseGetY : Int
  /-- answer of `m_Mouse.GetDX` -/
  MouseGetDX : Int
  /-- answer of `m_Mouse.GetDY` -/
  MouseGetDY : Int
  /-- answer of `m_Mouse.IsEnabled` -/
  MouseIsEnabled : Bool
  /-- the active flag of `m_Mouse` after `m_Mouse.HandleEvent(newEvent)`, from the one before -/
  MouseHandleEvent : XBMC_Event → Bool → Bool
  /-- answer of `IMouseDriverHandler::OnPosition` of a registered mouse handler -/
  MouseOnPosition : Handler → Int → Int → Bool
  /-- answer of `IMouseDriverHandler::OnButtonPress` of a registered mouse handler -/
  MouseOnButtonPress : Handler → Nat → Bool
  /-- answer of `m_Keyboard.TranslateKey(keysym)` -/
  TranslateKey : Nat → CKey
  /-- the action id and action string `CTouchTranslator::TranslateTouchAction(window,
  touchAction, pointers, ...)` leaves in its out-parameters (id 0 when it sets none) -/
  TranslateTouchAction : Int → Int → Int → Int × String
  /-- answer of `CServiceBroker::GetPeripherals().GetNextKeypress(frameTime, key)`: the key,
  if there is one -/
  GetNextKeypress : Int → Option CKey
  /-- the event server seen by the first test of `ProcessEventServer` -/
  es : Option EsState
  /-- answer of `es->ExecuteNextAction` -/
  esExecuteNextAction : Bool
  /-- the event server seen by the second test, after `ExecuteNextAction` -/
  esAfter : Option EsState
  /-- answer of `es->GetButtonCode` -/
  esGetButtonCode : EsButton
  /-- answer of `es->GetMousePos`: the position, if one is pending -/
  esGetMousePos : Option (Int × Int)
  /-- answer of `CCustomControllerTranslator::TranslateCustomControllerString(window, name,
  button, ...)`: the action id and name on success -/
  TranslateCustomControllerString : Int → String → Nat → Option (Int × String)
  /-- the key built by `CKey((uint8_t)0, unicode, 0, 0, 0)` (constructor in `Key.cpp`) -/
  unicodeKey : Nat → CKey
  /-- the float computation `(BYTE)(255 * fAmount)` -/
  toByte255 : Int → Int

/-- One call that leaves `CInputManager`, or (for `HandleKey`) the entry into a member
function whose invocations the specification counts.  The entry into `HandleKey(key)` is
recorded together with the value the member `m_LastKey` has at that moment: `OnKey` and
`OnKeyUp` are reentrant, so what the tracker holds while `HandleKey` runs is observable. -/
inductive Event where
  | OnKeyPress (h : Handler) (key : CKey)
  | OnKeyRelease (h : Handler) (key : CKey)
  | HandleKey (key : CKey) (lastKey : CKey)
  | GetAction (window : Int) (key : CKey) (fallback : Bool)
  | ResetSystemIdleTimer
  | ResetScreenSaver
  | WakeUpScreenSaverAndDPMS (processKey : Bool)
  | SendMsgCecToggleState
  | PostMsgCecStandby
  | OnAction (action : CAction)
  | PlayActionSound (action : CAction)
  | StepCall (step : Step)
  | KeymapSetWindowID (window : Int)
  | RemoteUpdate
  | RemoteReset
  | RemoteDisconnect
  | RemoteSetEnabled (enabled : Bool)
  | RemoteInitialize
  | RemoteAddSendCommand (command : String)
  | KeyboardProcessKeyDown (keysym : Nat)
  | KeyboardProcessKeyUp
  | MouseHandleEvent (ev : XBMC_Event)
  | MouseOnPosition (h : Handler) (x y : Int)
  | MouseOnButtonPress (h : Handler) (button : Nat)
  | MouseOnButtonRelease (h : Handler) (button : Nat)
  | TranslateTouchAction (window : Int) (touchAction : Int) (pointers : Int)
  | PostMsgGuiAction (action : CAction)
  | SendGUIMessageUnfocusAll
  | AppOnEvent (ev : XBMC_Event)
  | EsExecuteNextAction
  | EsGetButtonCode
  | EsGetMousePos
  | TranslateCustomControllerString (window : Int) (name : String) (button : Nat)
  | GetNextKeypress
deriving DecidableEq, Repr

/-- The members of `CInputManager` the embedded functions read or write, and the trace. -/
structure CInputManager where
  m_keyboardHandlers : List Handler
  m_LastKey : CKey
  m_queuedActions : List CAction
  m_mouseActive : Bool
  m_mouseHandlers : List Handler
  trace : List Event
deriving DecidableEq, Repr

/-- Append one event to the trace. -/
def CInputManager.emit (s : CInputManager) (e : Event) : CInputManager :=
  { s with trace := s.trace ++ [e] }

/-- The actions handed to `g_application.OnAction`, oldest first. -/
def dispatched : List Event → List CAction
  | [] => []
  | Event.OnAction a :: t => a :: dispatched t
  | _ :: t => dispatched t

/-- The keys `HandleKey` was entered with, oldest first. -/
def handleKeyCalls : List Event → List CKey
  | [] => []
  | Event.HandleKey k _ :: t => k :: handleKeyCalls t
  | _ :: t => handleKeyCalls t

/-- The handlers offered a key press, oldest first. -/
def offeredTo : List Event → List Handler
  | [] => []
  | Event.OnKeyPress h _ :: t => h :: offeredTo t
  | _ :: t => offeredTo t

/-- Modelled from the spec: `CKey::Reset` (in `Key.cpp`, not part of the sources at hand) puts
the key back to the invalid key. -/
def CKey.Reset (c : Consts) : CKey :=
  { buttonCode := c.KEY_INVALID, modifiers := 0, held := 0, unicode := 0, vkey := 0,
    ascii := 0, fromService := false, analog := [] }

/-- Conversion of a `uint32_t` to `int`, as in `CAction(key.GetButtonCode(), ...)`. -/
def toInt32 (n : Nat) : Int :=
  if n % 4294967296 < 2147483648 then (n % 4294967296 : Nat) else (n % 4294967296 : Nat) - 4294967296

/-! ## The action queue -/

/-- The idiom `v.erase(std::remove_if(v.begin(), v.end(), p), v.end())`: the elements for
which `p` fails, in their order. -/
def eraseRemoveIf {α : Type} (p : α → Bool) : List α → List α
  | [] => []
  | x :: xs => if p x then eraseRemoveIf p xs else x :: eraseRemoveIf p xs

/-- Member function `CInputManager::QueueAction`. -/
def QueueAction (env : Env) (s : CInputManager) (action : CAction) : CInputManager :=
  let q :=
    if env.IsAnalog action then
      eraseRemoveIf (fun queuedAction => decide (action.id = queuedAction.id)) s.m_queuedActions
    else s.m_queuedActions
  { s with m_queuedActions := q ++ [action] }

/-- The call `g_application.OnAction(action)`. -/
def g_application_OnAction (env : Env) (s : CInputManager) (action : CAction) :
    Bool × CInputManager :=
  (env.appOnAction action, s.emit (Event.OnAction action))

/-- Member function `CInputManager::ProcessQueuedActions`: swap the queue out, then forward each entry. -/
def ProcessQueuedActions (env : Env) (s : CInputManager) : CInputManager :=
  let queuedActions := s.m_queuedActions
  let s1 := { s with m_queuedActions := [] }
  queuedActions.foldl (fun st action => (g_application_OnAction env st action).2) s1

/-- The state after a sequence of `QueueAction` calls. -/
def queueAll (env : Env) (s : CInputManager) (acts : List CAction) : CInputManager :=
  acts.foldl (QueueAction env) s

/-- The most recently queued action with the given id, if any. -/
def lastQueuedWithId (id : Int) (acts : List CAction) : Option CAction :=
  acts.reverse.find? (fun a => decide (a.id = id))

/-! ## The keyboard handler registry -/

/-- Member function `CInputManager::RegisterKeyboardHandler`. -/
def RegisterKeyboardHandler (s : CInputManager) (handler : Handler) : CInputManager :=
  if s.m_keyboardHandlers.find? (fun h => decide (h = handler)) = none then
    { s with m_keyboardHandlers := handler :: s.m_keyboardHandlers }
  else s

/-- Member function `CInputManager::UnregisterKeyboardHandler`: erase-remove of the handler. -/
def UnregisterKeyboardHandler (s : CInputManager) (handler : Handler) : CInputManager :=
  { s with m_keyboardHandlers :=
      eraseRemoveIf (fun h => decide (h = handler)) s.m_keyboardHandlers }

/-! ## The key pipeline -/

/-- Member function `CInputManager::ExecuteInputAction`. -/
def ExecuteInputAction (env : Env) (s : CInputManager) (action : CAction) :
    Bool × CInputManager :=
  if action.holdTime ≠ 0 then
    let r := g_application_OnAction env s action
    if r.1 then (r.1, r.2.emit (Event.PlayActionSound action)) else (r.1, r.2)
  else
    g_application_OnAction env (s.emit (Event.PlayActionSound action)) action

/-- Member function `CInputManager::AlwaysProcess`. -/
def AlwaysProcess (env : Env) (action : CAction) : Bool :=
  if action.name ≠ "" then
    let builtInFunction := env.ToLower (env.SplitExecFunction action.name)
    if builtInFunction = "powerdown"
        ∨ builtInFunction = "reboot"
        ∨ builtInFunction = "restart"
        ∨ builtInFunction = "restartapp"
        ∨ builtInFunction = "suspend"
        ∨ builtInFunction = "hibernate"
        ∨ builtInFunction = "quit"
        ∨ builtInFunction = "shutdown" then true
    else false
  else false

/-- The call `m_buttonTranslator->GetAction(window, key, fallback)`. -/
def translatorGetAction (env : Env) (s : CInputManager) (window : Int) (key : CKey)
    (fallback : Bool) : CAction × CInputManager :=
  (env.GetAction window key fallback, s.emit (Event.GetAction window key fallback))

/-- Part of `HandleKey`: the computation of `useKeyboard`. -/
def useKeyboard (env : Env) (iWin : Int) (key : CKey) : Bool :=
  let useKeyboard0 : Bool :=
    env.FromKeyboard key &&
      (decide (iWin = env.c.WINDOW_DIALOG_KEYBOARD) || decide (iWin = env.c.WINDOW_DIALOG_NUMERIC))
  match env.GetWindow iWin with
  | none => useKeyboard0
  | some window =>
    match window.focusedControl with
    | none => useKeyboard0
    | some control =>
      let useKeyboard1 : Bool := if control.isEdit then true else useKeyboard0
      if control.isContainer ∧ (key.modifiers &&& env.c.MODIFIER_SHIFT) ≠ 0
          ∧ key.vkey ≥ env.c.XBMCVK_A ∧ key.vkey ≤ env.c.XBMCVK_Z then true
      else useKeyboard1

/-- Part of `HandleKey`: the test of the action id against the plain navigation ids. -/
def isPlainNavigation (c : Consts) (id : Int) : Bool :=
  decide (id = c.ACTION_MOVE_LEFT ∨
    id = c.ACTION_MOVE_RIGHT ∨
    id = c.ACTION_MOVE_UP ∨
    id = c.ACTION_MOVE_DOWN ∨
    id = c.ACTION_SELECT_ITEM ∨
    id = c.ACTION_ENTER ∨
    id = c.ACTION_PREVIOUS_MENU ∨
    id = c.ACTION_NAV_BACK ∨
    id = c.ACTION_VOICE_RECOGNIZE)

/-- Part of `HandleKey`: the paste test selected by the compile-time target. -/
def isPasteKeypress (env : Env) (key : CKey) : Bool :=
  match env.platform with
  | Platform.windows =>
    decide (key.vkey = env.c.XBMCVK_V ∧ (key.modifiers &&& env.c.MODIFIER_CTRL) ≠ 0)
  | Platform.linux =>
    decide (key.vkey = env.c.XBMCVK_V ∧ (key.modifiers &&& env.c.MODIFIER_CTRL) ≠ 0)
  | Platform.darwinOsx =>
    decide (key.vkey = env.c.XBMCVK_V ∧ (key.modifiers &&& env.c.MODIFIER_META) ≠ 0)
  | Platform.other => false

/-- The 32-bit pattern of `key.GetAscii()` after integral promotion to `int`: `GetAscii`
(declared in `input/Key.h`) returns a plain `char`, so the stored byte is sign-extended where
`char` is a signed type (a byte of `0x80` or more is then a negative `int`, `0xE9` is -23). -/
def asciiPromoted (env : Env) (key : CKey) : Nat :=
  if env.charIsSigned = true ∧ key.ascii % 256 ≥ 128 then key.ascii % 256 + 4294967040
  else key.ascii % 256

/-- The expression `key.GetAscii() | KEY_ASCII`: the or of two `int`s, read back as an `int`. -/
def asciiKeyId (env : Env) (key : CKey) : Int :=
  toInt32 (asciiPromoted env key ||| env.c.KEY_ASCII)

/-- Part of `HandleKey`: the action synthesized from the raw key when the keymap gave none. -/
def rawKeyAction (env : Env) (key : CKey) : CAction :=
  if key.fromService then
    CAction.ofUnicode
      (if key.buttonCode ≠ env.c.KEY_INVALID then toInt32 key.buttonCode else 0) key.unicode
  else if isPasteKeypress env key then CAction.ofId env.c.ACTION_PASTE
  else if key.unicode ≠ 0 then CAction.ofUnicode (asciiKeyId env key) key.unicode
  else CAction.ofId (((key.vkey ||| env.c.KEY_VKEY : Nat) : Int))

/-- Part of `HandleKey`: the action of the virtual-keyboard path (the block under `if (useKeyboard)`
up to the call of `g_application.OnAction`). -/
def keyboardAction (env : Env) (s : CInputManager) (key : CKey) : CAction × CInputManager :=
  let r1 := translatorGetAction env s env.c.WINDOW_DIALOG_KEYBOARD key true
  let r2 : CAction × CInputManager :=
    if ¬ isPlainNavigation env.c r1.1.id then
      let r := translatorGetAction env r1.2 env.c.WINDOW_DIALOG_KEYBOARD key false
      if ¬ (r.1.id ≥ env.c.REMOTE_0 ∧ r.1.id ≤ env.c.REMOTE_9) ∨
          r.1.id = env.c.ACTION_BACKSPACE ∨
          r.1.id = env.c.ACTION_SHIFT ∨
          r.1.id = env.c.ACTION_SYMBOLS ∨
          r.1.id = env.c.ACTION_CURSOR_LEFT ∨
          r.1.id = env.c.ACTION_CURSOR_RIGHT then (CAction.ofId 0, r.2)
      else r
    else r1
  if r2.1.id = 0 then (rawKeyAction env key, r2.2) else r2

/-- Part of `HandleKey`: the re-resolution of the window action before `ExecuteInputAction`
(the `if (key.GetFromService())` statement closing the non-fullscreen block). -/
def windowAction (env : Env) (s : CInputManager) (iWin : Int) (key : CKey) (action : CAction) :
    CAction × CInputManager :=
  if key.fromService then
    if key.buttonCode ≠ env.c.KEY_INVALID then translatorGetAction env s iWin key true
    else (action, s)
  else translatorGetAction env s iWin key true

/-- Part of `HandleKey`: from `g_application.ResetScreenSaver()` to the end. -/
def HandleKeyResolve (env : Env) (s : CInputManager) (key : CKey) (iWin : Int)
    (action : CAction) (processKey : Bool) : Bool × CInputManager :=
  let s1 := (s.emit Event.ResetScreenSaver).emit (Event.WakeUpScreenSaverAndDPMS processKey)
  if env.WakeUpScreenSaverAndDPMS processKey && !processKey then (true, s1)
  else if iWin ≠ env.c.WINDOW_FULLSCREEN_VIDEO ∧ iWin ≠ env.c.WINDOW_FULLSCREEN_GAME then
    if useKeyboard env iWin key then
      let ka := keyboardAction env s1 key
      let r := g_application_OnAction env ka.2 ka.1
      if r.1 then (true, r.2)
      else
        let wa := windowAction env r.2 iWin key action
        ExecuteInputAction env wa.2 wa.1
    else
      let wa := windowAction env s1 iWin key action
      ExecuteInputAction env wa.2 wa.1
  else ExecuteInputAction env s1 action

/-- Member function `CInputManager::HandleKey`. -/
def HandleKey (env : Env) (s : CInputManager) (key : CKey) : Bool × CInputManager :=
  let s1 := { s.emit (Event.HandleKey key s.m_LastKey) with m_mouseActive := false }
  let iWin := env.GetActiveWindowID
  let r := translatorGetAction env s1 iWin key true
  let action := r.1
  let s2 := r.2.emit Event.ResetSystemIdleTimer
  let processKey := AlwaysProcess env action
  if env.StartsWithNoCase action.name "CECToggleState"
      || env.StartsWithNoCase action.name "CECStandby" then
    if env.StartsWithNoCase action.name "CECToggleState" then
      let s3 := s2.emit Event.SendMsgCecToggleState
      if !env.cecToggleResult then (true, s3)
      else HandleKeyResolve env s3 key iWin action processKey
    else (true, s2.emit Event.PostMsgCecStandby)
  else HandleKeyResolve env s2 key iWin action processKey

/-- Part of `OnKey`: the loop over `m_keyboardHandlers`: offer the key until a handler claims it. -/
def offerKeyPress (env : Env) (key : CKey) : List Handler → CInputManager → Bool × CInputManager
  | [], s => (false, s)
  | h :: rest, s =>
    if env.OnKeyPress h key then (true, s.emit (Event.OnKeyPress h key))
    else offerKeyPress env key rest (s.emit (Event.OnKeyPress h key))

/-- Member function `CInputManager::OnKey`. -/
def OnKey (env : Env) (s : CInputManager) (key : CKey) : Bool × CInputManager :=
  let r := offerKeyPress env key s.m_keyboardHandlers s
  if r.1 then (true, { r.2 with m_LastKey := CKey.Reset env.c })
  else if key.buttonCode = r.2.m_LastKey.buttonCode
      ∧ (r.2.m_LastKey.buttonCode &&& env.c.MODIFIER_LONG) ≠ 0 then
    (false, r.2)
  else if !env.HasLongpressMapping env.GetActiveWindowID key then
    HandleKey env { r.2 with m_LastKey := CKey.Reset env.c } key
  else
    let h : Bool × CInputManager :=
      if key.buttonCode ≠ r.2.m_LastKey.buttonCode
          ∧ (key.buttonCode &&& env.c.MODIFIER_LONG) ≠ 0 then
        HandleKey env { r.2 with m_LastKey := key } key
      else (false, r.2)
    (h.1, { h.2 with m_LastKey := key })

/-- Member function `CInputManager::OnKeyUp`. -/
def OnKeyUp (env : Env) (s : CInputManager) (key : CKey) : CInputManager :=
  let s1 := s.m_keyboardHandlers.foldl (fun st h => st.emit (Event.OnKeyRelease h key)) s
  if s1.m_LastKey.buttonCode ≠ env.c.KEY_INVALID
      ∧ ¬ (s1.m_LastKey.buttonCode &&& env.c.MODIFIER_LONG) ≠ 0 then
    (HandleKey env { s1 with m_LastKey := CKey.Reset env.c } s1.m_LastKey).2
  else { s1 with m_LastKey := CKey.Reset env.c }

/-- The state after a sequence of `OnKey` calls. -/
def onKeyAll (env : Env) (s : CInputManager) (keys : List CKey) : CInputManager :=
  keys.foldl (fun st key => (OnKey env st key).2) s

/-- The state after a sequence of `RegisterKeyboardHandler` calls. -/
def registerAll (s : CInputManager) (hs : List Handler) : CInputManager :=
  hs.foldl RegisterKeyboardHandler s

/-- The handlers `OnKey` offers a key to, in order: every handler up to and including the
first one whose `OnKeyPress` returns true. -/
def offerOrder (env : Env) (key : CKey) : List Handler → List Handler
  | [] => []
  | h :: rest => if env.OnKeyPress h key then [h] else h :: offerOrder env key rest

/-- The actions `HandleKey` hands to the application from `g_application.ResetScreenSaver()`
on, read off its branches: none when waking the screensaver consumed the key; in the
virtual-keyboard path the keyboard action and, when the application did not handle it, the
window action after it; otherwise the one resolved action. -/
def resolveDispatched (env : Env) (s : CInputManager) (key : CKey) (iWin : Int)
    (action : CAction) (processKey : Bool) : List CAction :=
  if (env.WakeUpScreenSaverAndDPMS processKey && !processKey) = true then []
  else if iWin ≠ env.c.WINDOW_FULLSCREEN_VIDEO ∧ iWin ≠ env.c.WINDOW_FULLSCREEN_GAME then
    if useKeyboard env iWin key = true then
      if env.appOnAction (keyboardAction env s key).1 = true then
        [(keyboardAction env s key).1]
      else [(keyboardAction env s key).1, (windowAction env s iWin key action).1]
    else [(windowAction env s iWin key action).1]
  else [action]

/-- The power-management short-circuit of `HandleKey`: the action name starts with
`CECToggleState` and the toggle message reported false, or it starts with `CECStandby`. -/
def cecShortCircuit (env : Env) (action : CAction) : Bool :=
  if env.StartsWithNoCase action.name "CECToggleState" then !env.cecToggleResult
  else env.StartsWithNoCase action.name "CECStandby"

/-- The screensaver short-circuit of `HandleKey`: waking the screensaver consumed the key. -/
def wakeShortCircuit (env : Env) (action : CAction) : Bool :=
  env.WakeUpScreenSaverAndDPMS (AlwaysProcess env action) && !AlwaysProcess env action

/-- The keyboard action of the virtual-keyboard path was tried and the application did not
handle it, so `HandleKey` goes on to the window action. -/
def keyboardFallThrough (env : Env) (s : CInputManager) (key : CKey) : Bool :=
  decide (env.GetActiveWindowID ≠ env.c.WINDOW_FULLSCREEN_VIDEO
    ∧ env.GetActiveWindowID ≠ env.c.WINDOW_FULLSCREEN_GAME)
  && useKeyboard env env.GetActiveWindowID key
  && !env.appOnAction (keyboardAction env s key).1

/-- The actions one call of `HandleKey` hands to the application, oldest first. -/
def handleKeyDispatched (env : Env) (s : CInputManager) (key : CKey) : List CAction :=
  if cecShortCircuit env (env.GetAction env.GetActiveWindowID key true) = true then []
  else resolveDispatched env s key env.GetActiveWindowID
    (env.GetAction env.GetActiveWindowID key true)
    (AlwaysProcess env (env.GetAction env.GetActiveWindowID key true))

/-! ## Mouse, touch and platform events -/

/-- Modelled from the spec: constructor `CKey(uint32_t buttonCode, unsigned int held)`. -/
def CKey.ofButton (buttonCode held : Nat) : CKey :=
  { buttonCode := buttonCode, modifiers := 0, held := held, unicode := 0, vkey := 0, ascii := 0,
    fromService := false, analog := [] }

/-- Modelled from the spec: constructor `CKey(uint32_t buttonCode, uint8_t leftTrigger,
uint8_t rightTrigger, float leftThumbX, float leftThumbY, float rightThumbX,
float rightThumbY, float repeat)`. -/
def CKey.ofAnalog (buttonCode : Nat)
    (leftTrigger rightTrigger leftThumbX leftThumbY rightThumbX rightThumbY frameTime : Int) :
    CKey :=
  { buttonCode := buttonCode, modifiers := 0, held := 0, unicode := 0, vkey := 0, ascii := 0,
    fromService := false,
    analog := [leftTrigger, rightTrigger, leftThumbX, leftThumbY, rightThumbX, rightThumbY,
      frameTime] }

/-- The call `m_Mouse.SetActive(active)`. -/
def CInputManager.SetMouseActive (s : CInputManager) (active : Bool) : CInputManager :=
  { s with m_mouseActive := active }

/-- Member function `CInputManager::ProcessMouse`.  `WakeUpScreenSaverAndDPMS()` is called
with its default argument, taken to be false. -/
def ProcessMouse (env : Env) (s : CInputManager) (windowId : Int) : Bool × CInputManager :=
  if ¬ s.m_mouseActive = true ∨ ¬ env.IsAppFocused = true then (false, s)
  else if env.MouseGetKey = env.c.KEY_MOUSE_NOOP then (true, s)
  else
    let s1 := ((s.emit Event.ResetSystemIdleTimer).emit Event.ResetScreenSaver).emit
      (Event.WakeUpScreenSaverAndDPMS false)
    if env.WakeUpScreenSaverAndDPMS false = true then (true, s1)
    else
      let r := translatorGetAction env s1 windowId (CKey.ofButton env.MouseGetKey 0) true
      let mouseaction := r.1
      let s2 := if ¬ env.IsMouse mouseaction = true then r.2.SetMouseActive false else r.2
      if mouseaction.id = env.c.ACTION_NOOP then (false, s2)
      else if mouseaction.id = 0 then (false, s2)
      else if ¬ env.IsMouse mouseaction = true then g_application_OnAction env s2 mouseaction
      else
        g_application_OnAction env s2
          (CAction.ofState mouseaction.id env.MouseGetHold env.MouseGetX env.MouseGetY
            env.MouseGetDX env.MouseGetDY 0 0 mouseaction.name)

/-- Part of `OnEvent`: the loop over `m_mouseHandlers` for a mouse event; the result is
`handled`. -/
def offerMouseEvent (env : Env) (newEvent : XBMC_Event) :
    List Handler → CInputManager → Bool × CInputManager
  | [], s => (false, s)
  | h :: rest, s =>
    match newEvent with
    | XBMC_Event.MouseMotion x y =>
      if env.MouseOnPosition h x y = true then (true, s.emit (Event.MouseOnPosition h x y))
      else offerMouseEvent env newEvent rest (s.emit (Event.MouseOnPosition h x y))
    | XBMC_Event.MouseButtonDown button =>
      if env.MouseOnButtonPress h button = true then
        (true, s.emit (Event.MouseOnButtonPress h button))
      else offerMouseEvent env newEvent rest (s.emit (Event.MouseOnButtonPress h button))
    | XBMC_Event.MouseButtonUp button =>
      offerMouseEvent env newEvent rest (s.emit (Event.MouseOnButtonRelease h button))
    | _ => offerMouseEvent env newEvent rest s

/-- Part of `OnEvent`: the cases `XBMC_MOUSEBUTTONDOWN`, `XBMC_MOUSEBUTTONUP` and
`XBMC_MOUSEMOTION`. -/
def OnEventMouse (env : Env) (s : CInputManager) (newEvent : XBMC_Event) : CInputManager :=
  let r := offerMouseEvent env newEvent s.m_mouseHandlers s
  if ¬ r.1 = true then
    let s1 := (r.2.emit (Event.MouseHandleEvent newEvent)).SetMouseActive
      (env.MouseHandleEvent newEvent r.2.m_mouseActive)
    (ProcessMouse env s1 env.GetActiveWindowID).2
  else r.2

/-- Part of `OnEvent`: the case `XBMC_TOUCH`; the result is the value `OnEvent` returns. -/
def OnEventTouch (env : Env) (s : CInputManager) (t : TouchEvent) : Bool × CInputManager :=
  let s1 :=
    if t.action = env.c.ACTION_TOUCH_TAP then
      (g_application_OnAction env s
        (CAction.ofState env.c.ACTION_MOUSE_MOVE 0 t.x t.y 0 0 0 0 "")).2
    else s
  let tr : (Int × String) × CInputManager :=
    if t.action = env.c.ACTION_GESTURE_BEGIN ∨ t.action = env.c.ACTION_GESTURE_END
        ∨ t.action = env.c.ACTION_GESTURE_ABORT then ((t.action, ""), s1)
    else
      (env.TranslateTouchAction env.GetActiveWindowID t.action t.pointers,
        s1.emit (Event.TranslateTouchAction env.GetActiveWindowID t.action t.pointers))
  let actionId := tr.1.1
  let actionString := tr.1.2
  if actionId ≤ 0 then (false, tr.2)
  else
    let s3 :=
      if (actionId ≥ env.c.ACTION_TOUCH_TAP ∧ actionId ≤ env.c.ACTION_GESTURE_END)
          ∨ (actionId ≥ env.c.ACTION_MOUSE_START ∧ actionId ≤ env.c.ACTION_MOUSE_END) then
        tr.2.emit (Event.PostMsgGuiAction
          (CAction.ofState actionId 0 t.x t.y t.x2 t.y2 t.x3 t.y3 ""))
      else if actionId = env.c.ACTION_BUILT_IN_FUNCTION ∧ actionString ≠ "" then
        tr.2.emit (Event.PostMsgGuiAction (CAction.ofName actionId actionString))
      else tr.2.emit (Event.PostMsgGuiAction (CAction.ofId actionId))
    let s4 :=
      if t.action = env.c.ACTION_GESTURE_END ∨ t.action = env.c.ACTION_TOUCH_TAP then
        s3.emit Event.SendGUIMessageUnfocusAll
      else s3
    (true, s4)

/-- Member function `CInputManager::OnEvent`. -/
def OnEvent (env : Env) (s : CInputManager) (newEvent : XBMC_Event) : Bool × CInputManager :=
  match newEvent with
  | XBMC_Event.KeyDown keysym =>
    (true, (OnKey env (s.emit (Event.KeyboardProcessKeyDown keysym)) (env.TranslateKey keysym)).2)
  | XBMC_Event.KeyUp keysym =>
    (true, OnKeyUp env (s.emit Event.KeyboardProcessKeyUp) (env.TranslateKey keysym))
  | XBMC_Event.MouseButtonDown _ => (true, OnEventMouse env s newEvent)
  | XBMC_Event.MouseButtonUp _ => (true, OnEventMouse env s newEvent)
  | XBMC_Event.MouseMotion _ _ => (true, OnEventMouse env s newEvent)
  | XBMC_Event.Touch t => OnEventTouch env s t
  | XBMC_Event.Other => (true, s)

/-- The state after a sequence of `OnEvent` calls. -/
def onEventAll (env : Env) (s : CInputManager) (evs : List XBMC_Event) : CInputManager :=
  evs.foldl (fun st ev => (OnEvent env st ev).2) s

/-! ## The built-in command surface -/

/-- Member function `CInputManager::HasBuiltin`. -/
def HasBuiltin (env : Env) (command : String) : Bool :=
  if env.hasRemoteControl = true then
    decide (command = "lirc.stop" ∨ command = " lirc.start" ∨ command = "lirc.send")
  else false

/-- Part of `ExecuteBuiltin`: the loop joining the parameters with single blanks. -/
def joinParams : List String → String
  | [] => ""
  | [p] => p
  | p :: q :: rest => p ++ " " ++ joinParams (q :: rest)

/-- Member function `CInputManager::ExecuteBuiltin`. -/
def ExecuteBuiltin (env : Env) (s : CInputManager) (execute : String) (params : List String) :
    Int × CInputManager :=
  if env.hasRemoteControl = true then
    if execute = "lirc.stop" then
      (0, (s.emit Event.RemoteDisconnect).emit (Event.RemoteSetEnabled false))
    else if execute = "lirc.start" then
      (0, (s.emit (Event.RemoteSetEnabled true)).emit Event.RemoteInitialize)
    else if execute = "lirc.send" then
      (0, s.emit (Event.RemoteAddSendCommand (joinParams params)))
    else (-1, s)
  else (0, s)

/-! ## The per-frame polling -/

/-- Member function `CInputManager::ProcessRemote`. -/
def ProcessRemote (env : Env) (s : CInputManager) (_windowId : Int) : Bool × CInputManager :=
  if env.hasRemoteControl = true then
    if env.RemoteGetButton ≠ 0 then
      OnKey env (s.emit Event.RemoteReset)
        (CKey.ofButton env.RemoteGetButton env.RemoteGetHoldTime)
    else (false, s)
  else (false, s)

/-- Member function `CInputManager::ProcessPeripherals`. -/
def ProcessPeripherals (env : Env) (s : CInputManager) (frameTime : Int) :
    Bool × CInputManager :=
  match env.GetNextKeypress frameTime with
  | some key => OnKey env (s.emit Event.GetNextKeypress) key
  | none => (false, s.emit Event.GetNextKeypress)

/-- The test `!es || !es->Running() || es->GetNumberOfClients() == 0`. -/
def esUnavailable (es : Option EsState) : Bool :=
  match es with
  | none => true
  | some e => !e.running || decide (e.numberOfClients = 0)

/-- Part of `ProcessEventServer`: the analog or plain key built from the button code. -/
def esButtonKey (env : Env) (wKeyID : Nat) (fAmount frameTime : Int) : CKey :=
  if wKeyID = env.c.KEY_BUTTON_LEFT_ANALOG_TRIGGER then
    CKey.ofAnalog wKeyID (env.toByte255 fAmount) 0 0 0 0 0 frameTime
  else if wKeyID = env.c.KEY_BUTTON_RIGHT_ANALOG_TRIGGER then
    CKey.ofAnalog wKeyID 0 (env.toByte255 fAmount) 0 0 0 0 frameTime
  else if wKeyID = env.c.KEY_BUTTON_LEFT_THUMB_STICK_LEFT then
    CKey.ofAnalog wKeyID 0 0 (-fAmount) 0 0 0 frameTime
  else if wKeyID = env.c.KEY_BUTTON_LEFT_THUMB_STICK_RIGHT then
    CKey.ofAnalog wKeyID 0 0 fAmount 0 0 0 frameTime
  else if wKeyID = env.c.KEY_BUTTON_LEFT_THUMB_STICK_UP then
    CKey.ofAnalog wKeyID 0 0 0 fAmount 0 0 frameTime
  else if wKeyID = env.c.KEY_BUTTON_LEFT_THUMB_STICK_DOWN then
    CKey.ofAnalog wKeyID 0 0 0 (-fAmount) 0 0 frameTime
  else if wKeyID = env.c.KEY_BUTTON_RIGHT_THUMB_STICK_LEFT then
    CKey.ofAnalog wKeyID 0 0 0 0 (-fAmount) 0 frameTime
  else if wKeyID = env.c.KEY_BUTTON_RIGHT_THUMB_STICK_RIGHT then
    CKey.ofAnalog wKeyID 0 0 0 0 fAmount 0 frameTime
  else if wKeyID = env.c.KEY_BUTTON_RIGHT_THUMB_STICK_UP then
    CKey.ofAnalog wKeyID 0 0 0 0 0 fAmount frameTime
  else if wKeyID = env.c.KEY_BUTTON_RIGHT_THUMB_STICK_DOWN then
    CKey.ofAnalog wKeyID 0 0 0 0 0 (-fAmount) frameTime
  else CKey.ofButton wKeyID 0

/-- Part of `ProcessEventServer`: the closing block on the pending mouse position. -/
def esMousePosition (env : Env) (s : CInputManager) : Bool × CInputManager :=
  let s1 := s.emit Event.EsGetMousePos
  match env.esGetMousePos with
  | some pos =>
    if env.MouseIsEnabled = true then
      g_application_OnAction env
        (s1.emit (Event.AppOnEvent (XBMC_Event.MouseMotion (pos.1 % 65536) (pos.2 % 65536))))
        (CAction.ofAmounts env.c.ACTION_MOUSE_MOVE pos.1 pos.2 "")
    else (false, s1)
  | none => (false, s1)

/-- Part of `ProcessEventServer`: from `es->GetButtonCode` to the end. -/
def esButtons (env : Env) (s : CInputManager) (windowId : Int) (frameTime : Int) :
    Bool × CInputManager :=
  let b := env.esGetButtonCode
  let s1 := s.emit Event.EsGetButtonCode
  if b.wKeyID ≠ 0 then
    if b.strMapName.length > 0 then
      if b.isJoystick = true then (false, s1)
      else
        let s2 := s1.emit (Event.TranslateCustomControllerString windowId b.strMapName b.wKeyID)
        match env.TranslateCustomControllerString windowId b.strMapName b.wKeyID with
        | some a =>
          let s3 := ((s2.emit Event.ResetSystemIdleTimer).emit Event.ResetScreenSaver).emit
            (Event.WakeUpScreenSaverAndDPMS false)
          if env.WakeUpScreenSaverAndDPMS false = true then (true, s3)
          else
            ExecuteInputAction env (s3.SetMouseActive false)
              (CAction.ofAmounts a.1 b.fAmount 0 a.2)
        | none => esMousePosition env s2
    else if b.wKeyID &&& env.c.ES_FLAG_UNICODE ≠ 0 then
      OnKey env s1 (env.unicodeKey (b.wKeyID - (b.wKeyID &&& env.c.ES_FLAG_UNICODE)))
    else
      OnKey env s1 { esButtonKey env b.wKeyID b.fAmount frameTime with fromService := true }
  else esMousePosition env s1

/-- Member function `CInputManager::ProcessEventServer`. -/
def ProcessEventServer (env : Env) (s : CInputManager) (windowId : Int) (frameTime : Int) :
    Bool × CInputManager :=
  if esUnavailable env.es = true then (false, s)
  else
    let s1 := s.emit Event.EsExecuteNextAction
    let s2 :=
      if env.esExecuteNextAction = true then
        ((s1.emit Event.ResetSystemIdleTimer).emit Event.ResetScreenSaver).emit
          (Event.WakeUpScreenSaverAndDPMS false)
      else s1
    if esUnavailable env.esAfter = true then (false, s2)
    else esButtons env s2 windowId frameTime

/-- Member function `CInputManager::Process`; each call of a step is marked in the trace. -/
def Process (env : Env) (s : CInputManager) (windowId : Int) (frameTime : Int) :
    Bool × CInputManager :=
  let s0 := if env.hasRemoteControl = true then s.emit Event.RemoteUpdate else s
  let s1 := (ProcessRemote env (s0.emit (Event.StepCall Step.ProcessRemote)) windowId).2
  let s2 := (ProcessEventServer env (s1.emit (Event.StepCall Step.ProcessEventServer))
    windowId frameTime).2
  let s3 := (ProcessPeripherals env (s2.emit (Event.StepCall Step.ProcessPeripherals))
    frameTime).2
  let s4 := ProcessQueuedActions env (s3.emit (Event.StepCall Step.ProcessQueuedActions))
  (true, s4.emit (Event.KeymapSetWindowID windowId))

/-! ## Trace projections -/

/-- The steps `Process` called, oldest first. -/
def stepCalls : List Event → List Step
  | [] => []
  | Event.StepCall st :: t => st :: stepCalls t
  | _ :: t => stepCalls t

/-- The keymap queries `GetAction(window, key, fallback)`, oldest first. -/
def getActionQueries : List Event → List (Int × CKey × Bool)
  | [] => []
  | Event.GetAction w k f :: t => (w, k, f) :: getActionQueries t
  | _ :: t => getActionQueries t

/-- The actions posted asynchronously (`PostMsg(TMSG_GUI_ACTION, ...)`), oldest first. -/
def postedActions : List Event → List CAction
  | [] => []
  | Event.PostMsgGuiAction a :: t => a :: postedActions t
  | _ :: t => postedActions t

/-- The messenger traffic of the touch path: posted actions and unfocus messages only. -/
def messengerEvents : List Event → List Event
  | [] => []
  | Event.PostMsgGuiAction a :: t => Event.PostMsgGuiAction a :: messengerEvents t
  | Event.SendGUIMessageUnfocusAll :: t => Event.SendGUIMessageUnfocusAll :: messengerEvents t
  | _ :: t => messengerEvents t

/-- The character action `HandleKey` synthesizes for a keyboard key with a unicode value:
`CAction(key.GetAscii() | KEY_ASCII, key.GetUnicode())`. -/
def charAction (env : Env) (key : CKey) : CAction :=
  CAction.ofUnicode (asciiKeyId env key) key.unicode

/-! ## The producer entry `OnAction` -/

/-- Member function `CInputManager::OnAction`. -/
def OnAction (env : Env) (s : CInputManager) (action : CAction) : Bool × CInputManager :=
  if action.id ≠ env.c.ACTION_NONE then
    if env.IsAnalog action = true then (true, QueueAction env s action)
    else if action.holdTime = 0 then (true, QueueAction env s action)
    else
      let bIsNavigation : Bool :=
        decide (action.id = env.c.ACTION_MOVE_LEFT ∨ action.id = env.c.ACTION_MOVE_RIGHT
          ∨ action.id = env.c.ACTION_MOVE_UP ∨ action.id = env.c.ACTION_MOVE_DOWN
          ∨ action.id = env.c.ACTION_PAGE_UP ∨ action.id = env.c.ACTION_PAGE_DOWN)
      if bIsNavigation = true then (true, QueueAction env s action) else (true, s)
  else (false, s)

/-! ## The rating of `CGUIDialogMusicInfo` -/

/-- What the rating code of the music info dialog sends out. -/
inductive DialogEvent where
  | SendUpdateItem (userrating : Int)
  | Close
  | BaseOnAction (action : CAction)
deriving DecidableEq, Repr

/-- The members of `CGUIDialogMusicInfo` the rating code reads or writes: the user rating of
the music tag of `m_albumItem`, and the trace of what was sent. -/
structure CGUIDialogMusicInfo where
  userrating : Int
  trace : List DialogEvent
deriving DecidableEq, Repr

/-- The value of an `int` expression, wrapped to 32 bits. -/
def wrapInt32 (i : Int) : Int := (i + 2147483648) % 4294967296 - 2147483648

/-- Member function `CGUIDialogMusicInfo::SetUserrating`. -/
def CGUIDialogMusicInfo.SetUserrating (d : CGUIDialogMusicInfo) (userrating : Int) :
    CGUIDialogMusicInfo :=
  let u1 := if userrating < 0 then 0 else userrating
  let u2 := if u1 > 10 then 10 else u1
  if u2 ≠ d.userrating then
    { userrating := u2, trace := d.trace ++ [DialogEvent.SendUpdateItem u2] }
  else d

/-- Member function `CGUIDialogMusicInfo::OnAction`; `base` answers `CGUIDialog::OnAction`. -/
def CGUIDialogMusicInfo.OnAction (c : Consts) (base : CAction → Bool) (d : CGUIDialogMusicInfo)
    (action : CAction) : Bool × CGUIDialogMusicInfo :=
  let userrating := d.userrating
  if action.id = c.ACTION_INCREASE_RATING then
    (true, d.SetUserrating (wrapInt32 (userrating + 1)))
  else if action.id = c.ACTION_DECREASE_RATING then
    (true, d.SetUserrating (wrapInt32 (userrating - 1)))
  else if action.id = c.ACTION_SHOW_INFO then
    (true, { d with trace := d.trace ++ [DialogEvent.Close] })
  else (base action, { d with trace := d.trace ++ [DialogEvent.BaseOnAction action] })

/-- The value `r` clamped to the range 0..10. -/
def clampRating (r : Int) : Int := max 0 (min r 10)

/-! ## Further trace projections -/

/-- The power-management messages handed to the application messenger (the synchronous
`TMSG_CECTOGGLESTATE` and the posted `TMSG_CECSTANDBY`), oldest first. -/
def cecMessages : List Event → List Event
  | [] => []
  | Event.SendMsgCecToggleState :: t => Event.SendMsgCecToggleState :: cecMessages t
  | Event.PostMsgCecStandby :: t => Event.PostMsgCecStandby :: cecMessages t
  | _ :: t => cecMessages t

/-- The entries into `HandleKey`, oldest first: the key it was entered with and the value of
the tracker `m_LastKey` at that moment. -/
def handleKeyEntries : List Event → List (CKey × CKey)
  | [] => []
  | Event.HandleKey k l :: t => (k, l) :: handleKeyEntries t
  | _ :: t => handleKeyEntries t

/-- The platform events handed to `g_application.OnEvent`, oldest first. -/
def appEvents : List Event → List XBMC_Event
  | [] => []
  | Event.AppOnEvent ev :: t => ev :: appEvents t
  | _ :: t => appEvents t

/-- The mouse position injection of `ProcessEventServer` is reached and taken: the event
server reported no button code, or a button code with a device map name, no joystick flag
and no custom-controller mapping; a mouse position is pending; the mouse is enabled. -/
def esInjectsMouse (env : Env) (windowId : Int) : Bool :=
  (decide (env.esGetButtonCode.wKeyID = 0)
    || (decide (env.esGetButtonCode.strMapName.length > 0) && !env.esGetButtonCode.isJoystick
        && (env.TranslateCustomControllerString windowId env.esGetButtonCode.strMapName
              env.esGetButtonCode.wKeyID).isNone))
  && env.esGetMousePos.isSome && env.MouseIsEnabled

/-- The mouse-move action `ProcessEventServer` synthesizes for a position. -/
def esMouseMoveAction (env : Env) (pos : Int × Int) : CAction :=
  CAction.ofAmounts env.c.ACTION_MOUSE_MOVE pos.1 pos.2 ""

/-! ## Concrete data -/

/-- A sample valuation of the named constants, used for the concrete runs below. -/
def sampleConsts : Consts :=
  { KEY_INVALID := 0xFFFF, KEY_VKEY := 0xF000, KEY_ASCII := 0xF100,
    MODIFIER_LONG := 0x01000000, MODIFIER_SHIFT := 0x00020000, MODIFIER_CTRL := 0x00010000,
    MODIFIER_META := 0x00200000, XBMCVK_A := 0x41, XBMCVK_Z := 0x5A, XBMCVK_V := 0x56,
    WINDOW_FULLSCREEN_VIDEO := 12005, WINDOW_FULLSCREEN_GAME := 12906,
    WINDOW_DIALOG_KEYBOARD := 10103, WINDOW_DIALOG_NUMERIC := 10109,
    ACTION_MOVE_LEFT := 1, ACTION_MOVE_RIGHT := 2, ACTION_MOVE_UP := 3, ACTION_MOVE_DOWN := 4,
    ACTION_SELECT_ITEM := 7, ACTION_ENTER := 135, ACTION_PREVIOUS_MENU := 10,
    ACTION_NAV_BACK := 92, ACTION_VOICE_RECOGNIZE := 300, REMOTE_0 := 58, REMOTE_9 := 67,
    ACTION_BACKSPACE := 110, ACTION_SHIFT := 118, ACTION_SYMBOLS := 119,
    ACTION_CURSOR_LEFT := 120, ACTION_CURSOR_RIGHT := 121, ACTION_PASTE := 180,
    KEY_MOUSE_NOOP := 0xEFFF, ES_FLAG_UNICODE := 0x80000000,
    KEY_BUTTON_LEFT_ANALOG_TRIGGER := 278, KEY_BUTTON_RIGHT_ANALOG_TRIGGER := 279,
    KEY_BUTTON_LEFT_THUMB_STICK_LEFT := 282, KEY_BUTTON_LEFT_THUMB_STICK_RIGHT := 283,
    KEY_BUTTON_LEFT_THUMB_STICK_UP := 280, KEY_BUTTON_LEFT_THUMB_STICK_DOWN := 281,
    KEY_BUTTON_RIGHT_THUMB_STICK_LEFT := 268, KEY_BUTTON_RIGHT_THUMB_STICK_RIGHT := 269,
    KEY_BUTTON_RIGHT_THUMB_STICK_UP := 266, KEY_BUTTON_RIGHT_THUMB_STICK_DOWN := 267,
    ACTION_NOOP := 999, ACTION_MOUSE_START := 100, ACTION_MOUSE_MOVE := 107,
    ACTION_MOUSE_END := 109, ACTION_TOUCH_TAP := 401, ACTION_GESTURE_BEGIN := 501,
    ACTION_GESTURE_ABORT := 505, ACTION_GESTURE_END := 599, ACTION_BUILT_IN_FUNCTION := 122,
    ACTION_NONE := 0, ACTION_PAGE_UP := 5, ACTION_PAGE_DOWN := 6,
    ACTION_INCREASE_RATING := 136, ACTION_DECREASE_RATING := 137, ACTION_SHOW_INFO := 11 }

/-- A quiet environment: home window (10000) without focused control, an empty keymap, no
handler claims a key, the application handles nothing, action id 100 is the analog one. -/
def quietEnv : Env :=
  { c := sampleConsts
    IsAnalog := fun a => decide (a.id = 100)
    appOnAction := fun _ => false
    OnKeyPress := fun _ _ => false
    GetActiveWindowID := 10000
    GetWindow := fun _ => some { focusedControl := none }
    HasLongpressMapping := fun _ _ => false
    GetAction := fun _ _ _ => CAction.ofId 0
    SplitExecFunction := fun n => n
    ToLower := fun n => n
    StartsWithNoCase := fun _ _ => false
    cecToggleResult := false
    WakeUpScreenSaverAndDPMS := fun _ => false
    FromKeyboard := fun _ => false
    platform := Platform.linux
    charIsSigned := true
    hasRemoteControl := false
    RemoteGetButton := 0
    RemoteGetHoldTime := 0
    IsMouse := fun a => decide (100 ≤ a.id ∧ a.id ≤ 109)
    IsAppFocused := true
    MouseGetKey := 0xEFFF
    MouseGetHold := 0
    MouseGetX := 0
    MouseGetY := 0
    MouseGetDX := 0
    MouseGetDY := 0
    MouseIsEnabled := true
    MouseHandleEvent := fun _ _ => true
    MouseOnPosition := fun _ _ _ => false
    MouseOnButtonPress := fun _ _ => false
    TranslateKey := fun keysym =>
      { buttonCode := 0xF000 + keysym, modifiers := 0, held := 0, unicode := 0, vkey := keysym,
        ascii := 0, fromService := false, analog := [] }
    TranslateTouchAction := fun _ _ _ => (0, "")
    GetNextKeypress := fun _ => none
    es := none
    esExecuteNextAction := false
    esAfter := none
    esGetButtonCode :=
      { wKeyID := 0, strMapName := "", isAxis := false, fAmount := 0, isJoystick := false }
    esGetMousePos := none
    TranslateCustomControllerString := fun _ _ _ => none
    unicodeKey := fun u =>
      { buttonCode := 0xF200, modifiers := 0, held := 0, unicode := u, vkey := 0, ascii := 0,
        fromService := false, analog := [] }
    toByte255 := fun a => a }

/-- A freshly constructed manager: no handler, invalid tracker, empty queue, empty trace. -/
def freshManager : CInputManager :=
  { m_keyboardHandlers := [], m_LastKey := CKey.Reset sampleConsts, m_queuedActions := [],
    m_mouseActive := false, m_mouseHandlers := [], trace := [] }

/-- A key given by button code and hold time. -/
def plainKey (buttonCode held : Nat) : CKey :=
  { buttonCode := buttonCode, modifiers := 0, held := held, unicode := 0, vkey := 0,
    ascii := 0, fromService := false, analog := [] }

/-- An action given by id and amount. -/
def amountAction (id amount : Int) : CAction :=
  { id := id, name := "", holdTime := 0, unicode := 0, amount := amount, amountRest := [] }

/-- As `quietEnv`, but every keyboard handler claims every key. -/
def claimAllEnv : Env := { quietEnv with OnKeyPress := fun _ _ => true }

/-- As `quietEnv`, but handler 2 (and only handler 2) claims every key. -/
def secondClaimsEnv : Env := { quietEnv with OnKeyPress := fun h _ => decide (h = 2) }

/-- As `quietEnv`, but the focused control of every window is an edit control. -/
def editEnv : Env :=
  { quietEnv with
    GetWindow := fun _ => some { focusedControl := some { isEdit := true, isContainer := false } } }

/-- As `quietEnv`, but every key has a long-press mapping. -/
def longpressEnv : Env := { quietEnv with HasLongpressMapping := fun _ _ => true }

/-- The keyboard key `a`: vkey 0x41, unicode and ascii 97. -/
def keyA : CKey :=
  { buttonCode := 0xF041, modifiers := 0, held := 0, unicode := 97, vkey := 0x41, ascii := 97,
    fromService := false, analog := [] }

/-- The events one call of `ExecuteInputAction` appends: for a pressed action (hold time 0)
the sound cue and then the dispatch, for a held action the dispatch and, when it returned
true, the sound cue after it. -/
def ExecuteInputActionEvents (env : Env) (a : CAction) : List Event :=
  if a.holdTime = 0 then [Event.PlayActionSound a, Event.OnAction a]
  else Event.OnAction a :: (if env.appOnAction a = true then [Event.PlayActionSound a] else [])

/-- As `quietEnv`, with remote-control support compiled in. -/
def remoteEnv : Env := { quietEnv with hasRemoteControl := true }

/-- As `editEnv`, but the active window is the fullscreen video window. -/
def fullscreenEnv : Env := { editEnv with GetActiveWindowID := 12005 }

/-- As `editEnv`, but the keymap of the home window (10000) maps every key to action 7
(select); the `WINDOW_DIALOG_KEYBOARD` keymap stays empty. -/
def editMappedEnv : Env :=
  { editEnv with
    GetAction := fun w _ _ => if w = 10000 then CAction.ofId 7 else CAction.ofId 0 }

/-- The virtual keyboard dialog (window 10103) with its edit control focused; the
keyboard-specific keymap is empty, the global fallback keymap maps every key to action 7
(select); the application handles every action. -/
def keyboardDialogEnv : Env :=
  { editEnv with
    GetActiveWindowID := 10103
    FromKeyboard := fun _ => true
    appOnAction := fun _ => true
    GetAction := fun _ _ fallback => if fallback = true then CAction.ofId 7 else CAction.ofId 0 }

/-- The virtual keyboard dialog with its edit control focused and empty keymaps. -/
def keyboardDialogPlainEnv : Env :=
  { editEnv with GetActiveWindowID := 10103, FromKeyboard := fun _ => true }

/-- The keyboard key Enter: vkey 0x0D, unicode and ascii 13. -/
def keyEnter : CKey :=
  { buttonCode := 0xF00D, modifiers := 0, held := 0, unicode := 13, vkey := 0x0D, ascii := 13,
    fromService := false, analog := [] }

/-- The keyboard key `é`: unicode and ascii byte `0xE9`. -/
def keyEacute : CKey :=
  { buttonCode := 0xF0E9, modifiers := 0, held := 0, unicode := 0xE9, vkey := 0, ascii := 0xE9,
    fromService := false, analog := [] }

/-- As `quietEnv`, but built for a target where plain `char` is unsigned. -/
def unsignedCharEnv : Env := { quietEnv with charIsSigned := false }

/-- The `REMOTE_0 .. REMOTE_9` action of the keyboard-specific keymap that `HandleKey` lets
through: in range, none of the five excluded ids, and not 0. -/
def keptKeyboardDigit (c : Consts) (id : Int) : Bool :=
  decide ((id ≥ c.REMOTE_0 ∧ id ≤ c.REMOTE_9)
    ∧ id ≠ c.ACTION_BACKSPACE ∧ id ≠ c.ACTION_SHIFT ∧ id ≠ c.ACTION_SYMBOLS
    ∧ id ≠ c.ACTION_CURSOR_LEFT ∧ id ≠ c.ACTION_CURSOR_RIGHT ∧ id ≠ 0)

/-- As `quietEnv`, but the mouse reports the key 0xE000, which the keymap leaves unmapped. -/
def mouseEnv : Env := { quietEnv with MouseGetKey := 0xE000 }

/-- A fresh manager whose mouse is active. -/
def activeMouseManager : CInputManager := { freshManager with m_mouseActive := true }

/-- A touch event with the given action at position (10, 20), one pointer. -/
def touchAt (action : Int) : TouchEvent :=
  { action := action, x := 10, y := 20, x2 := 0, y2 := 0, x3 := 0, y3 := 0, pointers := 1 }

/-- As `mouseEnv`, but the screensaver is active. -/
def mouseScreensaverEnv : Env := { mouseEnv with WakeUpScreenSaverAndDPMS := fun _ => true }

/-- As `quietEnv`, but every resolved action name counts as starting with `CECStandby`. -/
def standbyEnv : Env :=
  { quietEnv with StartsWithNoCase := fun _ pre => decide (pre = "CECStandby") }

/-- As `quietEnv`, but every resolved action name counts as starting with `CECToggleState`,
and the toggle message reports true. -/
def toggleOnEnv : Env :=
  { quietEnv with
    StartsWithNoCase := fun _ pre => decide (pre = "CECToggleState")
    cecToggleResult := true }

/-- A tick with work for two polling steps: the remote control reports button 65, the
peripherals report the key `a`, and the application handles every action. -/
def busyRemoteEnv : Env :=
  { quietEnv with
    hasRemoteControl := true
    RemoteGetButton := 65
    appOnAction := fun _ => true
    GetNextKeypress := fun _ => some keyA }

/-- An event server with one client that reports button 5 of the joystick map `pad`; a mouse
position is pending and the mouse is enabled. -/
def joystickEnv : Env :=
  { quietEnv with
    es := some { running := true, numberOfClients := 1 }
    esAfter := some { running := true, numberOfClients := 1 }
    esGetButtonCode :=
      { wKeyID := 5, strMapName := "pad", isAxis := false, fAmount := 0, isJoystick := true }
    esGetMousePos := some (3, 4) }

/-- A held action (hold time 500) with the given id. -/
def heldAction (id : Int) : CAction :=
  { id := id, name := "", holdTime := 500, unicode := 0, amount := 0, amountRest := [] }

/-- As `editEnv`, but the `WINDOW_DIALOG_KEYBOARD` keymap maps every key to action 110
(backspace); the other keymaps stay empty. -/
def backspaceEnv : Env :=
  { editEnv with
    GetAction := fun w _ _ => if w = 10103 then CAction.ofId 110 else CAction.ofId 0 }

/-- The key `a` as injected by a service, built the way `ProcessEventServer` builds the key
of an event-server button with code `0xF041`: `CKey(wKeyID)`, then `SetFromService(true)`. -/
def serviceKeyA : CKey := { esButtonKey backspaceEnv 0xF041 0 0 with fromService := true }

/-- An event server with one client that reports button 5 of the custom-controller map
`pad`, for which there is no mapping; a mouse position (3, 4) is pending and the mouse is
enabled; the application handles every action. -/
def unmappedControllerEnv : Env :=
  { quietEnv with
    appOnAction := fun _ => true
    es := some { running := true, numberOfClients := 1 }
    esAfter := some { running := true, numberOfClients := 1 }
    esGetButtonCode :=
      { wKeyID := 5, strMapName := "pad", isAxis := false, fAmount := 0, isJoystick := false }
    esGetMousePos := some (3, 4) }

/-- An event server with one client that reports no button; a mouse position (3, 4) is
pending and the mouse is enabled. -/
def mousePositionEnv : Env :=
  { quietEnv with
    es := some { running := true, numberOfClients := 1 }
    esAfter := some { running := true, numberOfClients := 1 }
    esGetMousePos := some (3, 4) }

/-! ## Auxiliary lemmas -/

theorem eraseRemoveIf_eq_filter {α : Type} (p : α → Bool) (l : List α) :
    eraseRemoveIf p l = l.filter (fun x => !p x) := by
  induction l with
  | nil => rfl
  | cons x xs ih =>
    by_cases h : p x = true
    · simp [eraseRemoveIf, h, ih]
    · simp [eraseRemoveIf, h, ih]

theorem dispatched_append (t u : List Event) :
    dispatched (t ++ u) = dispatched t ++ dispatched u := by
  induction t with
  | nil => rfl
  | cons e t ih => cases e <;> simp [dispatched, ih]

theorem handleKeyCalls_append (t u : List Event) :
    handleKeyCalls (t ++ u) = handleKeyCalls t ++ handleKeyCalls u := by
  induction t with
  | nil => rfl
  | cons e t ih => cases e <;> simp [handleKeyCalls, ih]

theorem offeredTo_append (t u : List Event) :
    offeredTo (t ++ u) = offeredTo t ++ offeredTo u := by
  induction t with
  | nil => rfl
  | cons e t ih => cases e <;> simp [offeredTo, ih]

theorem queueAll_snoc (env : Env) (s : CInputManager) (acts : List CAction) (x : CAction) :
    queueAll env s (acts ++ [x]) = QueueAction env (queueAll env s acts) x := by
  simp [queueAll, List.foldl_append]

theorem QueueAction_queue (env : Env) (s : CInputManager) (x : CAction) :
    (QueueAction env s x).m_queuedActions =
      (if env.IsAnalog x then s.m_queuedActions.filter (fun q => !decide (x.id = q.id))
        else s.m_queuedActions) ++ [x] := by
  simp [QueueAction, eraseRemoveIf_eq_filter]

theorem queue_filter_id (env : Env)
    (hId : ∀ a b : CAction, a.id = b.id → env.IsAnalog a = env.IsAnalog b)
    (s : CInputManager) (hs : s.m_queuedActions = []) (acts : List CAction) (a : CAction)
    (ha : env.IsAnalog a = true) :
    (queueAll env s acts).m_queuedActions.filter (fun q => decide (q.id = a.id))
      = (lastQueuedWithId a.id acts).toList := by
  induction acts using List.reverseRecOn with
  | nil => simp [queueAll, hs, lastQueuedWithId]
  | append_singleton acts x ih =>
    rw [queueAll_snoc, QueueAction_queue]
    by_cases hx : x.id = a.id
    · have hxa : env.IsAnalog x = true := by rw [hId x a hx]; exact ha
      have hnil : ((queueAll env s acts).m_queuedActions.filter
          (fun q => !decide (x.id = q.id))).filter (fun q => decide (q.id = a.id)) = [] := by
        rw [List.filter_eq_nil_iff]
        intro q hq
        have := (List.mem_filter.mp hq).2
        simp only [Bool.not_eq_true', decide_eq_false_iff_not] at this
        simp only [decide_eq_true_eq]
        intro h
        exact this (by rw [hx, h])
      simp [hxa, List.filter_append, hnil, hx, lastQueuedWithId]
      exact fun _ _ h => h.symm
    · have hsame : ((if env.IsAnalog x then
            (queueAll env s acts).m_queuedActions.filter (fun q => !decide (x.id = q.id))
          else (queueAll env s acts).m_queuedActions)).filter (fun q => decide (q.id = a.id))
          = (queueAll env s acts).m_queuedActions.filter (fun q => decide (q.id = a.id)) := by
        split
        · rw [List.filter_filter]
          apply List.filter_congr
          intro q _
          by_cases hq : q.id = a.id
          · simp [hq, hx]
          · simp [hq]
        · rfl
      rw [List.filter_append, hsame, ih]
      simp [hx, lastQueuedWithId]

theorem ProcessQueuedActions_fold (env : Env) (q : List CAction) (s : CInputManager) :
    (q.foldl (fun st action => (g_application_OnAction env st action).2) s)
      = { s with trace := s.trace ++ q.map Event.OnAction } := by
  induction q generalizing s with
  | nil => simp
  | cons a q ih =>
    rw [List.foldl_cons, ih]
    simp [g_application_OnAction, CInputManager.emit]

theorem dispatched_map_OnAction (q : List CAction) : dispatched (q.map Event.OnAction) = q := by
  induction q with
  | nil => rfl
  | cons a q ih => simp [dispatched, ih]

theorem ProcessQueuedActions_eq (env : Env) (s : CInputManager) :
    ProcessQueuedActions env s
      = { s with m_queuedActions := [], trace := s.trace ++ s.m_queuedActions.map Event.OnAction } := by
  simp [ProcessQueuedActions, ProcessQueuedActions_fold]

/-! ## The action queue: theorems -/

/-- C1: with `IsAnalog` determined by the action id, after any sequence of `QueueAction`
calls on an empty queue the queue holds, for an analog action id, at most one action with
that id, and this action is the most recently queued one with that id. -/
theorem QueueAction_analog_last_write_wins (env : Env)
    (hId : ∀ a b : CAction, a.id = b.id → env.IsAnalog a = env.IsAnalog b)
    (s : CInputManager) (hs : s.m_queuedActions = []) (acts : List CAction) (a : CAction)
    (ha : env.IsAnalog a = true) :
    ((queueAll env s acts).m_queuedActions.filter (fun q => decide (q.id = a.id))).length ≤ 1
    ∧ (queueAll env s acts).m_queuedActions.filter (fun q => decide (q.id = a.id))
        = (lastQueuedWithId a.id acts).toList := by
  have h := queue_filter_id env hId s hs acts a ha
  refine ⟨?_, h⟩
  rw [h]
  cases lastQueuedWithId a.id acts <;> simp

/-- Witness of C1: three calls, the analog id 100 queued twice around a plain action. -/
theorem QueueAction_analog_last_write_wins_witness :
    quietEnv.IsAnalog (amountAction 100 2) = true
    ∧ (((queueAll quietEnv freshManager
          [amountAction 100 1, amountAction 7 0, amountAction 100 2]).m_queuedActions.filter
          (fun q => decide (q.id = (amountAction 100 2).id))).length ≤ 1
      ∧ (queueAll quietEnv freshManager
          [amountAction 100 1, amountAction 7 0, amountAction 100 2]).m_queuedActions.filter
          (fun q => decide (q.id = (amountAction 100 2).id))
          = (lastQueuedWithId (amountAction 100 2).id
              [amountAction 100 1, amountAction 7 0, amountAction 100 2]).toList) :=
  ⟨by decide,
   QueueAction_analog_last_write_wins quietEnv
    (by intro a b h; simp [quietEnv, h]) freshManager rfl
    [amountAction 100 1, amountAction 7 0, amountAction 100 2] (amountAction 100 2) (by decide)⟩

theorem queueAll_mem (env : Env) (s : CInputManager) (hs : s.m_queuedActions = [])
    (acts : List CAction) : ∀ q ∈ (queueAll env s acts).m_queuedActions, q ∈ acts := by
  induction acts using List.reverseRecOn with
  | nil => simp [queueAll, hs]
  | append_singleton acts x ih =>
    intro q hq
    rw [queueAll_snoc, QueueAction_queue, List.mem_append] at hq
    rcases hq with hq | hq
    · refine List.mem_append_left _ (ih q ?_)
      split at hq
      · exact (List.mem_filter.mp hq).1
      · exact hq
    · exact List.mem_append_right _ hq

theorem queue_filter_nonanalog (env : Env) (s : CInputManager) (hs : s.m_queuedActions = [])
    (acts : List CAction)
    (hSep : ∀ a ∈ acts, ∀ b ∈ acts, env.IsAnalog a = true → env.IsAnalog b = false → a.id ≠ b.id) :
    (queueAll env s acts).m_queuedActions.filter (fun a => !env.IsAnalog a)
      = acts.filter (fun a => !env.IsAnalog a) := by
  induction acts using List.reverseRecOn with
  | nil => simp [queueAll, hs]
  | append_singleton acts x ih =>
    have ih1 := ih (fun a ha b hb => hSep a (List.mem_append_left _ ha) b (List.mem_append_left _ hb))
    rw [queueAll_snoc, QueueAction_queue, List.filter_append, List.filter_append]
    congr 1
    rw [← ih1]
    split
    · rename_i hx
      rw [List.filter_filter]
      apply List.filter_congr
      intro q hq
      cases hqa : env.IsAnalog q with
      | true => simp
      | false =>
        have hne := hSep x (List.mem_append_right _ (List.mem_singleton.mpr rfl)) q
          (List.mem_append_left _ (queueAll_mem env s hs acts q hq)) hx hqa
        simp [hne]
    · rfl

/-- C2: `ProcessQueuedActions` hands to the application handler exactly the queued actions,
each once, in queue order, and emits nothing else; and the queue order of the non-analog
actions is the order of the `QueueAction` calls (no analog action sharing an id with a
non-analog one). -/
theorem ProcessQueuedActions_forwards_fifo (env : Env) (s s0 : CInputManager)
    (acts : List CAction) (hs0 : s0.m_queuedActions = [])
    (hSep : ∀ a ∈ acts, ∀ b ∈ acts, env.IsAnalog a = true → env.IsAnalog b = false → a.id ≠ b.id) :
    (ProcessQueuedActions env s).trace = s.trace ++ s.m_queuedActions.map Event.OnAction
    ∧ dispatched (ProcessQueuedActions env s).trace = dispatched s.trace ++ s.m_queuedActions
    ∧ (queueAll env s0 acts).m_queuedActions.filter (fun a => !env.IsAnalog a)
        = acts.filter (fun a => !env.IsAnalog a)
    ∧ dispatched (ProcessQueuedActions env (queueAll env s0 acts)).trace
        = dispatched s0.trace ++ (queueAll env s0 acts).m_queuedActions := by
  refine ⟨?_, ?_, queue_filter_nonanalog env s0 hs0 acts hSep, ?_⟩
  · rw [ProcessQueuedActions_eq]
  · rw [ProcessQueuedActions_eq]
    simp [dispatched_append, dispatched_map_OnAction]
  · rw [ProcessQueuedActions_eq]
    have htr : ∀ l : List CAction, (queueAll env s0 l).trace = s0.trace := by
      intro l
      induction l using List.reverseRecOn with
      | nil => rfl
      | append_singleton l x ih => rw [queueAll_snoc]; simpa [QueueAction] using ih
    simp [dispatched_append, dispatched_map_OnAction, htr]

/-- Witness of C2: a queue of two actions is drained; three plain actions are queued. -/
theorem ProcessQueuedActions_forwards_fifo_witness :
    freshManager.m_queuedActions = []
    ∧ ((ProcessQueuedActions quietEnv
          { freshManager with m_queuedActions := [amountAction 3 0, amountAction 100 5] }).trace
        = [Event.OnAction (amountAction 3 0), Event.OnAction (amountAction 100 5)])
    ∧ (queueAll quietEnv freshManager
          [amountAction 7 0, amountAction 100 1, amountAction 3 0]).m_queuedActions.filter
          (fun a => !quietEnv.IsAnalog a) = [amountAction 7 0, amountAction 3 0] :=
  ⟨rfl,
   (ProcessQueuedActions_forwards_fifo quietEnv
      { freshManager with m_queuedActions := [amountAction 3 0, amountAction 100 5] }
      freshManager [amountAction 7 0, amountAction 100 1, amountAction 3 0] rfl
      (by intro a ha b hb h1 h2 h; simp [quietEnv] at h1 h2; exact h2 (h ▸ h1))).1,
   (ProcessQueuedActions_forwards_fifo quietEnv
      { freshManager with m_queuedActions := [amountAction 3 0, amountAction 100 5] }
      freshManager [amountAction 7 0, amountAction 100 1, amountAction 3 0] rfl
      (by intro a ha b hb h1 h2 h; simp [quietEnv] at h1 h2; exact h2 (h ▸ h1))).2.2.1⟩

/-- C3: the queue is empty right after `ProcessQueuedActions`, so a second call in a row
dispatches nothing: it leaves the whole state, trace included, as the first call left it. -/
theorem ProcessQueuedActions_idempotent (env : Env) (s : CInputManager) :
    (ProcessQueuedActions env s).m_queuedActions = []
    ∧ ProcessQueuedActions env (ProcessQueuedActions env s) = ProcessQueuedActions env s
    ∧ dispatched (ProcessQueuedActions env (ProcessQueuedActions env s)).trace
        = dispatched (ProcessQueuedActions env s).trace := by
  have h : ProcessQueuedActions env (ProcessQueuedActions env s) = ProcessQueuedActions env s := by
    rw [ProcessQueuedActions_eq env (ProcessQueuedActions env s), ProcessQueuedActions_eq env s]
    simp
  refine ⟨?_, h, by rw [h]⟩
  rw [ProcessQueuedActions_eq]

/-! ## The key pipeline: frame lemmas

Each member function only appends to the trace; the appended events do not depend on the
state the function is entered in, apart from the value of the tracker recorded with the entry
into `HandleKey`. -/

theorem emit_eq (s : CInputManager) (e : Event) :
    s.emit e = { s with trace := s.trace ++ [e] } := rfl

theorem ExecuteInputAction_frame (env : Env) (a : CAction) :
    ∃ evs : List Event,
      (∀ s, ExecuteInputAction env s a = (env.appOnAction a, { s with trace := s.trace ++ evs }))
      ∧ handleKeyCalls evs = [] ∧ offeredTo evs = [] ∧ dispatched evs = [a] := by
  by_cases hh : a.holdTime ≠ 0
  · by_cases hr : env.appOnAction a = true
    · refine ⟨[Event.OnAction a, Event.PlayActionSound a], ?_, rfl, rfl, rfl⟩
      intro s
      simp [ExecuteInputAction, hh, hr, g_application_OnAction, CInputManager.emit]
    · refine ⟨[Event.OnAction a], ?_, rfl, rfl, rfl⟩
      intro s
      simp [ExecuteInputAction, hh, hr, g_application_OnAction, CInputManager.emit]
  · refine ⟨[Event.PlayActionSound a, Event.OnAction a], ?_, rfl, rfl, rfl⟩
    intro s
    simp [ExecuteInputAction, hh, g_application_OnAction, CInputManager.emit]

theorem keyboardAction_frame (env : Env) (key : CKey) :
    ∃ (ka : CAction) (evs : List Event),
      (∀ s, keyboardAction env s key = (ka, { s with trace := s.trace ++ evs }))
      ∧ handleKeyCalls evs = [] ∧ offeredTo evs = [] ∧ dispatched evs = [] := by
  refine ⟨(keyboardAction env freshManager key).1, (keyboardAction env freshManager key).2.trace,
    ?_, ?_, ?_, ?_⟩
  · intro s
    simp only [keyboardAction, translatorGetAction, CInputManager.emit]
    split_ifs <;> simp [freshManager]
  all_goals
    simp only [keyboardAction, translatorGetAction, CInputManager.emit]
    split_ifs <;> rfl

theorem windowAction_frame (env : Env) (iWin : Int) (key : CKey) (action : CAction) :
    ∃ (wa : CAction) (evs : List Event),
      (∀ s, windowAction env s iWin key action = (wa, { s with trace := s.trace ++ evs }))
      ∧ handleKeyCalls evs = [] ∧ offeredTo evs = [] ∧ dispatched evs = [] := by
  refine ⟨(windowAction env freshManager iWin key action).1,
    (windowAction env freshManager iWin key action).2.trace, ?_, ?_, ?_, ?_⟩
  · intro s
    simp only [windowAction, translatorGetAction, CInputManager.emit]
    split_ifs <;> simp [freshManager]
  all_goals
    simp only [windowAction, translatorGetAction, CInputManager.emit]
    split_ifs <;> rfl

theorem HandleKeyResolve_frame (env : Env) (key : CKey) (iWin : Int) (action : CAction)
    (processKey : Bool) :
    ∃ (b : Bool) (evs : List Event),
      (∀ s, HandleKeyResolve env s key iWin action processKey
          = (b, { s with trace := s.trace ++ evs }))
      ∧ handleKeyCalls evs = [] ∧ offeredTo evs = []
      ∧ (∀ s0, dispatched evs = resolveDispatched env s0 key iWin action processKey) := by
  unfold resolveDispatched
  obtain ⟨ka, kevs, hk, hk1, hk2, hk3⟩ := keyboardAction_frame env key
  obtain ⟨wa, wevs, hw, hw1, hw2, hw3⟩ := windowAction_frame env iWin key action
  obtain ⟨xw, hxw, hxw1, hxw2, hxw3⟩ := ExecuteInputAction_frame env wa
  obtain ⟨xa, hxa, hxa1, hxa2, hxa3⟩ := ExecuteInputAction_frame env action
  by_cases hwake : (env.WakeUpScreenSaverAndDPMS processKey && !processKey) = true
  · refine ⟨true, [Event.ResetScreenSaver, Event.WakeUpScreenSaverAndDPMS processKey],
      ?_, rfl, rfl, ?_⟩
    · intro s
      simp only [HandleKeyResolve, if_pos hwake, CInputManager.emit, List.append_assoc,
        List.singleton_append]
    · intro s0
      rw [if_pos hwake]; rfl
  · by_cases hfs : iWin ≠ env.c.WINDOW_FULLSCREEN_VIDEO ∧ iWin ≠ env.c.WINDOW_FULLSCREEN_GAME
    · by_cases huk : useKeyboard env iWin key = true
      · by_cases happ : env.appOnAction ka = true
        · refine ⟨true, [Event.ResetScreenSaver, Event.WakeUpScreenSaverAndDPMS processKey]
            ++ kevs ++ [Event.OnAction ka], ?_, ?_, ?_, ?_⟩
          · intro s
            simp only [HandleKeyResolve, if_neg hwake, if_pos hfs, if_pos huk, hk,
              g_application_OnAction, happ, if_true, CInputManager.emit, List.append_assoc,
              List.singleton_append, List.cons_append, List.nil_append]
          · simp [handleKeyCalls_append, hk1, handleKeyCalls]
          · simp [offeredTo_append, hk2, offeredTo]
          · intro s0
            rw [if_neg hwake, if_pos hfs, if_pos huk, hk s0]
            simp [dispatched_append, hk3, dispatched, happ]
        · refine ⟨env.appOnAction wa,
            [Event.ResetScreenSaver, Event.WakeUpScreenSaverAndDPMS processKey]
            ++ kevs ++ [Event.OnAction ka] ++ wevs ++ xw, ?_, ?_, ?_, ?_⟩
          · intro s
            simp only [HandleKeyResolve, if_neg hwake, if_pos hfs, if_pos huk, hk,
              g_application_OnAction, happ, hw, hxw, CInputManager.emit, List.append_assoc,
              List.singleton_append, List.cons_append, List.nil_append]
            simp
          · simp [handleKeyCalls_append, hk1, hw1, hxw1, handleKeyCalls]
          · simp [offeredTo_append, hk2, hw2, hxw2, offeredTo]
          · intro s0
            rw [if_neg hwake, if_pos hfs, if_pos huk, hk s0, hw s0]
            simp [dispatched_append, hk3, hw3, hxw3, dispatched, happ]
      · refine ⟨env.appOnAction wa,
          [Event.ResetScreenSaver, Event.WakeUpScreenSaverAndDPMS processKey] ++ wevs ++ xw,
          ?_, ?_, ?_, ?_⟩
        · intro s
          simp only [HandleKeyResolve, if_neg hwake, if_pos hfs, if_neg huk, hw, hxw,
            CInputManager.emit, List.append_assoc, List.singleton_append, List.cons_append,
            List.nil_append]
        · simp [handleKeyCalls_append, hw1, hxw1, handleKeyCalls]
        · simp [offeredTo_append, hw2, hxw2, offeredTo]
        · intro s0
          rw [if_neg hwake, if_pos hfs, if_neg huk, hw s0]
          simp [dispatched_append, hw3, hxw3, dispatched]
    · refine ⟨env.appOnAction action,
        [Event.ResetScreenSaver, Event.WakeUpScreenSaverAndDPMS processKey] ++ xa,
        ?_, ?_, ?_, ?_⟩
      · intro s
        simp only [HandleKeyResolve, if_neg hwake, if_neg hfs, hxa,
          CInputManager.emit, List.append_assoc, List.singleton_append, List.cons_append,
          List.nil_append]
      · simp [handleKeyCalls_append, hxa1, handleKeyCalls]
      · simp [offeredTo_append, hxa2, offeredTo]
      · intro s0
        rw [if_neg hwake, if_neg hfs]
        simp [dispatched_append, hxa3, dispatched]

theorem HandleKey_frame (env : Env) (key : CKey) :
    ∃ (b : Bool) (evs : List Event),
      (∀ s, HandleKey env s key
          = (b, { s with m_mouseActive := false,
                         trace := s.trace ++ Event.HandleKey key s.m_LastKey :: evs }))
      ∧ handleKeyCalls evs = [] ∧ offeredTo evs = []
      ∧ (∀ s0, dispatched evs = handleKeyDispatched env s0 key) := by
  obtain ⟨b, revs, hr, hr1, hr2, hr3⟩ := HandleKeyResolve_frame env key env.GetActiveWindowID
    (env.GetAction env.GetActiveWindowID key true)
    (AlwaysProcess env (env.GetAction env.GetActiveWindowID key true))
  unfold handleKeyDispatched cecShortCircuit
  by_cases ht : env.StartsWithNoCase (env.GetAction env.GetActiveWindowID key true).name
      "CECToggleState" = true
  · by_cases hres : env.cecToggleResult = true
    · refine ⟨b, [Event.GetAction env.GetActiveWindowID key true, Event.ResetSystemIdleTimer,
        Event.SendMsgCecToggleState] ++ revs, ?_, ?_, ?_, ?_⟩
      · intro s
        simp only [HandleKey, translatorGetAction, ht, hres, hr, CInputManager.emit]
        simp
      · simp [handleKeyCalls_append, hr1, handleKeyCalls]
      · simp [offeredTo_append, hr2, offeredTo]
      · intro s0
        simp [dispatched_append, hr3 s0, dispatched, ht, hres]
    · refine ⟨true, [Event.GetAction env.GetActiveWindowID key true, Event.ResetSystemIdleTimer,
        Event.SendMsgCecToggleState], ?_, rfl, rfl, ?_⟩
      · intro s
        simp only [HandleKey, translatorGetAction, ht, hres, CInputManager.emit]
        simp
      · intro s0
        simp [dispatched, ht, hres]
  · by_cases hs : env.StartsWithNoCase (env.GetAction env.GetActiveWindowID key true).name
        "CECStandby" = true
    · refine ⟨true, [Event.GetAction env.GetActiveWindowID key true, Event.ResetSystemIdleTimer,
        Event.PostMsgCecStandby], ?_, rfl, rfl, ?_⟩
      · intro s
        simp only [HandleKey, translatorGetAction, ht, hs, CInputManager.emit]
        simp
      · intro s0
        simp [dispatched, ht, hs]
    · refine ⟨b, [Event.GetAction env.GetActiveWindowID key true, Event.ResetSystemIdleTimer]
        ++ revs, ?_, ?_, ?_, ?_⟩
      · intro s
        simp only [HandleKey, translatorGetAction, ht, hs, hr, CInputManager.emit]
        simp
      · simp [handleKeyCalls_append, hr1, handleKeyCalls]
      · simp [offeredTo_append, hr2, offeredTo]
      · intro s0
        simp [dispatched_append, hr3 s0, dispatched, ht, hs]

theorem offerKeyPress_eq (env : Env) (key : CKey) (hs : List Handler) (s : CInputManager) :
    offerKeyPress env key hs s
      = (hs.any (fun h => env.OnKeyPress h key),
         { s with trace := s.trace ++ (offerOrder env key hs).map (fun h => Event.OnKeyPress h key) }) := by
  induction hs generalizing s with
  | nil => simp [offerKeyPress, offerOrder]
  | cons h rest ih =>
    by_cases hc : env.OnKeyPress h key = true
    · simp [offerKeyPress, offerOrder, hc, CInputManager.emit]
    · simp [offerKeyPress, offerOrder, hc, ih, CInputManager.emit]

theorem handleKeyCalls_map_OnKeyPress (key : CKey) (hs : List Handler) :
    handleKeyCalls (hs.map (fun h => Event.OnKeyPress h key)) = [] := by
  induction hs with
  | nil => rfl
  | cons h t ih => simpa [handleKeyCalls] using ih

theorem dispatched_map_OnKeyPress (key : CKey) (hs : List Handler) :
    dispatched (hs.map (fun h => Event.OnKeyPress h key)) = [] := by
  induction hs with
  | nil => rfl
  | cons h t ih => simpa [dispatched] using ih

theorem offeredTo_map_OnKeyPress (key : CKey) (hs : List Handler) :
    offeredTo (hs.map (fun h => Event.OnKeyPress h key)) = hs := by
  induction hs with
  | nil => rfl
  | cons h t ih => simpa [offeredTo] using ih

theorem any_OnKeyPress_false (env : Env) (key : CKey) (hs : List Handler)
    (hNo : ∀ h ∈ hs, env.OnKeyPress h key = false) :
    hs.any (fun h => env.OnKeyPress h key) = false := by
  rw [List.any_eq_false]
  intro h hh
  simp [hNo h hh]

theorem offerOrder_unclaimed (env : Env) (key : CKey) (hs : List Handler)
    (hNo : ∀ h ∈ hs, env.OnKeyPress h key = false) : offerOrder env key hs = hs := by
  induction hs with
  | nil => rfl
  | cons h t ih =>
    have h1 : env.OnKeyPress h key = false := hNo h (List.mem_cons_self _ _)
    simp [offerOrder, h1, ih (fun x hx => hNo x (List.mem_cons_of_mem _ hx))]

theorem OnKey_offeredTo (env : Env) (s : CInputManager) (key : CKey) :
    offeredTo (OnKey env s key).2.trace
      = offeredTo s.trace ++ offerOrder env key s.m_keyboardHandlers := by
  obtain ⟨b, evs, hf, _, h2, _⟩ := HandleKey_frame env key
  simp only [OnKey, offerKeyPress_eq, hf]
  split_ifs <;>
    simp [offeredTo_append, offeredTo_map_OnKeyPress, offeredTo, h2]

theorem OnKey_unclaimed (env : Env) (s : CInputManager) (key : CKey)
    (hNo : ∀ h ∈ s.m_keyboardHandlers, env.OnKeyPress h key = false) :
    (OnKey env s key).2.m_keyboardHandlers = s.m_keyboardHandlers
    ∧ (OnKey env s key).2.m_LastKey =
        (if key.buttonCode = s.m_LastKey.buttonCode
            ∧ (s.m_LastKey.buttonCode &&& env.c.MODIFIER_LONG) ≠ 0 then s.m_LastKey
         else if env.HasLongpressMapping env.GetActiveWindowID key = false then CKey.Reset env.c
         else key)
    ∧ handleKeyCalls (OnKey env s key).2.trace = handleKeyCalls s.trace ++
        (if key.buttonCode = s.m_LastKey.buttonCode
            ∧ (s.m_LastKey.buttonCode &&& env.c.MODIFIER_LONG) ≠ 0 then []
         else if env.HasLongpressMapping env.GetActiveWindowID key = false then [key]
         else if key.buttonCode ≠ s.m_LastKey.buttonCode
            ∧ (key.buttonCode &&& env.c.MODIFIER_LONG) ≠ 0 then [key]
         else []) := by
  obtain ⟨b, evs, hf, h1, _, _⟩ := HandleKey_frame env key
  have hany := any_OnKeyPress_false env key s.m_keyboardHandlers hNo
  simp only [OnKey, offerKeyPress_eq, hf, hany]
  refine ⟨?_, ?_, ?_⟩
  · split_ifs <;> rfl
  · split_ifs <;> simp_all
  · split_ifs <;>
      simp_all [handleKeyCalls_append, handleKeyCalls_map_OnKeyPress, handleKeyCalls]

theorem releaseAll_eq (key : CKey) (hs : List Handler) (s : CInputManager) :
    hs.foldl (fun st h => st.emit (Event.OnKeyRelease h key)) s
      = { s with trace := s.trace ++ hs.map (fun h => Event.OnKeyRelease h key) } := by
  induction hs generalizing s with
  | nil => simp
  | cons h t ih =>
    rw [List.foldl_cons, ih]
    simp [CInputManager.emit]

theorem handleKeyCalls_map_OnKeyRelease (key : CKey) (hs : List Handler) :
    handleKeyCalls (hs.map (fun h => Event.OnKeyRelease h key)) = [] := by
  induction hs with
  | nil => rfl
  | cons h t ih => simpa [handleKeyCalls] using ih

theorem OnKeyUp_spec (env : Env) (s : CInputManager) (key : CKey) :
    (OnKeyUp env s key).m_keyboardHandlers = s.m_keyboardHandlers
    ∧ (OnKeyUp env s key).m_LastKey = CKey.Reset env.c
    ∧ handleKeyCalls (OnKeyUp env s key).trace = handleKeyCalls s.trace ++
        (if s.m_LastKey.buttonCode ≠ env.c.KEY_INVALID
            ∧ ¬ (s.m_LastKey.buttonCode &&& env.c.MODIFIER_LONG) ≠ 0 then [s.m_LastKey]
         else []) := by
  obtain ⟨b, evs, hf, h1, _, _⟩ := HandleKey_frame env s.m_LastKey
  simp only [OnKeyUp, releaseAll_eq, hf]
  refine ⟨?_, ?_, ?_⟩
  · split_ifs <;> rfl
  · split_ifs <;> rfl
  · split_ifs <;>
      simp [handleKeyCalls_append, handleKeyCalls_map_OnKeyRelease, handleKeyCalls, h1]

/-! ## The keyboard handler registry: theorems -/

theorem RegisterKeyboardHandler_eq (s : CInputManager) (h : Handler) :
    RegisterKeyboardHandler s h
      = (if h ∈ s.m_keyboardHandlers then s
         else { s with m_keyboardHandlers := h :: s.m_keyboardHandlers }) := by
  unfold RegisterKeyboardHandler
  by_cases hm : h ∈ s.m_keyboardHandlers
  · have : ¬ s.m_keyboardHandlers.find? (fun x => decide (x = h)) = none := by
      rw [List.find?_eq_none]
      intro hall
      simpa using hall h hm
    rw [if_neg this, if_pos hm]
  · have : s.m_keyboardHandlers.find? (fun x => decide (x = h)) = none := by
      rw [List.find?_eq_none]
      intro x hx
      simp only [decide_eq_true_eq]
      intro hxh
      exact hm (hxh ▸ hx)
    rw [if_pos this, if_neg hm]

theorem registerAll_nodup (hs : List Handler) (s : CInputManager)
    (hn : s.m_keyboardHandlers.Nodup) : (registerAll s hs).m_keyboardHandlers.Nodup := by
  induction hs generalizing s with
  | nil => exact hn
  | cons h t ih =>
    unfold registerAll
    rw [List.foldl_cons]
    apply ih
    rw [RegisterKeyboardHandler_eq]
    split
    · exact hn
    · rename_i hm
      exact List.nodup_cons.mpr ⟨hm, hn⟩

/-- C4: `RegisterKeyboardHandler(h)` leaves the handler list unchanged when `h` is already in
it and otherwise puts `h` in front of it; registering the same handler twice equals
registering it once; a list built by registrations only never holds a handler twice. -/
theorem RegisterKeyboardHandler_idempotent (s : CInputManager) (h : Handler)
    (hs : List Handler) :
    RegisterKeyboardHandler s h
      = (if h ∈ s.m_keyboardHandlers then s
         else { s with m_keyboardHandlers := h :: s.m_keyboardHandlers })
    ∧ RegisterKeyboardHandler (RegisterKeyboardHandler s h) h = RegisterKeyboardHandler s h
    ∧ (registerAll { s with m_keyboardHandlers := [] } hs).m_keyboardHandlers.Nodup := by
  refine ⟨RegisterKeyboardHandler_eq s h, ?_, registerAll_nodup hs _ List.nodup_nil⟩
  rw [RegisterKeyboardHandler_eq (RegisterKeyboardHandler s h) h, if_pos]
  rw [RegisterKeyboardHandler_eq]
  split
  · assumption
  · exact List.mem_cons_self _ _

/-- C6: `UnregisterKeyboardHandler(h)` yields the handler list with every occurrence of `h`
removed and the other handlers in their original relative order; registering a handler
that is not in the list and unregistering it again gives back the state as it was. -/
theorem UnregisterKeyboardHandler_removes (s : CInputManager) (h : Handler) :
    (UnregisterKeyboardHandler s h).m_keyboardHandlers
      = s.m_keyboardHandlers.filter (fun x => decide (x ≠ h))
    ∧ h ∉ (UnregisterKeyboardHandler s h).m_keyboardHandlers
    ∧ (UnregisterKeyboardHandler s h).m_keyboardHandlers.Sublist s.m_keyboardHandlers
    ∧ UnregisterKeyboardHandler (RegisterKeyboardHandler s h) h
        = (if h ∈ s.m_keyboardHandlers then UnregisterKeyboardHandler s h else s) := by
  have hf : ∀ t : CInputManager, (UnregisterKeyboardHandler t h).m_keyboardHandlers
      = t.m_keyboardHandlers.filter (fun x => decide (x ≠ h)) := by
    intro t
    simp [UnregisterKeyboardHandler, eraseRemoveIf_eq_filter]
  refine ⟨hf s, ?_, ?_, ?_⟩
  · rw [hf]
    simp [List.mem_filter]
  · rw [hf]
    exact List.filter_sublist _
  · rw [RegisterKeyboardHandler_eq]
    split
    · rfl
    · rename_i hm
      have hl : s.m_keyboardHandlers.filter (fun x => !decide (x = h)) = s.m_keyboardHandlers := by
        rw [List.filter_eq_self]
        intro x hx
        have : x ≠ h := fun e => hm (e ▸ hx)
        simp [this]
      cases s
      simp_all [UnregisterKeyboardHandler, eraseRemoveIf_eq_filter]

/-! ## `OnKey` and the handlers: theorems -/

/-- Counterexample to C5: handlers 1 and 2 are registered in this order on a fresh manager
and both would claim the key; `OnKey` offers the key to handler 2 alone. -/
theorem OnKey_first_registered_not_first_offered :
    (registerAll freshManager [1, 2]).m_keyboardHandlers = [2, 1]
    ∧ claimAllEnv.OnKeyPress 1 keyA = true ∧ claimAllEnv.OnKeyPress 2 keyA = true
    ∧ offeredTo (OnKey claimAllEnv (registerAll freshManager [1, 2]) keyA).2.trace = [2]
    ∧ (1 : Handler) ∉ offeredTo (OnKey claimAllEnv (registerAll freshManager [1, 2]) keyA).2.trace := by
  decide

/-- C5 (amended): for distinct handlers `h1`, `h2` not yet in the list, registered in this
order, the list becomes `h2 :: h1 :: L`; `OnKey` offers a key to `h2` first and to `h1` only
when `h2` declines; when `h2` would claim the key, `h2` alone is offered it. -/
theorem OnKey_last_registered_first_offered (env : Env) (s : CInputManager) (h1 h2 : Handler)
    (key : CKey) (hne : h1 ≠ h2) (hn1 : h1 ∉ s.m_keyboardHandlers)
    (hn2 : h2 ∉ s.m_keyboardHandlers) :
    (RegisterKeyboardHandler (RegisterKeyboardHandler s h1) h2).m_keyboardHandlers
      = h2 :: h1 :: s.m_keyboardHandlers
    ∧ offeredTo (OnKey env (RegisterKeyboardHandler (RegisterKeyboardHandler s h1) h2) key).2.trace
      = offeredTo s.trace ++
          (if env.OnKeyPress h2 key = true then [h2]
           else h2 :: h1 :: (if env.OnKeyPress h1 key = true then []
                             else offerOrder env key s.m_keyboardHandlers)) := by
  have hreg : RegisterKeyboardHandler (RegisterKeyboardHandler s h1) h2
      = { s with m_keyboardHandlers := h2 :: h1 :: s.m_keyboardHandlers } := by
    have hn2x : h2 ∉ h1 :: s.m_keyboardHandlers := by
      simp only [List.mem_cons, not_or]
      exact ⟨fun e => hne e.symm, hn2⟩
    rw [RegisterKeyboardHandler_eq s h1, if_neg hn1, RegisterKeyboardHandler_eq, if_neg hn2x]
  rw [hreg, OnKey_offeredTo]
  refine ⟨rfl, ?_⟩
  simp only [offerOrder]
  split_ifs <;> rfl

/-- Witness of C5 (amended): handlers 1 and 2 on a fresh manager, both claiming. -/
theorem OnKey_last_registered_first_offered_witness :
    (1 : Handler) ≠ 2
    ∧ offeredTo (OnKey claimAllEnv
        (RegisterKeyboardHandler (RegisterKeyboardHandler freshManager 1) 2) keyA).2.trace
      = offeredTo freshManager.trace ++
          (if claimAllEnv.OnKeyPress 2 keyA = true then [2]
           else 2 :: 1 :: (if claimAllEnv.OnKeyPress 1 keyA = true then []
                           else offerOrder claimAllEnv keyA freshManager.m_keyboardHandlers)) :=
  ⟨by decide,
   (OnKey_last_registered_first_offered claimAllEnv freshManager 1 2 keyA (by decide)
      (by decide) (by decide)).2⟩

theorem offerOrder_claimed (env : Env) (key : CKey) (hs : List Handler)
    (hClaim : ∃ h ∈ hs, env.OnKeyPress h key = true) :
    ∃ (pre : List Handler) (h : Handler) (post : List Handler),
      hs = pre ++ h :: post ∧ (∀ x ∈ pre, env.OnKeyPress x key = false)
      ∧ env.OnKeyPress h key = true ∧ offerOrder env key hs = pre ++ [h]
      ∧ hs.any (fun x => env.OnKeyPress x key) = true := by
  induction hs with
  | nil => obtain ⟨h, hm, _⟩ := hClaim; cases hm
  | cons a t ih =>
    by_cases ha : env.OnKeyPress a key = true
    · exact ⟨[], a, t, rfl, by simp, ha, by simp [offerOrder, ha], by simp [ha]⟩
    · have hrest : ∃ h ∈ t, env.OnKeyPress h key = true := by
        obtain ⟨h, hm, hc⟩ := hClaim
        rcases List.mem_cons.mp hm with e | hm1
        · exact absurd (e ▸ hc) ha
        · exact ⟨h, hm1, hc⟩
      obtain ⟨pre, h, post, e1, e2, e3, e4, e5⟩ := ih hrest
      refine ⟨a :: pre, h, post, by simp [e1], ?_, e3, by simp [offerOrder, ha, e4], ?_⟩
      · intro x hx
        rcases List.mem_cons.mp hx with e | hx1
        · simpa [e] using ha
        · exact e2 x hx1
      · simp [e5]

/-- C7: when some registered keyboard handler claims the key, `OnKey` offers the key to the
handlers in list order up to the first claiming one and to none after it, does not enter
`HandleKey`, dispatches no action, resets `m_LastKey` to the invalid key and returns true. -/
theorem OnKey_claimed (env : Env) (s : CInputManager) (key : CKey)
    (hClaim : ∃ h ∈ s.m_keyboardHandlers, env.OnKeyPress h key = true) :
    ∃ (pre : List Handler) (h : Handler) (post : List Handler),
      s.m_keyboardHandlers = pre ++ h :: post
      ∧ (∀ x ∈ pre, env.OnKeyPress x key = false) ∧ env.OnKeyPress h key = true
      ∧ OnKey env s key
          = (true, { s with m_LastKey := CKey.Reset env.c,
                            trace := s.trace ++ (pre ++ [h]).map (fun x => Event.OnKeyPress x key) })
      ∧ offeredTo (OnKey env s key).2.trace = offeredTo s.trace ++ (pre ++ [h])
      ∧ handleKeyCalls (OnKey env s key).2.trace = handleKeyCalls s.trace
      ∧ dispatched (OnKey env s key).2.trace = dispatched s.trace
      ∧ (OnKey env s key).2.m_LastKey.buttonCode = env.c.KEY_INVALID
      ∧ (OnKey env s key).1 = true := by
  obtain ⟨pre, h, post, e1, e2, e3, e4, e5⟩ := offerOrder_claimed env key _ hClaim
  have hk : OnKey env s key
      = (true, { s with m_LastKey := CKey.Reset env.c,
                        trace := s.trace ++ (pre ++ [h]).map (fun x => Event.OnKeyPress x key) }) := by
    simp only [OnKey, offerKeyPress_eq, e5, e4, if_true]
  refine ⟨pre, h, post, e1, e2, e3, hk, ?_, ?_, ?_, ?_, ?_⟩
  · rw [hk]; simp only [offeredTo_append, offeredTo_map_OnKeyPress]
  · rw [hk]; simp only [handleKeyCalls_append, handleKeyCalls_map_OnKeyPress, List.append_nil]
  · rw [hk]; simp only [dispatched_append, dispatched_map_OnKeyPress, List.append_nil]
  · rw [hk]; rfl
  · rw [hk]

/-- Witness of C7: handlers registered 1, 2, 3 (list `[3, 2, 1]`), handler 2 claims. -/
theorem OnKey_claimed_witness :
    (∃ h ∈ (registerAll freshManager [1, 2, 3]).m_keyboardHandlers,
        secondClaimsEnv.OnKeyPress h keyA = true)
    ∧ ∃ (pre : List Handler) (h : Handler) (post : List Handler),
      (registerAll freshManager [1, 2, 3]).m_keyboardHandlers = pre ++ h :: post
      ∧ (∀ x ∈ pre, secondClaimsEnv.OnKeyPress x keyA = false)
      ∧ secondClaimsEnv.OnKeyPress h keyA = true
      ∧ OnKey secondClaimsEnv (registerAll freshManager [1, 2, 3]) keyA
          = (true, { registerAll freshManager [1, 2, 3] with
                m_LastKey := CKey.Reset secondClaimsEnv.c,
                trace := (registerAll freshManager [1, 2, 3]).trace
                  ++ (pre ++ [h]).map (fun x => Event.OnKeyPress x keyA) })
      ∧ offeredTo (OnKey secondClaimsEnv (registerAll freshManager [1, 2, 3]) keyA).2.trace
          = offeredTo (registerAll freshManager [1, 2, 3]).trace ++ (pre ++ [h])
      ∧ handleKeyCalls (OnKey secondClaimsEnv (registerAll freshManager [1, 2, 3]) keyA).2.trace
          = handleKeyCalls (registerAll freshManager [1, 2, 3]).trace
      ∧ dispatched (OnKey secondClaimsEnv (registerAll freshManager [1, 2, 3]) keyA).2.trace
          = dispatched (registerAll freshManager [1, 2, 3]).trace
      ∧ (OnKey secondClaimsEnv (registerAll freshManager [1, 2, 3]) keyA).2.m_LastKey.buttonCode
          = secondClaimsEnv.c.KEY_INVALID
      ∧ (OnKey secondClaimsEnv (registerAll freshManager [1, 2, 3]) keyA).1 = true :=
  ⟨⟨2, by decide, by decide⟩,
   OnKey_claimed secondClaimsEnv (registerAll freshManager [1, 2, 3]) keyA
     ⟨2, by decide, by decide⟩⟩

/-! ## `HandleKey`: theorems -/

/-- Counterexample to C8: an edit control is focused and the application handles nothing;
one call of `HandleKey` for the key `a` hands two actions to the application, the raw
character action and then the window action. -/
theorem HandleKey_dispatches_two :
    dispatched (HandleKey editEnv freshManager keyA).2.trace
      = [CAction.ofUnicode 61793 97, CAction.ofId 0]
    ∧ (dispatched (HandleKey editEnv freshManager keyA).2.trace).length = 2 := by
  decide

/-- C8 (amended): one call of `HandleKey` hands at most two actions to the application: none
when a CEC power built-in or waking the screensaver consumes the key, two (the keyboard
action, then the window action) when the virtual-keyboard path is taken and the application
does not handle the keyboard action, exactly one otherwise. -/
theorem HandleKey_dispatch_count (env : Env) (s : CInputManager) (key : CKey) :
    dispatched (HandleKey env s key).2.trace
      = dispatched s.trace ++ handleKeyDispatched env s key
    ∧ (handleKeyDispatched env s key).length
      = (if (cecShortCircuit env (env.GetAction env.GetActiveWindowID key true)
              || wakeShortCircuit env (env.GetAction env.GetActiveWindowID key true)) = true
          then 0
         else if keyboardFallThrough env s key = true then 2 else 1)
    ∧ (handleKeyDispatched env s key).length ≤ 2 := by
  obtain ⟨b, evs, hf, _, _, h3⟩ := HandleKey_frame env key
  have hlen : (handleKeyDispatched env s key).length
      = (if (cecShortCircuit env (env.GetAction env.GetActiveWindowID key true)
              || wakeShortCircuit env (env.GetAction env.GetActiveWindowID key true)) = true
          then 0
         else if keyboardFallThrough env s key = true then 2 else 1) := by
    unfold handleKeyDispatched resolveDispatched wakeShortCircuit keyboardFallThrough
    by_cases hc : cecShortCircuit env (env.GetAction env.GetActiveWindowID key true) = true
    · simp [hc]
    · by_cases hw : (env.WakeUpScreenSaverAndDPMS
          (AlwaysProcess env (env.GetAction env.GetActiveWindowID key true))
          && !AlwaysProcess env (env.GetAction env.GetActiveWindowID key true)) = true
      · simp only [hc, hw]; simp
      · simp only [hc, hw]
        by_cases hfs : env.GetActiveWindowID ≠ env.c.WINDOW_FULLSCREEN_VIDEO
            ∧ env.GetActiveWindowID ≠ env.c.WINDOW_FULLSCREEN_GAME
        · by_cases huk : useKeyboard env env.GetActiveWindowID key = true
          · by_cases happ : env.appOnAction (keyboardAction env s key).1 = true
            · simp [hfs, huk, happ]
            · simp [hfs, huk, happ]
          · simp [hfs, huk]
        · simp [hfs]
  refine ⟨?_, hlen, ?_⟩
  · rw [hf s]
    simp [dispatched_append, dispatched, h3 s]
  · rw [hlen]
    split_ifs <;> decide

/-! ## Key repeat and long press: theorems -/

theorem onKeyAll_append (env : Env) (s : CInputManager) (ks ls : List CKey) :
    onKeyAll env s (ks ++ ls) = onKeyAll env (onKeyAll env s ks) ls := by
  simp [onKeyAll, List.foldl_append]

theorem onKeyAll_cons (env : Env) (s : CInputManager) (k : CKey) (ks : List CKey) :
    onKeyAll env s (k :: ks) = onKeyAll env (OnKey env s k).2 ks := rfl

theorem or_and_self_right (c l : Nat) : (c ||| l) &&& l = l := by
  apply Nat.eq_of_testBit_eq
  intro i
  simp only [Nat.testBit_and, Nat.testBit_or]
  cases c.testBit i <;> cases l.testBit i <;> rfl

/-- Counterexample to C9: no handler, no long-press mapping; two `OnKey` calls for the same
key (button code 65, `MODIFIER_LONG` not set, hold times 0 and 100) enter `HandleKey` twice. -/
theorem OnKey_repeat_dispatches_twice :
    (65 &&& quietEnv.c.MODIFIER_LONG = 0 ∧ (plainKey 65 0).held < (plainKey 65 100).held)
    ∧ handleKeyCalls (onKeyAll quietEnv freshManager [plainKey 65 0, plainKey 65 100]).trace
      = [plainKey 65 0, plainKey 65 100]
    ∧ (handleKeyCalls
        (onKeyAll quietEnv freshManager [plainKey 65 0, plainKey 65 100]).trace).length = 2 := by
  decide

/-- C9 (amended): for a sequence of `OnKey` calls for the same key (same button code,
`MODIFIER_LONG` not set; any hold times) that no handler claims: when `HasLongpressMapping`
is true for the key, `HandleKey` is not entered at all over the sequence; when it is false,
`HandleKey` is entered on every call, with the key of that call. -/
theorem OnKey_repeat_same_key (env : Env) (s : CInputManager) (c : Nat) (keys : List CKey)
    (b : Bool) (hc : c &&& env.c.MODIFIER_LONG = 0)
    (hKeys : ∀ k ∈ keys, k.buttonCode = c)
    (hNo : ∀ h ∈ s.m_keyboardHandlers, ∀ k ∈ keys, env.OnKeyPress h k = false)
    (hLP : ∀ k ∈ keys, env.HasLongpressMapping env.GetActiveWindowID k = b) :
    handleKeyCalls (onKeyAll env s keys).trace
      = handleKeyCalls s.trace ++ (if b = true then [] else keys) := by
  induction keys generalizing s with
  | nil => cases b <;> simp [onKeyAll]
  | cons k ks ih =>
    have hk : k.buttonCode = c := hKeys k (List.mem_cons_self _ _)
    have hb : env.HasLongpressMapping env.GetActiveWindowID k = b := hLP k (List.mem_cons_self _ _)
    obtain ⟨e1, _, e3⟩ := OnKey_unclaimed env s k (fun h hh => hNo h hh k (List.mem_cons_self _ _))
    have hsw : ¬ (k.buttonCode = s.m_LastKey.buttonCode
        ∧ (s.m_LastKey.buttonCode &&& env.c.MODIFIER_LONG) ≠ 0) := by
      rintro ⟨h1, h2⟩
      rw [← h1, hk] at h2
      exact h2 hc
    have hfire : ¬ (k.buttonCode ≠ s.m_LastKey.buttonCode
        ∧ (k.buttonCode &&& env.c.MODIFIER_LONG) ≠ 0) := by
      rintro ⟨_, h2⟩
      rw [hk] at h2
      exact h2 hc
    rw [if_neg hsw, if_neg hfire, hb] at e3
    have ih1 := ih (OnKey env s k).2 (fun x hx => hKeys x (List.mem_cons_of_mem _ hx))
      (by rw [e1]; exact fun h hh x hx => hNo h hh x (List.mem_cons_of_mem _ hx))
      (fun x hx => hLP x (List.mem_cons_of_mem _ hx))
    rw [onKeyAll_cons, ih1, e3]
    cases b <;> simp

/-- Witness of C9 (amended): one registered handler, three repeats of key 65 with a long-press mapping. -/
theorem OnKey_repeat_same_key_witness :
    65 &&& longpressEnv.c.MODIFIER_LONG = 0
    ∧ handleKeyCalls
        (onKeyAll longpressEnv (registerAll freshManager [1])
          [plainKey 65 0, plainKey 65 100, plainKey 65 200]).trace
      = handleKeyCalls (registerAll freshManager [1]).trace
          ++ (if true = true then [] else [plainKey 65 0, plainKey 65 100, plainKey 65 200]) :=
  ⟨by decide,
   OnKey_repeat_same_key longpressEnv (registerAll freshManager [1]) 65
     [plainKey 65 0, plainKey 65 100, plainKey 65 200] true (by decide) (by decide)
     (by intro h _ k _; rfl) (by decide)⟩

theorem onKeyAll_short_phase (env : Env) (c : Nat) (hc : c &&& env.c.MODIFIER_LONG = 0)
    (shorts : List CKey) (s : CInputManager)
    (hLast : s.m_LastKey.buttonCode &&& env.c.MODIFIER_LONG = 0)
    (hShort : ∀ k ∈ shorts, k.buttonCode = c)
    (hNo : ∀ h ∈ s.m_keyboardHandlers, ∀ k ∈ shorts, env.OnKeyPress h k = false)
    (hLP : ∀ k ∈ shorts, env.HasLongpressMapping env.GetActiveWindowID k = true) :
    (onKeyAll env s shorts).m_keyboardHandlers = s.m_keyboardHandlers
    ∧ (onKeyAll env s shorts).m_LastKey.buttonCode &&& env.c.MODIFIER_LONG = 0
    ∧ handleKeyCalls (onKeyAll env s shorts).trace = handleKeyCalls s.trace := by
  induction shorts generalizing s with
  | nil => exact ⟨rfl, hLast, rfl⟩
  | cons k ks ih =>
    have hk : k.buttonCode = c := hShort k (List.mem_cons_self _ _)
    have hb := hLP k (List.mem_cons_self _ _)
    obtain ⟨e1, e2, e3⟩ := OnKey_unclaimed env s k (fun h hh => hNo h hh k (List.mem_cons_self _ _))
    have hsw : ¬ (k.buttonCode = s.m_LastKey.buttonCode
        ∧ (s.m_LastKey.buttonCode &&& env.c.MODIFIER_LONG) ≠ 0) := fun h => h.2 hLast
    have hfire : ¬ (k.buttonCode ≠ s.m_LastKey.buttonCode
        ∧ (k.buttonCode &&& env.c.MODIFIER_LONG) ≠ 0) := by
      rintro ⟨_, h2⟩
      rw [hk] at h2
      exact h2 hc
    rw [if_neg hsw, hb] at e2 e3
    rw [if_neg hfire] at e3
    simp only [Bool.true_eq_false, if_false, List.append_nil] at e2 e3
    obtain ⟨i1, i2, i3⟩ := ih (OnKey env s k).2 (by rw [e2, hk]; exact hc)
      (fun x hx => hShort x (List.mem_cons_of_mem _ hx))
      (by rw [e1]; exact fun h hh x hx => hNo h hh x (List.mem_cons_of_mem _ hx))
      (fun x hx => hLP x (List.mem_cons_of_mem _ hx))
    rw [onKeyAll_cons]
    exact ⟨i1.trans e1, i2, i3.trans e3⟩

theorem onKeyAll_long_repeats (env : Env) (cl : Nat) (hcl : cl &&& env.c.MODIFIER_LONG ≠ 0)
    (longs : List CKey) (s : CInputManager)
    (hLast : s.m_LastKey.buttonCode = cl)
    (hLongs : ∀ k ∈ longs, k.buttonCode = cl)
    (hNo : ∀ h ∈ s.m_keyboardHandlers, ∀ k ∈ longs, env.OnKeyPress h k = false) :
    (onKeyAll env s longs).m_keyboardHandlers = s.m_keyboardHandlers
    ∧ (onKeyAll env s longs).m_LastKey = s.m_LastKey
    ∧ handleKeyCalls (onKeyAll env s longs).trace = handleKeyCalls s.trace := by
  induction longs generalizing s with
  | nil => exact ⟨rfl, rfl, rfl⟩
  | cons k ks ih =>
    have hk : k.buttonCode = cl := hLongs k (List.mem_cons_self _ _)
    obtain ⟨e1, e2, e3⟩ := OnKey_unclaimed env s k (fun h hh => hNo h hh k (List.mem_cons_self _ _))
    have hsw : k.buttonCode = s.m_LastKey.buttonCode
        ∧ (s.m_LastKey.buttonCode &&& env.c.MODIFIER_LONG) ≠ 0 := by
      rw [hLast]; exact ⟨hk, hcl⟩
    rw [if_pos hsw] at e2 e3
    rw [List.append_nil] at e3
    obtain ⟨i1, i2, i3⟩ := ih (OnKey env s k).2 (by rw [e2]; exact hLast)
      (fun x hx => hLongs x (List.mem_cons_of_mem _ hx))
      (by rw [e1]; exact fun h hh x hx => hNo h hh x (List.mem_cons_of_mem _ hx))
    rw [onKeyAll_cons]
    exact ⟨i1.trans e1, i2.trans e2, i3.trans e3⟩

/-- C10: no handler claims the key, the tracker starts invalid, `HasLongpressMapping` is true
for the key.  Over `n ≥ 0` `OnKey` calls with the short code `c`, then `m ≥ 1` calls with the
code `c ||| MODIFIER_LONG` (first one `l0`), then `OnKeyUp`, `HandleKey` is entered exactly
once: not during the short calls, once at the first long key-down with the long key `l0`,
not at the later long repeats and not at the release. -/
theorem OnKey_longpress_fires_once (env : Env) (s : CInputManager) (c : Nat)
    (shorts : List CKey) (l0 : CKey) (rest : List CKey) (up : CKey)
    (hLong : env.c.MODIFIER_LONG ≠ 0)
    (hInvalid : env.c.KEY_INVALID &&& env.c.MODIFIER_LONG = 0)
    (hStart : s.m_LastKey.buttonCode = env.c.KEY_INVALID)
    (hc : c &&& env.c.MODIFIER_LONG = 0)
    (hShort : ∀ k ∈ shorts, k.buttonCode = c)
    (hLongs : ∀ k ∈ l0 :: rest, k.buttonCode = c ||| env.c.MODIFIER_LONG)
    (hNo : ∀ h ∈ s.m_keyboardHandlers, ∀ k ∈ shorts ++ l0 :: rest, env.OnKeyPress h k = false)
    (hLP : ∀ k ∈ shorts ++ l0 :: rest, env.HasLongpressMapping env.GetActiveWindowID k = true) :
    handleKeyCalls (onKeyAll env s shorts).trace = handleKeyCalls s.trace
    ∧ handleKeyCalls (onKeyAll env s (shorts ++ [l0])).trace = handleKeyCalls s.trace ++ [l0]
    ∧ handleKeyCalls (onKeyAll env s (shorts ++ l0 :: rest)).trace
        = handleKeyCalls s.trace ++ [l0]
    ∧ handleKeyCalls (OnKeyUp env (onKeyAll env s (shorts ++ l0 :: rest)) up).trace
        = handleKeyCalls s.trace ++ [l0] := by
  have hcl : (c ||| env.c.MODIFIER_LONG) &&& env.c.MODIFIER_LONG ≠ 0 := by
    rw [or_and_self_right]; exact hLong
  have hl0 : l0.buttonCode = c ||| env.c.MODIFIER_LONG := hLongs l0 (List.mem_cons_self _ _)
  obtain ⟨a1, a2, a3⟩ := onKeyAll_short_phase env c hc shorts s (by rw [hStart]; exact hInvalid)
    hShort (fun h hh k hk => hNo h hh k (List.mem_append_left _ hk))
    (fun k hk => hLP k (List.mem_append_left _ hk))
  have hl0mem : l0 ∈ shorts ++ l0 :: rest := List.mem_append_right _ (List.mem_cons_self _ _)
  obtain ⟨e1, e2, e3⟩ := OnKey_unclaimed env (onKeyAll env s shorts) l0
    (by rw [a1]; exact fun h hh => hNo h hh l0 hl0mem)
  have hsw : ¬ (l0.buttonCode = (onKeyAll env s shorts).m_LastKey.buttonCode
      ∧ ((onKeyAll env s shorts).m_LastKey.buttonCode &&& env.c.MODIFIER_LONG) ≠ 0) :=
    fun h => h.2 a2
  have hfire : l0.buttonCode ≠ (onKeyAll env s shorts).m_LastKey.buttonCode
      ∧ (l0.buttonCode &&& env.c.MODIFIER_LONG) ≠ 0 := by
    refine ⟨?_, by rw [hl0]; exact hcl⟩
    intro heq
    rw [← heq, hl0] at a2
    exact hcl a2
  rw [if_neg hsw, hLP l0 hl0mem] at e2 e3
  rw [if_pos hfire] at e3
  simp only [Bool.true_eq_false, if_false] at e2 e3
  obtain ⟨r1, r2, r3⟩ := onKeyAll_long_repeats env (c ||| env.c.MODIFIER_LONG) hcl rest
    (OnKey env (onKeyAll env s shorts) l0).2 (by rw [e2]; exact hl0)
    (fun k hk => hLongs k (List.mem_cons_of_mem _ hk))
    (by
      rw [e1, a1]
      exact fun h hh k hk => hNo h hh k (List.mem_append_right _ (List.mem_cons_of_mem _ hk)))
  have hfirst : handleKeyCalls (onKeyAll env s (shorts ++ [l0])).trace
      = handleKeyCalls s.trace ++ [l0] := by
    rw [onKeyAll_append, onKeyAll_cons]
    show handleKeyCalls (OnKey env (onKeyAll env s shorts) l0).2.trace = _
    rw [e3, a3]
  have hall : handleKeyCalls (onKeyAll env s (shorts ++ l0 :: rest)).trace
      = handleKeyCalls s.trace ++ [l0] := by
    rw [onKeyAll_append, onKeyAll_cons, r3, e3, a3]
  refine ⟨a3, hfirst, hall, ?_⟩
  obtain ⟨_, _, u3⟩ := OnKeyUp_spec env (onKeyAll env s (shorts ++ l0 :: rest)) up
  have hlast : (onKeyAll env s (shorts ++ l0 :: rest)).m_LastKey.buttonCode
      = c ||| env.c.MODIFIER_LONG := by
    rw [onKeyAll_append, onKeyAll_cons, r2, e2]; exact hl0
  have hup : ¬ ((onKeyAll env s (shorts ++ l0 :: rest)).m_LastKey.buttonCode ≠ env.c.KEY_INVALID
      ∧ ¬ ((onKeyAll env s (shorts ++ l0 :: rest)).m_LastKey.buttonCode
            &&& env.c.MODIFIER_LONG) ≠ 0) := by
    rintro ⟨_, h2⟩
    rw [hlast] at h2
    exact h2 hcl
  rw [if_neg hup, List.append_nil] at u3
  rw [u3, hall]

/-- Witness of C10: one registered handler, two short calls for key 65, two long calls, release. -/
theorem OnKey_longpress_fires_once_witness :
    (longpressEnv.c.MODIFIER_LONG ≠ 0
      ∧ longpressEnv.c.KEY_INVALID &&& longpressEnv.c.MODIFIER_LONG = 0
      ∧ (registerAll freshManager [1]).m_LastKey.buttonCode = longpressEnv.c.KEY_INVALID
      ∧ 65 &&& longpressEnv.c.MODIFIER_LONG = 0)
    ∧ (handleKeyCalls (onKeyAll longpressEnv (registerAll freshManager [1])
          [plainKey 65 0, plainKey 65 200]).trace = handleKeyCalls (registerAll freshManager [1]).trace
      ∧ handleKeyCalls (onKeyAll longpressEnv (registerAll freshManager [1])
          ([plainKey 65 0, plainKey 65 200] ++ [plainKey 16777281 600])).trace
          = handleKeyCalls (registerAll freshManager [1]).trace ++ [plainKey 16777281 600]
      ∧ handleKeyCalls (onKeyAll longpressEnv (registerAll freshManager [1])
          ([plainKey 65 0, plainKey 65 200]
            ++ plainKey 16777281 600 :: [plainKey 16777281 800])).trace
          = handleKeyCalls (registerAll freshManager [1]).trace ++ [plainKey 16777281 600]
      ∧ handleKeyCalls (OnKeyUp longpressEnv (onKeyAll longpressEnv (registerAll freshManager [1])
          ([plainKey 65 0, plainKey 65 200]
            ++ plainKey 16777281 600 :: [plainKey 16777281 800])) (plainKey 65 0)).trace
          = handleKeyCalls (registerAll freshManager [1]).trace ++ [plainKey 16777281 600]) :=
  ⟨by decide,
   OnKey_longpress_fires_once longpressEnv (registerAll freshManager [1]) 65
     [plainKey 65 0, plainKey 65 200] (plainKey 16777281 600) [plainKey 16777281 800]
     (plainKey 65 0) (by decide) (by decide) (by decide) (by decide) (by decide) (by decide)
     (by intro h _ k _; rfl) (by decide)⟩

/-! ## The polling steps: frame lemmas for `stepCalls` -/

theorem stepCalls_append (t u : List Event) :
    stepCalls (t ++ u) = stepCalls t ++ stepCalls u := by
  induction t with
  | nil => rfl
  | cons e t ih => cases e <;> simp [stepCalls, ih]

theorem g_application_OnAction_stepCalls (env : Env) (s : CInputManager) (a : CAction) :
    stepCalls (g_application_OnAction env s a).2.trace = stepCalls s.trace := by
  simp [g_application_OnAction, CInputManager.emit, stepCalls_append, stepCalls]

theorem ExecuteInputAction_stepCalls (env : Env) (s : CInputManager) (a : CAction) :
    stepCalls (ExecuteInputAction env s a).2.trace = stepCalls s.trace := by
  simp only [ExecuteInputAction, g_application_OnAction]
  split_ifs <;> simp [CInputManager.emit, stepCalls_append, stepCalls]

theorem HandleKey_stepCalls (env : Env) (s : CInputManager) (key : CKey) :
    stepCalls (HandleKey env s key).2.trace = stepCalls s.trace := by
  have hk : ∀ t, stepCalls (keyboardAction env t key).2.trace = stepCalls t.trace := by
    intro t
    simp only [keyboardAction, translatorGetAction]
    split_ifs <;> simp [CInputManager.emit, stepCalls_append, stepCalls]
  have hw : ∀ t iWin a, stepCalls (windowAction env t iWin key a).2.trace = stepCalls t.trace := by
    intro t iWin a
    simp only [windowAction, translatorGetAction]
    split_ifs <;> simp [CInputManager.emit, stepCalls_append, stepCalls]
  have hr : ∀ t iWin a pk,
      stepCalls (HandleKeyResolve env t key iWin a pk).2.trace = stepCalls t.trace := by
    intro t iWin a pk
    simp only [HandleKeyResolve]
    split_ifs <;>
      simp [ExecuteInputAction_stepCalls, g_application_OnAction_stepCalls, hk, hw,
        CInputManager.emit, stepCalls_append, stepCalls]
  simp only [HandleKey, translatorGetAction]
  split_ifs <;> simp [hr, CInputManager.emit, stepCalls_append, stepCalls]

theorem stepCalls_map_OnKeyPress (key : CKey) (hs : List Handler) :
    stepCalls (hs.map (fun h => Event.OnKeyPress h key)) = [] := by
  induction hs with
  | nil => rfl
  | cons h t ih => simpa [stepCalls] using ih

theorem OnKey_stepCalls (env : Env) (s : CInputManager) (key : CKey) :
    stepCalls (OnKey env s key).2.trace = stepCalls s.trace := by
  simp only [OnKey, offerKeyPress_eq]
  split_ifs <;>
    simp [HandleKey_stepCalls, stepCalls_append, stepCalls_map_OnKeyPress]

theorem ProcessRemote_stepCalls (env : Env) (s : CInputManager) (w : Int) :
    stepCalls (ProcessRemote env s w).2.trace = stepCalls s.trace := by
  simp only [ProcessRemote]
  split_ifs <;> simp [OnKey_stepCalls, CInputManager.emit, stepCalls_append, stepCalls]

theorem ProcessPeripherals_stepCalls (env : Env) (s : CInputManager) (ft : Int) :
    stepCalls (ProcessPeripherals env s ft).2.trace = stepCalls s.trace := by
  simp only [ProcessPeripherals]
  split <;> simp [OnKey_stepCalls, CInputManager.emit, stepCalls_append, stepCalls]

theorem esMousePosition_stepCalls (env : Env) (s : CInputManager) :
    stepCalls (esMousePosition env s).2.trace = stepCalls s.trace := by
  simp only [esMousePosition]
  split
  · split_ifs <;>
      simp [g_application_OnAction_stepCalls, CInputManager.emit, stepCalls_append, stepCalls]
  · simp [CInputManager.emit, stepCalls_append, stepCalls]

theorem esButtons_stepCalls (env : Env) (s : CInputManager) (w ft : Int) :
    stepCalls (esButtons env s w ft).2.trace = stepCalls s.trace := by
  simp only [esButtons]
  cases hT : env.TranslateCustomControllerString w env.esGetButtonCode.strMapName
      env.esGetButtonCode.wKeyID <;>
    split_ifs <;>
    simp [ExecuteInputAction_stepCalls, OnKey_stepCalls, esMousePosition_stepCalls,
      CInputManager.SetMouseActive, CInputManager.emit, stepCalls_append, stepCalls]

theorem ProcessEventServer_stepCalls (env : Env) (s : CInputManager) (w ft : Int) :
    stepCalls (ProcessEventServer env s w ft).2.trace = stepCalls s.trace := by
  simp only [ProcessEventServer]
  split_ifs <;>
    simp [esButtons_stepCalls, CInputManager.emit, stepCalls_append, stepCalls]

theorem stepCalls_map_OnAction (q : List CAction) :
    stepCalls (q.map Event.OnAction) = [] := by
  induction q with
  | nil => rfl
  | cons a q ih => simpa [stepCalls] using ih

theorem ProcessQueuedActions_stepCalls (env : Env) (s : CInputManager) :
    stepCalls (ProcessQueuedActions env s).trace = stepCalls s.trace := by
  rw [ProcessQueuedActions_eq]
  simp [stepCalls_append, stepCalls_map_OnAction]

theorem ExecuteInputAction_eq (env : Env) (s : CInputManager) (a : CAction) :
    ExecuteInputAction env s a
      = (env.appOnAction a, { s with trace := s.trace ++ ExecuteInputActionEvents env a }) := by
  simp only [ExecuteInputAction, ExecuteInputActionEvents, g_application_OnAction]
  by_cases hh : a.holdTime = 0
  · simp [hh, CInputManager.emit]
  · by_cases hr : env.appOnAction a = true
    · simp [hh, hr, CInputManager.emit]
    · simp [hh, hr, CInputManager.emit]

/-! ## The polling steps only append to the trace and leave the queue alone -/

theorem grows_trans {a b c : CInputManager}
    (h1 : a.trace <+: b.trace ∧ b.m_queuedActions = a.m_queuedActions)
    (h2 : b.trace <+: c.trace ∧ c.m_queuedActions = b.m_queuedActions) :
    a.trace <+: c.trace ∧ c.m_queuedActions = a.m_queuedActions :=
  ⟨h1.1.trans h2.1, h2.2.trans h1.2⟩

theorem grows_refl (s : CInputManager) :
    s.trace <+: s.trace ∧ s.m_queuedActions = s.m_queuedActions :=
  ⟨List.prefix_refl _, rfl⟩

theorem grows_emit (s : CInputManager) (e : Event) :
    s.trace <+: (s.emit e).trace ∧ (s.emit e).m_queuedActions = s.m_queuedActions :=
  ⟨List.prefix_append _ _, rfl⟩

theorem HandleKey_grows (env : Env) (s : CInputManager) (key : CKey) :
    s.trace <+: (HandleKey env s key).2.trace
    ∧ (HandleKey env s key).2.m_queuedActions = s.m_queuedActions := by
  obtain ⟨b, evs, hf, _⟩ := HandleKey_frame env key
  rw [hf]
  exact ⟨List.prefix_append _ _, rfl⟩

theorem OnKey_grows (env : Env) (s : CInputManager) (key : CKey) :
    s.trace <+: (OnKey env s key).2.trace
    ∧ (OnKey env s key).2.m_queuedActions = s.m_queuedActions := by
  obtain ⟨b, evs, hf, _⟩ := HandleKey_frame env key
  simp only [OnKey, offerKeyPress_eq, hf]
  split_ifs <;> exact ⟨by simp [List.append_assoc], rfl⟩

theorem ExecuteInputAction_grows (env : Env) (s : CInputManager) (a : CAction) :
    s.trace <+: (ExecuteInputAction env s a).2.trace
    ∧ (ExecuteInputAction env s a).2.m_queuedActions = s.m_queuedActions := by
  rw [ExecuteInputAction_eq]
  exact ⟨List.prefix_append _ _, rfl⟩

theorem ProcessRemote_grows (env : Env) (s : CInputManager) (w : Int) :
    s.trace <+: (ProcessRemote env s w).2.trace
    ∧ (ProcessRemote env s w).2.m_queuedActions = s.m_queuedActions := by
  simp only [ProcessRemote]
  split_ifs
  · exact grows_trans (grows_emit s _) (OnKey_grows env _ _)
  · exact grows_refl s
  · exact grows_refl s

theorem ProcessPeripherals_grows (env : Env) (s : CInputManager) (ft : Int) :
    (s.emit Event.GetNextKeypress).trace <+: (ProcessPeripherals env s ft).2.trace
    ∧ (ProcessPeripherals env s ft).2.m_queuedActions = s.m_queuedActions := by
  simp only [ProcessPeripherals]
  split
  · exact OnKey_grows env (s.emit Event.GetNextKeypress) _
  · exact ⟨List.prefix_refl _, rfl⟩

theorem esMousePosition_grows (env : Env) (s : CInputManager) :
    s.trace <+: (esMousePosition env s).2.trace
    ∧ (esMousePosition env s).2.m_queuedActions = s.m_queuedActions := by
  simp only [esMousePosition, g_application_OnAction]
  split
  · split_ifs
    · exact grows_trans (grows_emit s _) (grows_trans (grows_emit _ _) (grows_emit _ _))
    · exact grows_emit s _
  · exact grows_emit s _

theorem grows_then_emit {a b : CInputManager}
    (h : a.trace <+: b.trace ∧ b.m_queuedActions = a.m_queuedActions) (e : Event) :
    a.trace <+: (b.emit e).trace ∧ (b.emit e).m_queuedActions = a.m_queuedActions :=
  grows_trans h (grows_emit b e)

theorem grows_then_SetMouseActive {a b : CInputManager}
    (h : a.trace <+: b.trace ∧ b.m_queuedActions = a.m_queuedActions) (v : Bool) :
    a.trace <+: (b.SetMouseActive v).trace
    ∧ (b.SetMouseActive v).m_queuedActions = a.m_queuedActions := h

theorem esButtons_grows (env : Env) (s : CInputManager) (w ft : Int) :
    s.trace <+: (esButtons env s w ft).2.trace
    ∧ (esButtons env s w ft).2.m_queuedActions = s.m_queuedActions := by
  simp only [esButtons]
  rcases Option.eq_none_or_eq_some (env.TranslateCustomControllerString w
      env.esGetButtonCode.strMapName env.esGetButtonCode.wKeyID) with hT | ⟨a, hT⟩
  · simp only [hT]
    split_ifs
    · exact grows_emit s _
    · exact grows_trans (grows_then_emit (grows_emit s _) _) (esMousePosition_grows env _)
    · exact grows_trans (grows_emit s _) (OnKey_grows env _ _)
    · exact grows_trans (grows_emit s _) (OnKey_grows env _ _)
    · exact grows_trans (grows_emit s _) (esMousePosition_grows env _)
  · simp only [hT]
    split_ifs
    · exact grows_emit s _
    · exact grows_then_emit (grows_then_emit (grows_then_emit
        (grows_then_emit (grows_emit s _) _) _) _) _
    · exact grows_trans (grows_then_SetMouseActive (grows_then_emit (grows_then_emit
        (grows_then_emit (grows_then_emit (grows_emit s _) _) _) _) _) false)
        (ExecuteInputAction_grows env _ _)
    · exact grows_trans (grows_emit s _) (OnKey_grows env _ _)
    · exact grows_trans (grows_emit s _) (OnKey_grows env _ _)
    · exact grows_trans (grows_emit s _) (esMousePosition_grows env _)

theorem ProcessEventServer_grows (env : Env) (s : CInputManager) (w ft : Int) :
    s.trace <+: (ProcessEventServer env s w ft).2.trace
    ∧ (ProcessEventServer env s w ft).2.m_queuedActions = s.m_queuedActions := by
  simp only [ProcessEventServer]
  split_ifs
  · exact grows_refl s
  · exact grows_then_emit (grows_then_emit (grows_then_emit (grows_emit s _) _) _) _
  · exact grows_emit s _
  · exact grows_trans (grows_then_emit (grows_then_emit (grows_then_emit (grows_emit s _) _) _) _)
      (esButtons_grows env _ w ft)
  · exact grows_trans (grows_emit s _) (esButtons_grows env _ w ft)

/-! ## The per-frame tick, the sound cue and the built-in commands: theorems -/

/-- A tick in which the first polling step handles a key (`ProcessRemote` returns true): the
later steps run all the same, so the key from the peripherals is handled in the same tick. -/
theorem Process_continues_after_handled_key :
    (ProcessRemote busyRemoteEnv
        ((freshManager.emit Event.RemoteUpdate).emit (Event.StepCall Step.ProcessRemote))
        10000).1 = true
    ∧ handleKeyCalls (Process busyRemoteEnv freshManager 10000 0).2.trace
        = [CKey.ofButton 65 0, keyA]
    ∧ stepCalls (Process busyRemoteEnv freshManager 10000 0).2.trace
        = [Step.ProcessRemote, Step.ProcessEventServer, Step.ProcessPeripherals,
            Step.ProcessQueuedActions] := by
  decide

/-- C20: `Process` returns true and is the four steps run one after the other, each on the
state the step before it left and whatever that step returned: `ProcessRemote`,
`ProcessEventServer`, `ProcessPeripherals`, then the queue drain `ProcessQueuedActions`, then
the window id is handed to the keymap environment.  In the trace the events of the three
polling steps (`e1`, `e2`, and the peripheral poll `GetNextKeypress` followed by `e3`) come in
this order, each step is entered exactly once, and the actions that were queued when `Process`
was entered are forwarded once, in order, after all three polling steps; the queue is empty
afterwards. -/
theorem Process_runs_steps_in_order (env : Env) (s : CInputManager) (windowId frameTime : Int) :
    (Process env s windowId frameTime).1 = true
    ∧ stepCalls (Process env s windowId frameTime).2.trace
        = stepCalls s.trace ++ [Step.ProcessRemote, Step.ProcessEventServer,
            Step.ProcessPeripherals, Step.ProcessQueuedActions]
    ∧ (Process env s windowId frameTime).2.m_queuedActions = []
    ∧ ∃ (s0 : CInputManager) (r1 r2 r3 : Bool × CInputManager) (e1 e2 e3 : List Event),
        s0 = (if env.hasRemoteControl = true then s.emit Event.RemoteUpdate else s)
        ∧ r1 = ProcessRemote env (s0.emit (Event.StepCall Step.ProcessRemote)) windowId
        ∧ r2 = ProcessEventServer env (r1.2.emit (Event.StepCall Step.ProcessEventServer))
            windowId frameTime
        ∧ r3 = ProcessPeripherals env (r2.2.emit (Event.StepCall Step.ProcessPeripherals))
            frameTime
        ∧ Process env s windowId frameTime
            = (true, (ProcessQueuedActions env
                (r3.2.emit (Event.StepCall Step.ProcessQueuedActions))).emit
                  (Event.KeymapSetWindowID windowId))
        ∧ r1.2.trace = s0.trace ++ [Event.StepCall Step.ProcessRemote] ++ e1
        ∧ r2.2.trace = r1.2.trace ++ [Event.StepCall Step.ProcessEventServer] ++ e2
        ∧ r3.2.trace = r2.2.trace
            ++ [Event.StepCall Step.ProcessPeripherals, Event.GetNextKeypress] ++ e3
        ∧ stepCalls e1 = [] ∧ stepCalls e2 = [] ∧ stepCalls e3 = []
        ∧ r3.2.m_queuedActions = s.m_queuedActions
        ∧ (Process env s windowId frameTime).2.trace
            = s0.trace ++ [Event.StepCall Step.ProcessRemote] ++ e1
              ++ [Event.StepCall Step.ProcessEventServer] ++ e2
              ++ [Event.StepCall Step.ProcessPeripherals, Event.GetNextKeypress] ++ e3
              ++ [Event.StepCall Step.ProcessQueuedActions]
              ++ s.m_queuedActions.map Event.OnAction
              ++ [Event.KeymapSetWindowID windowId] := by
  refine ⟨rfl, ?_, ?_, ?_⟩
  · simp only [Process]
    split_ifs <;>
      simp [ProcessQueuedActions_stepCalls, ProcessPeripherals_stepCalls,
        ProcessEventServer_stepCalls, ProcessRemote_stepCalls, CInputManager.emit,
        stepCalls_append, stepCalls]
  · simp only [Process, CInputManager.emit]
    rw [ProcessQueuedActions_eq]
  · obtain ⟨s0, hs0⟩ : ∃ s0 : CInputManager,
        s0 = (if env.hasRemoteControl = true then s.emit Event.RemoteUpdate else s) := ⟨_, rfl⟩
    obtain ⟨r1, hr1⟩ : ∃ r1 : Bool × CInputManager,
        r1 = ProcessRemote env (s0.emit (Event.StepCall Step.ProcessRemote)) windowId :=
      ⟨_, rfl⟩
    obtain ⟨r2, hr2⟩ : ∃ r2 : Bool × CInputManager,
        r2 = ProcessEventServer env (r1.2.emit (Event.StepCall Step.ProcessEventServer))
          windowId frameTime := ⟨_, rfl⟩
    obtain ⟨r3, hr3⟩ : ∃ r3 : Bool × CInputManager,
        r3 = ProcessPeripherals env (r2.2.emit (Event.StepCall Step.ProcessPeripherals))
          frameTime := ⟨_, rfl⟩
    have hP : Process env s windowId frameTime
        = (true, (ProcessQueuedActions env
            (r3.2.emit (Event.StepCall Step.ProcessQueuedActions))).emit
              (Event.KeymapSetWindowID windowId)) := by
      rw [hr3, hr2, hr1, hs0]
      rfl
    have hq0 : s0.m_queuedActions = s.m_queuedActions := by
      rw [hs0]
      split_ifs <;> rfl
    have g1 := ProcessRemote_grows env (s0.emit (Event.StepCall Step.ProcessRemote)) windowId
    have c1 := ProcessRemote_stepCalls env (s0.emit (Event.StepCall Step.ProcessRemote)) windowId
    rw [← hr1] at g1 c1
    have g2 := ProcessEventServer_grows env (r1.2.emit (Event.StepCall Step.ProcessEventServer))
      windowId frameTime
    have c2 := ProcessEventServer_stepCalls env
      (r1.2.emit (Event.StepCall Step.ProcessEventServer)) windowId frameTime
    rw [← hr2] at g2 c2
    have g3 := ProcessPeripherals_grows env (r2.2.emit (Event.StepCall Step.ProcessPeripherals))
      frameTime
    have c3 := ProcessPeripherals_stepCalls env
      (r2.2.emit (Event.StepCall Step.ProcessPeripherals)) frameTime
    rw [← hr3] at g3 c3
    obtain ⟨e1, h1⟩ := g1.1
    obtain ⟨e2, h2⟩ := g2.1
    obtain ⟨e3, h3⟩ := g3.1
    simp only [CInputManager.emit] at h1 h2 h3
    have k1 : stepCalls e1 = [] := by
      rw [← h1] at c1
      simpa [CInputManager.emit, stepCalls_append, stepCalls] using c1
    have k2 : stepCalls e2 = [] := by
      rw [← h2] at c2
      simpa [CInputManager.emit, stepCalls_append, stepCalls] using c2
    have k3 : stepCalls e3 = [] := by
      rw [← h3] at c3
      simpa [CInputManager.emit, stepCalls_append, stepCalls] using c3
    have hq : r3.2.m_queuedActions = s.m_queuedActions := by
      rw [g3.2]
      show r2.2.m_queuedActions = _
      rw [g2.2]
      show r1.2.m_queuedActions = _
      rw [g1.2]
      exact hq0
    refine ⟨s0, r1, r2, r3, e1, e2, e3, hs0, hr1, hr2, hr3, hP, h1.symm, h2.symm, ?_, k1, k2, k3,
      hq, ?_⟩
    · rw [← h3]
      simp
    · rw [hP]
      simp only [ProcessQueuedActions_eq, CInputManager.emit]
      rw [hq, ← h3, ← h2, ← h1]
      simp

/-- C15: `ExecuteInputAction(a)` returns the application handler's result for `a`; with hold
time 0 it plays the sound and then dispatches `a`; with a non-zero hold time it dispatches
`a` first and plays the sound afterwards exactly when the dispatch returned true. -/
theorem ExecuteInputAction_sound_order (env : Env) (s : CInputManager) (a : CAction) :
    (ExecuteInputAction env s a).1 = env.appOnAction a
    ∧ (ExecuteInputAction env s a).2
        = { s with trace := s.trace ++
              (if a.holdTime = 0 then [Event.PlayActionSound a, Event.OnAction a]
               else Event.OnAction a ::
                 (if env.appOnAction a = true then [Event.PlayActionSound a] else [])) }
    ∧ dispatched (ExecuteInputAction env s a).2.trace = dispatched s.trace ++ [a] := by
  rw [ExecuteInputAction_eq]
  refine ⟨rfl, rfl, ?_⟩
  simp only [ExecuteInputActionEvents, dispatched_append]
  split_ifs <;> rfl

/-- C16 (code at the failing input): with remote-control support compiled in, `HasBuiltin`
answers false for `lirc.start`, which `ExecuteBuiltin` executes (result 0), and true for
the string with a leading blank, which `ExecuteBuiltin` rejects (result -1). -/
theorem HasBuiltin_misses_lirc_start :
    remoteEnv.hasRemoteControl = true
    ∧ HasBuiltin remoteEnv "lirc.start" = false
    ∧ (ExecuteBuiltin remoteEnv freshManager "lirc.start" []).1 = 0
    ∧ (ExecuteBuiltin remoteEnv freshManager "lirc.start" []).2.trace
        = [Event.RemoteSetEnabled true, Event.RemoteInitialize]
    ∧ HasBuiltin remoteEnv " lirc.start" = true
    ∧ (ExecuteBuiltin remoteEnv freshManager " lirc.start" []).1 = -1
    ∧ HasBuiltin remoteEnv "lirc.stop" = true
    ∧ HasBuiltin remoteEnv "lirc.send" = true := by
  decide

/-! ## Release of a pending short press: theorems -/

theorem onKeyAll_short_any (env : Env) (c : Nat) (hc : c &&& env.c.MODIFIER_LONG = 0)
    (shorts : List CKey) (s : CInputManager)
    (hShort : ∀ k ∈ shorts, k.buttonCode = c)
    (hNo : ∀ h ∈ s.m_keyboardHandlers, ∀ k ∈ shorts, env.OnKeyPress h k = false)
    (hLP : ∀ k ∈ shorts, env.HasLongpressMapping env.GetActiveWindowID k = true) :
    (onKeyAll env s shorts).m_keyboardHandlers = s.m_keyboardHandlers
    ∧ handleKeyCalls (onKeyAll env s shorts).trace = handleKeyCalls s.trace := by
  induction shorts generalizing s with
  | nil => exact ⟨rfl, rfl⟩
  | cons k ks ih =>
    have hk : k.buttonCode = c := hShort k (List.mem_cons_self _ _)
    have hb := hLP k (List.mem_cons_self _ _)
    obtain ⟨e1, _, e3⟩ := OnKey_unclaimed env s k (fun h hh => hNo h hh k (List.mem_cons_self _ _))
    have hsw : ¬ (k.buttonCode = s.m_LastKey.buttonCode
        ∧ (s.m_LastKey.buttonCode &&& env.c.MODIFIER_LONG) ≠ 0) := by
      rintro ⟨h1, h2⟩
      rw [← h1, hk] at h2
      exact h2 hc
    have hfire : ¬ (k.buttonCode ≠ s.m_LastKey.buttonCode
        ∧ (k.buttonCode &&& env.c.MODIFIER_LONG) ≠ 0) := by
      rintro ⟨_, h2⟩
      rw [hk] at h2
      exact h2 hc
    rw [if_neg hsw, hb, if_neg hfire] at e3
    simp only [Bool.true_eq_false, if_false, List.append_nil] at e3
    obtain ⟨i1, i3⟩ := ih (OnKey env s k).2
      (fun x hx => hShort x (List.mem_cons_of_mem _ hx))
      (by rw [e1]; exact fun h hh x hx => hNo h hh x (List.mem_cons_of_mem _ hx))
      (fun x hx => hLP x (List.mem_cons_of_mem _ hx))
    rw [onKeyAll_cons]
    exact ⟨i1.trans e1, i3.trans e3⟩

theorem handleKeyEntries_append (t u : List Event) :
    handleKeyEntries (t ++ u) = handleKeyEntries t ++ handleKeyEntries u := by
  induction t with
  | nil => rfl
  | cons e t ih => cases e <;> simp [handleKeyEntries, ih]

theorem handleKeyCalls_eq_map (t : List Event) :
    handleKeyCalls t = (handleKeyEntries t).map Prod.fst := by
  induction t with
  | nil => rfl
  | cons e t ih => cases e <;> simp [handleKeyCalls, handleKeyEntries, ih]

theorem handleKeyEntries_nil_of_calls (t : List Event) (h : handleKeyCalls t = []) :
    handleKeyEntries t = [] := by
  rw [handleKeyCalls_eq_map] at h
  exact List.map_eq_nil_iff.mp h

theorem handleKeyEntries_map_OnKeyRelease (key : CKey) (hs : List Handler) :
    handleKeyEntries (hs.map (fun h => Event.OnKeyRelease h key)) = [] :=
  handleKeyEntries_nil_of_calls _ (handleKeyCalls_map_OnKeyRelease key hs)

theorem handleKeyEntries_eq_of_calls {t u : List Event} (hp : t <+: u)
    (h : handleKeyCalls u = handleKeyCalls t) : handleKeyEntries u = handleKeyEntries t := by
  obtain ⟨e, rfl⟩ := hp
  rw [handleKeyCalls_append] at h
  have he : handleKeyCalls e = [] := List.append_right_eq_self.mp h
  rw [handleKeyEntries_append, handleKeyEntries_nil_of_calls e he, List.append_nil]

theorem onKeyAll_grows (env : Env) (keys : List CKey) (s : CInputManager) :
    s.trace <+: (onKeyAll env s keys).trace := by
  induction keys generalizing s with
  | nil => exact List.prefix_refl _
  | cons k ks ih =>
    rw [onKeyAll_cons]
    exact (OnKey_grows env s k).1.trans (ih _)

/-- The entries into `HandleKey` made by `OnKeyUp`: at most one, with the tracked key, and at
that moment the tracker is already reset. -/
theorem OnKeyUp_entries (env : Env) (s : CInputManager) (key : CKey) :
    handleKeyEntries (OnKeyUp env s key).trace = handleKeyEntries s.trace ++
      (if s.m_LastKey.buttonCode ≠ env.c.KEY_INVALID
          ∧ ¬ (s.m_LastKey.buttonCode &&& env.c.MODIFIER_LONG) ≠ 0
        then [(s.m_LastKey, CKey.Reset env.c)]
       else []) := by
  obtain ⟨b, evs, hf, h1, _, _⟩ := HandleKey_frame env s.m_LastKey
  have h1e := handleKeyEntries_nil_of_calls evs h1
  simp only [OnKeyUp, releaseAll_eq, hf]
  split_ifs <;>
    simp [handleKeyEntries_append, handleKeyEntries_map_OnKeyRelease, handleKeyEntries, h1e]

/-- Counterexample to C11: the key with button code `KEY_INVALID` (0xFFFF, `MODIFIER_LONG`
not set) has a long-press mapping, no handler is registered, the tracker starts invalid; one
`OnKey` call and the following `OnKeyUp` never enter `HandleKey`. -/
theorem OnKeyUp_invalid_code_not_fired :
    (65535 &&& longpressEnv.c.MODIFIER_LONG = 0
      ∧ longpressEnv.HasLongpressMapping longpressEnv.GetActiveWindowID (plainKey 65535 0) = true
      ∧ freshManager.m_LastKey.buttonCode = longpressEnv.c.KEY_INVALID)
    ∧ handleKeyCalls (onKeyAll longpressEnv freshManager [plainKey 65535 0]).trace = []
    ∧ handleKeyCalls (OnKeyUp longpressEnv
        (onKeyAll longpressEnv freshManager [plainKey 65535 0]) (plainKey 65535 0)).trace = [] := by
  decide

/-- C11 (amended): no handler claims the key, `HasLongpressMapping` is true for it, its short
code `c` has no `MODIFIER_LONG` bit and is not `KEY_INVALID`.  Then `n ≥ 1` `OnKey` calls
with that code (the last one with key `kLast`) never enter `HandleKey` and leave `kLast` in
the tracker; the following `OnKeyUp` is `HandleKey(kLast)` run in a state whose tracker is
already reset, so `HandleKey` is entered exactly once, with `kLast`, and at the moment of that
entry the tracker `m_LastKey` is the invalid key and no longer `kLast`; a further `OnKeyUp`
enters nothing. -/
theorem OnKeyUp_fires_pending_short_press (env : Env) (s : CInputManager) (c : Nat)
    (init : List CKey) (kLast up up2 : CKey)
    (hc : c &&& env.c.MODIFIER_LONG = 0) (hValid : c ≠ env.c.KEY_INVALID)
    (hShort : ∀ k ∈ init ++ [kLast], k.buttonCode = c)
    (hNo : ∀ h ∈ s.m_keyboardHandlers, ∀ k ∈ init ++ [kLast], env.OnKeyPress h k = false)
    (hLP : ∀ k ∈ init ++ [kLast], env.HasLongpressMapping env.GetActiveWindowID k = true) :
    handleKeyCalls (onKeyAll env s (init ++ [kLast])).trace = handleKeyCalls s.trace
    ∧ (onKeyAll env s (init ++ [kLast])).m_LastKey = kLast
    ∧ OnKeyUp env (onKeyAll env s (init ++ [kLast])) up
        = (HandleKey env
            { onKeyAll env s (init ++ [kLast]) with
              m_LastKey := CKey.Reset env.c,
              trace := (onKeyAll env s (init ++ [kLast])).trace
                ++ (onKeyAll env s (init ++ [kLast])).m_keyboardHandlers.map
                    (fun h => Event.OnKeyRelease h up) } kLast).2
    ∧ handleKeyCalls (OnKeyUp env (onKeyAll env s (init ++ [kLast])) up).trace
        = handleKeyCalls s.trace ++ [kLast]
    ∧ (OnKeyUp env (onKeyAll env s (init ++ [kLast])) up).m_LastKey = CKey.Reset env.c
    ∧ handleKeyCalls
        (OnKeyUp env (OnKeyUp env (onKeyAll env s (init ++ [kLast])) up) up2).trace
        = handleKeyCalls s.trace ++ [kLast]
    ∧ handleKeyEntries (onKeyAll env s (init ++ [kLast])).trace = handleKeyEntries s.trace
    ∧ handleKeyEntries (OnKeyUp env (onKeyAll env s (init ++ [kLast])) up).trace
        = handleKeyEntries s.trace ++ [(kLast, CKey.Reset env.c)]
    ∧ CKey.Reset env.c ≠ kLast
    ∧ handleKeyEntries
        (OnKeyUp env (OnKeyUp env (onKeyAll env s (init ++ [kLast])) up) up2).trace
        = handleKeyEntries s.trace ++ [(kLast, CKey.Reset env.c)] := by
  have hall := onKeyAll_short_any env c hc (init ++ [kLast]) s hShort hNo hLP
  have hlastmem : kLast ∈ init ++ [kLast] := List.mem_append_right _ (List.mem_singleton.mpr rfl)
  have hk : kLast.buttonCode = c := hShort kLast hlastmem
  obtain ⟨a1, _⟩ := onKeyAll_short_any env c hc init s
    (fun k hk => hShort k (List.mem_append_left _ hk))
    (fun h hh k hk => hNo h hh k (List.mem_append_left _ hk))
    (fun k hk => hLP k (List.mem_append_left _ hk))
  obtain ⟨_, e2, _⟩ := OnKey_unclaimed env (onKeyAll env s init) kLast
    (by rw [a1]; exact fun h hh => hNo h hh kLast hlastmem)
  have hsw : ¬ (kLast.buttonCode = (onKeyAll env s init).m_LastKey.buttonCode
      ∧ ((onKeyAll env s init).m_LastKey.buttonCode &&& env.c.MODIFIER_LONG) ≠ 0) := by
    rintro ⟨h1, h2⟩
    rw [← h1, hk] at h2
    exact h2 hc
  rw [if_neg hsw, hLP kLast hlastmem] at e2
  simp only [Bool.true_eq_false, if_false] at e2
  have hlast : (onKeyAll env s (init ++ [kLast])).m_LastKey = kLast := by
    rw [onKeyAll_append]; exact e2
  have hcond : (onKeyAll env s (init ++ [kLast])).m_LastKey.buttonCode ≠ env.c.KEY_INVALID
      ∧ ¬ ((onKeyAll env s (init ++ [kLast])).m_LastKey.buttonCode &&& env.c.MODIFIER_LONG) ≠ 0 := by
    rw [hlast, hk]
    exact ⟨hValid, fun h => h hc⟩
  obtain ⟨_, u2, u3⟩ := OnKeyUp_spec env (onKeyAll env s (init ++ [kLast])) up
  rw [if_pos hcond, hlast, hall.2] at u3
  obtain ⟨_, _, v3⟩ := OnKeyUp_spec env (OnKeyUp env (onKeyAll env s (init ++ [kLast])) up) up2
  have hcond2 : ¬ ((OnKeyUp env (onKeyAll env s (init ++ [kLast])) up).m_LastKey.buttonCode
        ≠ env.c.KEY_INVALID
      ∧ ¬ ((OnKeyUp env (onKeyAll env s (init ++ [kLast])) up).m_LastKey.buttonCode
            &&& env.c.MODIFIER_LONG) ≠ 0) := by
    rw [u2]
    exact fun h => h.1 rfl
  rw [if_neg hcond2, List.append_nil, u3] at v3
  have w0 := handleKeyEntries_eq_of_calls (onKeyAll_grows env (init ++ [kLast]) s) hall.2
  have w1 := OnKeyUp_entries env (onKeyAll env s (init ++ [kLast])) up
  rw [if_pos hcond, hlast, w0] at w1
  have w2 := OnKeyUp_entries env (OnKeyUp env (onKeyAll env s (init ++ [kLast])) up) up2
  rw [if_neg hcond2, List.append_nil, w1] at w2
  have hne : CKey.Reset env.c ≠ kLast := by
    intro h
    apply hValid
    rw [← hk, ← h]
    rfl
  refine ⟨hall.2, hlast, ?_, u3, u2, v3, w0, w1, hne, w2⟩
  simp only [OnKeyUp, releaseAll_eq]
  rw [if_pos (by simpa using hcond)]
  rw [show (onKeyAll env s (init ++ [kLast])).m_LastKey = kLast from hlast]

/-- Witness of C11 (amended): one registered handler, key 65 pressed twice, released twice. -/
theorem OnKeyUp_fires_pending_short_press_witness :
    (65 &&& longpressEnv.c.MODIFIER_LONG = 0 ∧ 65 ≠ longpressEnv.c.KEY_INVALID)
    ∧ (handleKeyCalls (onKeyAll longpressEnv (registerAll freshManager [1])
          ([plainKey 65 0] ++ [plainKey 65 200])).trace
        = handleKeyCalls (registerAll freshManager [1]).trace
      ∧ handleKeyCalls (OnKeyUp longpressEnv (onKeyAll longpressEnv (registerAll freshManager [1])
          ([plainKey 65 0] ++ [plainKey 65 200])) (plainKey 65 0)).trace
        = handleKeyCalls (registerAll freshManager [1]).trace ++ [plainKey 65 200]
      ∧ handleKeyCalls (OnKeyUp longpressEnv (OnKeyUp longpressEnv
          (onKeyAll longpressEnv (registerAll freshManager [1])
            ([plainKey 65 0] ++ [plainKey 65 200])) (plainKey 65 0)) (plainKey 65 0)).trace
        = handleKeyCalls (registerAll freshManager [1]).trace ++ [plainKey 65 200]
      ∧ handleKeyEntries (OnKeyUp longpressEnv (onKeyAll longpressEnv (registerAll freshManager [1])
          ([plainKey 65 0] ++ [plainKey 65 200])) (plainKey 65 0)).trace
        = handleKeyEntries (registerAll freshManager [1]).trace
            ++ [(plainKey 65 200, CKey.Reset longpressEnv.c)]) :=
  ⟨by decide,
   (OnKeyUp_fires_pending_short_press longpressEnv (registerAll freshManager [1]) 65
      [plainKey 65 0] (plainKey 65 200) (plainKey 65 0) (plainKey 65 0)
      (by decide) (by decide) (by decide) (by intro h _ k _; rfl) (by decide)).1,
   (OnKeyUp_fires_pending_short_press longpressEnv (registerAll freshManager [1]) 65
      [plainKey 65 0] (plainKey 65 200) (plainKey 65 0) (plainKey 65 0)
      (by decide) (by decide) (by decide) (by intro h _ k _; rfl) (by decide)).2.2.2.1,
   (OnKeyUp_fires_pending_short_press longpressEnv (registerAll freshManager [1]) 65
      [plainKey 65 0] (plainKey 65 200) (plainKey 65 0) (plainKey 65 0)
      (by decide) (by decide) (by decide) (by intro h _ k _; rfl) (by decide)).2.2.2.2.2.1,
   (OnKeyUp_fires_pending_short_press longpressEnv (registerAll freshManager [1]) 65
      [plainKey 65 0] (plainKey 65 200) (plainKey 65 0) (plainKey 65 0)
      (by decide) (by decide) (by decide) (by intro h _ k _; rfl) (by decide)).2.2.2.2.2.2.2.1⟩

/-! ## `HandleKey` in the fullscreen video window: theorems -/

theorem getActionQueries_append (t u : List Event) :
    getActionQueries (t ++ u) = getActionQueries t ++ getActionQueries u := by
  induction t with
  | nil => rfl
  | cons e t ih => cases e <;> simp [getActionQueries, ih]

theorem mem_getActionQueries (w : Int) (k : CKey) (f : Bool) (evs : List Event)
    (h : Event.GetAction w k f ∈ evs) : (w, k, f) ∈ getActionQueries evs := by
  induction evs with
  | nil => cases h
  | cons e t ih =>
    rcases List.mem_cons.mp h with h1 | h1
    · subst h1; simp [getActionQueries]
    · have := ih h1
      cases e <;> simp [getActionQueries, this]

theorem ExecuteInputActionEvents_queries (env : Env) (a : CAction) :
    getActionQueries (ExecuteInputActionEvents env a) = []
    ∧ dispatched (ExecuteInputActionEvents env a) = [a] := by
  unfold ExecuteInputActionEvents
  split_ifs <;> exact ⟨rfl, rfl⟩

theorem HandleKeyResolve_fullscreen (env : Env) (s : CInputManager) (key : CKey) (iWin : Int)
    (action : CAction) (processKey : Bool)
    (hfs : ¬ (iWin ≠ env.c.WINDOW_FULLSCREEN_VIDEO ∧ iWin ≠ env.c.WINDOW_FULLSCREEN_GAME)) :
    (HandleKeyResolve env s key iWin action processKey).2
      = { s with trace := s.trace ++
            (Event.ResetScreenSaver :: Event.WakeUpScreenSaverAndDPMS processKey ::
              (if (env.WakeUpScreenSaverAndDPMS processKey && !processKey) = true then []
               else ExecuteInputActionEvents env action)) } := by
  by_cases hw : (env.WakeUpScreenSaverAndDPMS processKey && !processKey) = true
  · simp only [HandleKeyResolve, if_pos hw, CInputManager.emit]
    simp
  · simp only [HandleKeyResolve, if_neg hw, if_neg hfs, ExecuteInputAction_eq,
      CInputManager.emit]
    simp

theorem HandleKey_trace_of_resolve (env : Env) (s : CInputManager) (key : CKey)
    (R : List Event)
    (hR : ∀ t : CInputManager,
      (HandleKeyResolve env t key env.GetActiveWindowID
          (env.GetAction env.GetActiveWindowID key true)
          (AlwaysProcess env (env.GetAction env.GetActiveWindowID key true))).2
        = { t with trace := t.trace ++ R }) :
    (HandleKey env s key).2.trace = s.trace ++
      (Event.HandleKey key s.m_LastKey :: Event.GetAction env.GetActiveWindowID key true ::
        Event.ResetSystemIdleTimer ::
        (if env.StartsWithNoCase (env.GetAction env.GetActiveWindowID key true).name
              "CECToggleState" = true then
           Event.SendMsgCecToggleState :: (if env.cecToggleResult = true then R else [])
         else if env.StartsWithNoCase (env.GetAction env.GetActiveWindowID key true).name
              "CECStandby" = true then [Event.PostMsgCecStandby]
         else R)) := by
  by_cases ht : env.StartsWithNoCase (env.GetAction env.GetActiveWindowID key true).name
      "CECToggleState" = true
  · by_cases hres : env.cecToggleResult = true
    · simp only [HandleKey, translatorGetAction, ht, hres, CInputManager.emit]
      simp only [Bool.true_or, if_true, Bool.not_true, Bool.false_eq_true, if_false]
      rw [hR]
      simp
    · simp only [HandleKey, translatorGetAction, ht, hres, CInputManager.emit]
      simp
  · by_cases hs : env.StartsWithNoCase (env.GetAction env.GetActiveWindowID key true).name
        "CECStandby" = true
    · simp only [HandleKey, translatorGetAction, ht, hs, CInputManager.emit]
      simp
    · simp only [HandleKey, translatorGetAction, ht, hs, CInputManager.emit]
      simp only [Bool.or_self, Bool.false_eq_true, if_false]
      rw [hR]
      simp

/-- C12: when the active window is `WINDOW_FULLSCREEN_VIDEO` (a window id other than
`WINDOW_DIALOG_KEYBOARD`), `HandleKey` queries the keymap once, for the active window, never
the `WINDOW_DIALOG_KEYBOARD` keymap, whatever control is focused; it dispatches nothing (CEC
built-in or screensaver wake) or exactly the action `GetAction(activeWindow, key)` returned,
never a synthesized character action. -/
theorem HandleKey_fullscreen_video (env : Env) (s : CInputManager) (key : CKey)
    (hwin : env.GetActiveWindowID = env.c.WINDOW_FULLSCREEN_VIDEO)
    (hDistinct : env.c.WINDOW_DIALOG_KEYBOARD ≠ env.c.WINDOW_FULLSCREEN_VIDEO) :
    ∃ evs : List Event,
      (HandleKey env s key).2.trace = s.trace ++ evs
      ∧ getActionQueries evs = [(env.c.WINDOW_FULLSCREEN_VIDEO, key, true)]
      ∧ (∀ (k : CKey) (f : Bool), Event.GetAction env.c.WINDOW_DIALOG_KEYBOARD k f ∉ evs)
      ∧ dispatched evs =
          (if (cecShortCircuit env (env.GetAction env.c.WINDOW_FULLSCREEN_VIDEO key true)
                || wakeShortCircuit env (env.GetAction env.c.WINDOW_FULLSCREEN_VIDEO key true))
              = true then []
           else [env.GetAction env.c.WINDOW_FULLSCREEN_VIDEO key true]) := by
  have hfs : ¬ (env.GetActiveWindowID ≠ env.c.WINDOW_FULLSCREEN_VIDEO
      ∧ env.GetActiveWindowID ≠ env.c.WINDOW_FULLSCREEN_GAME) := fun h => h.1 hwin
  have hq := fun a => (ExecuteInputActionEvents_queries env a).1
  have hd := fun a => (ExecuteInputActionEvents_queries env a).2
  have htr := HandleKey_trace_of_resolve env s key _
    (fun t => HandleKeyResolve_fullscreen env t key _ _ _ hfs)
  rw [← hwin]
  refine ⟨_, htr, ?_, ?_, ?_⟩
  · simp only [getActionQueries]
    split_ifs <;> simp [hq, getActionQueries]
  · intro k f hmem
    have hmem2 := mem_getActionQueries _ _ _ _ hmem
    have hqs : getActionQueries
        (Event.HandleKey key s.m_LastKey :: Event.GetAction env.GetActiveWindowID key true ::
        Event.ResetSystemIdleTimer ::
        (if env.StartsWithNoCase (env.GetAction env.GetActiveWindowID key true).name
              "CECToggleState" = true then
           Event.SendMsgCecToggleState :: (if env.cecToggleResult = true then
              (Event.ResetScreenSaver :: Event.WakeUpScreenSaverAndDPMS
                  (AlwaysProcess env (env.GetAction env.GetActiveWindowID key true)) ::
                (if (env.WakeUpScreenSaverAndDPMS
                      (AlwaysProcess env (env.GetAction env.GetActiveWindowID key true))
                    && !AlwaysProcess env (env.GetAction env.GetActiveWindowID key true)) = true
                 then []
                 else ExecuteInputActionEvents env (env.GetAction env.GetActiveWindowID key true)))
              else [])
         else if env.StartsWithNoCase (env.GetAction env.GetActiveWindowID key true).name
              "CECStandby" = true then [Event.PostMsgCecStandby]
         else
           (Event.ResetScreenSaver :: Event.WakeUpScreenSaverAndDPMS
                  (AlwaysProcess env (env.GetAction env.GetActiveWindowID key true)) ::
                (if (env.WakeUpScreenSaverAndDPMS
                      (AlwaysProcess env (env.GetAction env.GetActiveWindowID key true))
                    && !AlwaysProcess env (env.GetAction env.GetActiveWindowID key true)) = true
                 then []
                 else ExecuteInputActionEvents env
                   (env.GetAction env.GetActiveWindowID key true)))))
        = [(env.GetActiveWindowID, key, true)] := by
      simp only [getActionQueries]
      split_ifs <;> simp [hq, getActionQueries]
    rw [hqs] at hmem2
    simp only [List.mem_singleton, Prod.mk.injEq] at hmem2
    exact hDistinct (hmem2.1.trans hwin)
  · unfold cecShortCircuit wakeShortCircuit
    simp only [dispatched]
    generalize env.GetAction env.GetActiveWindowID key true = a
    generalize AlwaysProcess env a = pk
    by_cases ht : env.StartsWithNoCase a.name "CECToggleState" = true <;>
      by_cases hres : env.cecToggleResult = true <;>
      by_cases hs : env.StartsWithNoCase a.name "CECStandby" = true <;>
      by_cases hw : (env.WakeUpScreenSaverAndDPMS pk && !pk) = true <;>
      simp [ht, hres, hs, hw, hd, dispatched]

/-- Witness of C12: fullscreen video window with a focused edit control, key `a`. -/
theorem HandleKey_fullscreen_video_witness :
    (fullscreenEnv.GetActiveWindowID = fullscreenEnv.c.WINDOW_FULLSCREEN_VIDEO
      ∧ fullscreenEnv.c.WINDOW_DIALOG_KEYBOARD ≠ fullscreenEnv.c.WINDOW_FULLSCREEN_VIDEO)
    ∧ ∃ evs : List Event,
      (HandleKey fullscreenEnv freshManager keyA).2.trace = freshManager.trace ++ evs
      ∧ getActionQueries evs = [(fullscreenEnv.c.WINDOW_FULLSCREEN_VIDEO, keyA, true)]
      ∧ (∀ (k : CKey) (f : Bool),
          Event.GetAction fullscreenEnv.c.WINDOW_DIALOG_KEYBOARD k f ∉ evs)
      ∧ dispatched evs =
          (if (cecShortCircuit fullscreenEnv
                  (fullscreenEnv.GetAction fullscreenEnv.c.WINDOW_FULLSCREEN_VIDEO keyA true)
                || wakeShortCircuit fullscreenEnv
                  (fullscreenEnv.GetAction fullscreenEnv.c.WINDOW_FULLSCREEN_VIDEO keyA true))
              = true then []
           else [fullscreenEnv.GetAction fullscreenEnv.c.WINDOW_FULLSCREEN_VIDEO keyA true]) :=
  ⟨by decide, HandleKey_fullscreen_video fullscreenEnv freshManager keyA (by decide) (by decide)⟩

/-! ## `HandleKey` and the virtual-keyboard path: theorems -/

theorem toInt32_or_small (b K : Nat) (hb : b < 256) (hK : K < 2147483648) :
    toInt32 (b ||| K) = ((b ||| K : Nat) : Int) := by
  have h1 : b ||| K < 2 ^ 31 := Nat.or_lt_two_pow (by omega) (by omega)
  unfold toInt32
  rw [Nat.mod_eq_of_lt (by omega), if_pos (by omega)]

theorem toInt32_or_extended (b K : Nat) (hb : b < 256) (hK : K < 2147483648) :
    toInt32 (b + 4294967040 ||| K) = ((b + 4294967040 ||| K : Nat) : Int) - 4294967296
    ∧ toInt32 (b + 4294967040 ||| K) < 0 := by
  have h1 : b + 4294967040 ||| K < 2 ^ 32 := Nat.or_lt_two_pow (by omega) (by omega)
  have h2 : 2 ^ 31 ≤ b + 4294967040 ||| K := by
    apply Nat.testBit_implies_ge
    rw [Nat.testBit_or, Nat.testBit_to_div_mod]
    have h3 : (b + 4294967040) / 2147483648 % 2 = 1 := by omega
    simp [h3]
  unfold toInt32
  rw [Nat.mod_eq_of_lt (by omega), if_neg (by omega)]
  exact ⟨rfl, by omega⟩

/-- The id `key.GetAscii() | KEY_ASCII` by cases: where `char` is signed and the ascii byte is
`0x80` or more the promoted `char` is negative and so is the id; otherwise the id is the or of
the byte with `KEY_ASCII`. -/
theorem asciiKeyId_eq (env : Env) (key : CKey) (hK : env.c.KEY_ASCII < 2147483648) :
    asciiKeyId env key =
      (if env.charIsSigned = true ∧ key.ascii % 256 ≥ 128 then
        ((key.ascii % 256 + 4294967040 ||| env.c.KEY_ASCII : Nat) : Int) - 4294967296
       else ((key.ascii % 256 ||| env.c.KEY_ASCII : Nat) : Int))
    ∧ (env.charIsSigned = true ∧ key.ascii % 256 ≥ 128 → asciiKeyId env key < 0) := by
  have hb : key.ascii % 256 < 256 := Nat.mod_lt _ (by decide)
  unfold asciiKeyId asciiPromoted
  by_cases h : env.charIsSigned = true ∧ key.ascii % 256 ≥ 128
  · rw [if_pos h, if_pos h]
    exact ⟨(toInt32_or_extended _ _ hb hK).1, fun _ => (toInt32_or_extended _ _ hb hK).2⟩
  · rw [if_neg h, if_neg h]
    exact ⟨toInt32_or_small _ _ hb hK, fun h2 => absurd h2 h⟩

/-- The character action of the key `é` (ascii byte `0xE9`): id -23 where `char` is signed,
id `0xF1E9` where it is unsigned; in the keyboard dialog with empty keymaps `HandleKey`
dispatches it first. -/
theorem charAction_high_ascii :
    charAction quietEnv keyEacute = CAction.ofUnicode (-23) 233
    ∧ charAction unsignedCharEnv keyEacute = CAction.ofUnicode 61929 233
    ∧ rawKeyAction quietEnv keyEacute = CAction.ofUnicode (-23) 233
    ∧ dispatched (HandleKey keyboardDialogPlainEnv freshManager keyEacute).2.trace
        = [CAction.ofUnicode (-23) 233, CAction.ofId 0] := by
  decide

theorem HandleKey_dispatched (env : Env) (s : CInputManager) (key : CKey) :
    dispatched (HandleKey env s key).2.trace
      = dispatched s.trace ++ handleKeyDispatched env s key := by
  obtain ⟨b, evs, hf, _, _, h3⟩ := HandleKey_frame env key
  rw [hf s]
  simp [dispatched_append, dispatched, h3 s]

theorem useKeyboard_edit (env : Env) (iWin : Int) (key : CKey) (w : CGUIWindow)
    (ctl : CGUIControl) (hWin : env.GetWindow iWin = some w)
    (hCtl : w.focusedControl = some ctl) (hEdit : ctl.isEdit = true) :
    useKeyboard env iWin key = true := by
  simp [useKeyboard, hWin, hCtl, hEdit]

theorem windowAction_fst (env : Env) (s : CInputManager) (iWin : Int) (key : CKey) :
    (windowAction env s iWin key (env.GetAction iWin key true)).1 = env.GetAction iWin key true := by
  simp only [windowAction, translatorGetAction]
  split_ifs <;> rfl

theorem keyboardAction_fst (env : Env) (s : CInputManager) (key : CKey) :
    (keyboardAction env s key).1 =
      (if isPlainNavigation env.c (env.GetAction env.c.WINDOW_DIALOG_KEYBOARD key true).id = true
        then
          (if (env.GetAction env.c.WINDOW_DIALOG_KEYBOARD key true).id = 0 then
            rawKeyAction env key
           else env.GetAction env.c.WINDOW_DIALOG_KEYBOARD key true)
       else if keptKeyboardDigit env.c
          (env.GetAction env.c.WINDOW_DIALOG_KEYBOARD key false).id = true
        then env.GetAction env.c.WINDOW_DIALOG_KEYBOARD key false
       else rawKeyAction env key) := by
  simp only [keyboardAction, translatorGetAction, keptKeyboardDigit, decide_eq_true_eq]
  split_ifs <;> simp_all [CAction.ofId]

theorem handleKeyDispatched_edit (env : Env) (s : CInputManager) (key : CKey)
    (w : CGUIWindow) (ctl : CGUIControl)
    (hNonFS : env.GetActiveWindowID ≠ env.c.WINDOW_FULLSCREEN_VIDEO
      ∧ env.GetActiveWindowID ≠ env.c.WINDOW_FULLSCREEN_GAME)
    (hWin : env.GetWindow env.GetActiveWindowID = some w)
    (hCtl : w.focusedControl = some ctl) (hEdit : ctl.isEdit = true)
    (hCec : cecShortCircuit env (env.GetAction env.GetActiveWindowID key true) = false)
    (hWake : wakeShortCircuit env (env.GetAction env.GetActiveWindowID key true) = false) :
    handleKeyDispatched env s key
      = (keyboardAction env s key).1 ::
          (if env.appOnAction (keyboardAction env s key).1 = true then []
           else [env.GetAction env.GetActiveWindowID key true]) := by
  have huk := useKeyboard_edit env env.GetActiveWindowID key w ctl hWin hCtl hEdit
  have hw : ¬ (env.WakeUpScreenSaverAndDPMS
      (AlwaysProcess env (env.GetAction env.GetActiveWindowID key true))
      && !AlwaysProcess env (env.GetAction env.GetActiveWindowID key true)) = true := by
    unfold wakeShortCircuit at hWake
    rw [hWake]; exact Bool.false_ne_true
  unfold handleKeyDispatched resolveDispatched
  rw [hCec, if_neg Bool.false_ne_true, if_neg hw, if_pos hNonFS, if_pos huk, windowAction_fst]
  split_ifs <;> rfl

/-- Counterexample to C13: home window (not fullscreen) with a focused edit control, not
short-circuited, printable key `a`; the application does not handle the character action,
and `HandleKey` goes on to dispatch action 7, the action of the generic keymap of the active
window. -/
theorem HandleKey_edit_dispatches_generic :
    (cecShortCircuit editMappedEnv
        (editMappedEnv.GetAction editMappedEnv.GetActiveWindowID keyA true) = false
      ∧ wakeShortCircuit editMappedEnv
        (editMappedEnv.GetAction editMappedEnv.GetActiveWindowID keyA true) = false
      ∧ useKeyboard editMappedEnv editMappedEnv.GetActiveWindowID keyA = true)
    ∧ editMappedEnv.GetAction editMappedEnv.GetActiveWindowID keyA true = CAction.ofId 7
    ∧ dispatched (HandleKey editMappedEnv freshManager keyA).2.trace
        = [CAction.ofUnicode 61793 97, CAction.ofId 7] := by
  decide

/-- C13 (amended): with a focused edit control in a non-fullscreen active window and no
short-circuit, the first action `HandleKey` dispatches, for every key, is the one of the
keyboard-specific path (from the `WINDOW_DIALOG_KEYBOARD` keymap, with or without fallback,
or the synthesized raw key action); when the application handles it nothing else is
dispatched, otherwise the action of the generic keymap of the active window follows it. -/
theorem HandleKey_edit_control (env : Env) (s : CInputManager) (key : CKey)
    (w : CGUIWindow) (ctl : CGUIControl)
    (hNonFS : env.GetActiveWindowID ≠ env.c.WINDOW_FULLSCREEN_VIDEO
      ∧ env.GetActiveWindowID ≠ env.c.WINDOW_FULLSCREEN_GAME)
    (hWin : env.GetWindow env.GetActiveWindowID = some w)
    (hCtl : w.focusedControl = some ctl) (hEdit : ctl.isEdit = true)
    (hCec : cecShortCircuit env (env.GetAction env.GetActiveWindowID key true) = false)
    (hWake : wakeShortCircuit env (env.GetAction env.GetActiveWindowID key true) = false) :
    dispatched (HandleKey env s key).2.trace
      = dispatched s.trace ++
          ((keyboardAction env s key).1 ::
            (if env.appOnAction (keyboardAction env s key).1 = true then []
             else [env.GetAction env.GetActiveWindowID key true]))
    ∧ ((keyboardAction env s key).1 = env.GetAction env.c.WINDOW_DIALOG_KEYBOARD key true
        ∨ (keyboardAction env s key).1 = env.GetAction env.c.WINDOW_DIALOG_KEYBOARD key false
        ∨ (keyboardAction env s key).1 = rawKeyAction env key) := by
  refine ⟨?_, ?_⟩
  · rw [HandleKey_dispatched, handleKeyDispatched_edit env s key w ctl hNonFS hWin hCtl hEdit
      hCec hWake]
  · rw [keyboardAction_fst]
    split_ifs <;> simp

/-- Witness of C13 (amended): the run of the counterexample. -/
theorem HandleKey_edit_control_witness :
    (editMappedEnv.GetActiveWindowID ≠ editMappedEnv.c.WINDOW_FULLSCREEN_VIDEO
      ∧ editMappedEnv.GetActiveWindowID ≠ editMappedEnv.c.WINDOW_FULLSCREEN_GAME)
    ∧ dispatched (HandleKey editMappedEnv freshManager keyA).2.trace
      = dispatched freshManager.trace ++
          ((keyboardAction editMappedEnv freshManager keyA).1 ::
            (if editMappedEnv.appOnAction (keyboardAction editMappedEnv freshManager keyA).1 = true
              then []
             else [editMappedEnv.GetAction editMappedEnv.GetActiveWindowID keyA true])) :=
  ⟨by decide,
   (HandleKey_edit_control editMappedEnv freshManager keyA
      { focusedControl := some { isEdit := true, isContainer := false } }
      { isEdit := true, isContainer := false } (by decide) rfl rfl rfl (by decide)
      (by decide)).1⟩

/-- Counterexample to C14: keyboard dialog active, edit control focused, Enter key-down from
the keyboard with unicode 13; the keyboard-specific keymap (no fallback) has no entry for
Enter, the global fallback keymap maps it to action 7 (select): `HandleKey` dispatches the
select action, not the character action. -/
theorem HandleKey_enter_dispatches_select :
    (keyboardDialogEnv.GetActiveWindowID = keyboardDialogEnv.c.WINDOW_DIALOG_KEYBOARD
      ∧ keyEnter.unicode ≠ 0 ∧ keyEnter.fromService = false
      ∧ keyboardDialogEnv.GetAction keyboardDialogEnv.c.WINDOW_DIALOG_KEYBOARD keyEnter false
          = CAction.ofId 0
      ∧ keyboardDialogEnv.c.ACTION_SELECT_ITEM = 7)
    ∧ dispatched (HandleKey keyboardDialogEnv freshManager keyEnter).2.trace = [CAction.ofId 7]
    ∧ charAction keyboardDialogEnv keyEnter = CAction.ofUnicode 61709 13
    ∧ charAction keyboardDialogEnv keyEnter
        ∉ dispatched (HandleKey keyboardDialogEnv freshManager keyEnter).2.trace := by
  decide

/-- C14 (amended): keyboard dialog active (not a fullscreen window), edit control focused,
key from the keyboard with non-zero unicode, not from a service, not the paste shortcut, no
short-circuit.  The first action `HandleKey` dispatches is: the action of
`GetAction(WINDOW_DIALOG_KEYBOARD, key)` with fallback to the global keymap when that is a
navigation action (id not 0); else the action of the keyboard-specific keymap (no fallback)
when that is a kept `REMOTE_0 .. REMOTE_9` action; else the character action
`CAction(key.GetAscii() | KEY_ASCII, unicode)`.  The window action follows when the application
does not handle the first one.  The id of the character action is the or of two `int`s, the
first one the promoted `char`: the byte or `KEY_ASCII` for a byte below `0x80` or an unsigned
`char`, a negative number for a byte of `0x80` or more and a signed `char`. -/
theorem HandleKey_enter_in_keyboard_dialog (env : Env) (s : CInputManager) (key : CKey)
    (w : CGUIWindow) (ctl : CGUIControl)
    (hwin : env.GetActiveWindowID = env.c.WINDOW_DIALOG_KEYBOARD)
    (hNonFS : env.c.WINDOW_DIALOG_KEYBOARD ≠ env.c.WINDOW_FULLSCREEN_VIDEO
      ∧ env.c.WINDOW_DIALOG_KEYBOARD ≠ env.c.WINDOW_FULLSCREEN_GAME)
    (hWin : env.GetWindow env.c.WINDOW_DIALOG_KEYBOARD = some w)
    (hCtl : w.focusedControl = some ctl) (hEdit : ctl.isEdit = true)
    (hService : key.fromService = false) (hUnicode : key.unicode ≠ 0)
    (hPaste : isPasteKeypress env key = false)
    (hCec : cecShortCircuit env (env.GetAction env.c.WINDOW_DIALOG_KEYBOARD key true) = false)
    (hWake : wakeShortCircuit env (env.GetAction env.c.WINDOW_DIALOG_KEYBOARD key true) = false) :
    (keyboardAction env s key).1 =
      (if isPlainNavigation env.c (env.GetAction env.c.WINDOW_DIALOG_KEYBOARD key true).id = true
        then
          (if (env.GetAction env.c.WINDOW_DIALOG_KEYBOARD key true).id = 0 then
            charAction env key
           else env.GetAction env.c.WINDOW_DIALOG_KEYBOARD key true)
       else if keptKeyboardDigit env.c
          (env.GetAction env.c.WINDOW_DIALOG_KEYBOARD key false).id = true
        then env.GetAction env.c.WINDOW_DIALOG_KEYBOARD key false
       else charAction env key)
    ∧ dispatched (HandleKey env s key).2.trace
      = dispatched s.trace ++
          ((keyboardAction env s key).1 ::
            (if env.appOnAction (keyboardAction env s key).1 = true then []
             else [env.GetAction env.c.WINDOW_DIALOG_KEYBOARD key true]))
    ∧ charAction env key = CAction.ofUnicode (asciiKeyId env key) key.unicode
    ∧ (env.c.KEY_ASCII < 2147483648 →
        asciiKeyId env key =
          (if env.charIsSigned = true ∧ key.ascii % 256 ≥ 128 then
            ((key.ascii % 256 + 4294967040 ||| env.c.KEY_ASCII : Nat) : Int) - 4294967296
           else ((key.ascii % 256 ||| env.c.KEY_ASCII : Nat) : Int))
        ∧ (env.charIsSigned = true ∧ key.ascii % 256 ≥ 128 → asciiKeyId env key < 0)) := by
  have hraw : rawKeyAction env key = charAction env key := by
    simp [rawKeyAction, charAction, hService, hPaste, hUnicode]
  refine ⟨?_, ?_, rfl, asciiKeyId_eq env key⟩
  · rw [keyboardAction_fst, hraw]
  · rw [HandleKey_dispatched, handleKeyDispatched_edit env s key w ctl (hwin ▸ hNonFS)
      (hwin ▸ hWin) hCtl hEdit (hwin ▸ hCec) (hwin ▸ hWake), hwin]

/-- Witness of C14 (amended): keyboard dialog with empty keymaps, Enter key; and the key `é`,
whose character action has a negative id where `char` is signed. -/
theorem HandleKey_enter_in_keyboard_dialog_witness :
    (keyboardDialogPlainEnv.GetActiveWindowID = keyboardDialogPlainEnv.c.WINDOW_DIALOG_KEYBOARD
      ∧ keyEnter.fromService = false ∧ keyEnter.unicode ≠ 0
      ∧ isPasteKeypress keyboardDialogPlainEnv keyEnter = false)
    ∧ ((keyboardDialogPlainEnv.c.KEY_ASCII < 2147483648
        ∧ keyboardDialogPlainEnv.charIsSigned = true ∧ keyEacute.ascii % 256 ≥ 128)
      ∧ asciiKeyId keyboardDialogPlainEnv keyEacute < 0)
    ∧ (keyboardAction keyboardDialogPlainEnv freshManager keyEnter).1 =
      (if isPlainNavigation keyboardDialogPlainEnv.c
          (keyboardDialogPlainEnv.GetAction keyboardDialogPlainEnv.c.WINDOW_DIALOG_KEYBOARD
            keyEnter true).id = true
        then
          (if (keyboardDialogPlainEnv.GetAction keyboardDialogPlainEnv.c.WINDOW_DIALOG_KEYBOARD
              keyEnter true).id = 0 then
            charAction keyboardDialogPlainEnv keyEnter
           else keyboardDialogPlainEnv.GetAction keyboardDialogPlainEnv.c.WINDOW_DIALOG_KEYBOARD
              keyEnter true)
       else if keptKeyboardDigit keyboardDialogPlainEnv.c
          (keyboardDialogPlainEnv.GetAction keyboardDialogPlainEnv.c.WINDOW_DIALOG_KEYBOARD
            keyEnter false).id = true
        then keyboardDialogPlainEnv.GetAction keyboardDialogPlainEnv.c.WINDOW_DIALOG_KEYBOARD
            keyEnter false
       else charAction keyboardDialogPlainEnv keyEnter) :=
  ⟨by decide,
   ⟨by decide,
    ((HandleKey_enter_in_keyboard_dialog keyboardDialogPlainEnv freshManager keyEacute
      { focusedControl := some { isEdit := true, isContainer := false } }
      { isEdit := true, isContainer := false } (by decide) (by decide) rfl rfl rfl rfl
      (by decide) (by decide) (by decide) (by decide)).2.2.2 (by decide)).2
      ⟨rfl, by decide⟩⟩,
   (HandleKey_enter_in_keyboard_dialog keyboardDialogPlainEnv freshManager keyEnter
      { focusedControl := some { isEdit := true, isContainer := false } }
      { isEdit := true, isContainer := false } (by decide) (by decide) rfl rfl rfl rfl
      (by decide) (by decide) (by decide) (by decide)).1⟩

/-! ## Unmapped keys: theorems -/

theorem OnEventTouch_gesture (env : Env) (s : CInputManager) (t : TouchEvent)
    (hPos : 0 < env.c.ACTION_GESTURE_BEGIN ∧ 0 < env.c.ACTION_GESTURE_END
      ∧ 0 < env.c.ACTION_GESTURE_ABORT)
    (hTap : env.c.ACTION_TOUCH_TAP ≠ env.c.ACTION_GESTURE_BEGIN
      ∧ env.c.ACTION_TOUCH_TAP ≠ env.c.ACTION_GESTURE_END
      ∧ env.c.ACTION_TOUCH_TAP ≠ env.c.ACTION_GESTURE_ABORT)
    (hG : t.action = env.c.ACTION_GESTURE_BEGIN ∨ t.action = env.c.ACTION_GESTURE_END
      ∨ t.action = env.c.ACTION_GESTURE_ABORT) :
    ∃ a : CAction, a.id = t.action
      ∧ OnEventTouch env s t
        = (true, { s with trace := s.trace ++
            (Event.PostMsgGuiAction a ::
              (if t.action = env.c.ACTION_GESTURE_END then [Event.SendGUIMessageUnfocusAll]
               else [])) }) := by
  have hne : ¬ t.action = env.c.ACTION_TOUCH_TAP := by
    rcases hG with h | h | h
    · rw [h]; exact fun e => hTap.1 e.symm
    · rw [h]; exact fun e => hTap.2.1 e.symm
    · rw [h]; exact fun e => hTap.2.2 e.symm
  have hpos : ¬ t.action ≤ 0 := by
    rcases hG with h | h | h <;> rw [h] <;> omega
  have hun : (t.action = env.c.ACTION_GESTURE_END ∨ t.action = env.c.ACTION_TOUCH_TAP)
      ↔ t.action = env.c.ACTION_GESTURE_END := by
    constructor
    · rintro (h | h)
      · exact h
      · exact absurd h hne
    · exact Or.inl
  by_cases hr : (t.action ≥ env.c.ACTION_TOUCH_TAP ∧ t.action ≤ env.c.ACTION_GESTURE_END)
      ∨ (t.action ≥ env.c.ACTION_MOUSE_START ∧ t.action ≤ env.c.ACTION_MOUSE_END)
  · refine ⟨CAction.ofState t.action 0 t.x t.y t.x2 t.y2 t.x3 t.y3 "", rfl, ?_⟩
    simp only [OnEventTouch, if_neg hne, if_pos hG, if_neg hpos, if_pos hr, hun,
      CInputManager.emit]
    split_ifs <;> simp
  · refine ⟨CAction.ofId t.action, rfl, ?_⟩
    simp only [OnEventTouch, if_neg hne, if_pos hG, if_neg hpos, if_neg hr, hun,
      CInputManager.emit]
    split_ifs <;> simp_all

/-- C18: for a touch event whose action is `ACTION_GESTURE_BEGIN`, `ACTION_GESTURE_END` or
`ACTION_GESTURE_ABORT` (positive ids, none of them `ACTION_TOUCH_TAP`), `OnEvent` returns
true, posts exactly one asynchronous action with that id, dispatches nothing inline, and
sends one unfocus message, after the post, exactly when the action is `ACTION_GESTURE_END`;
a gesture-begin event followed by a gesture-end event yields two posted actions and then one
unfocus message. -/
theorem OnEvent_touch_gesture (env : Env) (s : CInputManager) (t tb te : TouchEvent)
    (hPos : 0 < env.c.ACTION_GESTURE_BEGIN ∧ 0 < env.c.ACTION_GESTURE_END
      ∧ 0 < env.c.ACTION_GESTURE_ABORT)
    (hTap : env.c.ACTION_TOUCH_TAP ≠ env.c.ACTION_GESTURE_BEGIN
      ∧ env.c.ACTION_TOUCH_TAP ≠ env.c.ACTION_GESTURE_END
      ∧ env.c.ACTION_TOUCH_TAP ≠ env.c.ACTION_GESTURE_ABORT)
    (hBE : env.c.ACTION_GESTURE_BEGIN ≠ env.c.ACTION_GESTURE_END)
    (hG : t.action = env.c.ACTION_GESTURE_BEGIN ∨ t.action = env.c.ACTION_GESTURE_END
      ∨ t.action = env.c.ACTION_GESTURE_ABORT)
    (hb : tb.action = env.c.ACTION_GESTURE_BEGIN) (he : te.action = env.c.ACTION_GESTURE_END) :
    (∃ a : CAction, a.id = t.action
      ∧ OnEvent env s (XBMC_Event.Touch t)
        = (true, { s with trace := s.trace ++
            (Event.PostMsgGuiAction a ::
              (if t.action = env.c.ACTION_GESTURE_END then [Event.SendGUIMessageUnfocusAll]
               else [])) }))
    ∧ dispatched (OnEvent env s (XBMC_Event.Touch t)).2.trace = dispatched s.trace
    ∧ (∃ a1 a2 : CAction, a1.id = env.c.ACTION_GESTURE_BEGIN ∧ a2.id = env.c.ACTION_GESTURE_END
      ∧ (onEventAll env s [XBMC_Event.Touch tb, XBMC_Event.Touch te]).trace
        = s.trace ++ [Event.PostMsgGuiAction a1, Event.PostMsgGuiAction a2,
            Event.SendGUIMessageUnfocusAll]) := by
  obtain ⟨a, ha, hev⟩ := OnEventTouch_gesture env s t hPos hTap hG
  refine ⟨⟨a, ha, hev⟩, ?_, ?_⟩
  · show dispatched (OnEventTouch env s t).2.trace = _
    rw [hev]
    simp only [dispatched_append]
    split_ifs <;> simp [dispatched]
  · obtain ⟨a1, h1, e1⟩ := OnEventTouch_gesture env s tb hPos hTap (Or.inl hb)
    obtain ⟨a2, h2, e2⟩ := OnEventTouch_gesture env (OnEventTouch env s tb).2 te hPos hTap
      (Or.inr (Or.inl he))
    refine ⟨a1, a2, h1.trans hb, h2.trans he, ?_⟩
    show (OnEventTouch env (OnEventTouch env s tb).2 te).2.trace = _
    rw [e2, e1, if_neg (by rw [hb]; exact hBE), if_pos he]
    simp

/-- Witness of C18: a gesture-begin and a gesture-end event on a fresh manager. -/
theorem OnEvent_touch_gesture_witness :
    ((touchAt 501).action = quietEnv.c.ACTION_GESTURE_BEGIN
      ∧ (touchAt 599).action = quietEnv.c.ACTION_GESTURE_END)
    ∧ ∃ a1 a2 : CAction, a1.id = quietEnv.c.ACTION_GESTURE_BEGIN
      ∧ a2.id = quietEnv.c.ACTION_GESTURE_END
      ∧ (onEventAll quietEnv freshManager
          [XBMC_Event.Touch (touchAt 501), XBMC_Event.Touch (touchAt 599)]).trace
        = freshManager.trace ++ [Event.PostMsgGuiAction a1, Event.PostMsgGuiAction a2,
            Event.SendGUIMessageUnfocusAll] :=
  ⟨by decide,
   (OnEvent_touch_gesture quietEnv freshManager (touchAt 505) (touchAt 501) (touchAt 599)
      (by decide) (by decide) (by decide) (Or.inr (Or.inr (by decide))) (by decide)
      (by decide)).2.2⟩

/-- Counterexample to C19: the mouse is active and the application focused, the translated
action of the mouse key has id 0 and is no mouse action.  When the mouse key is
`KEY_MOUSE_NOOP`, and likewise when waking the screensaver consumes the event, `ProcessMouse`
returns true and leaves the mouse active. -/
theorem ProcessMouse_unknown_returns_true :
    (activeMouseManager.m_mouseActive = true ∧ quietEnv.IsAppFocused = true
      ∧ (quietEnv.GetAction 10000 (CKey.ofButton quietEnv.MouseGetKey 0) true).id = 0
      ∧ quietEnv.IsMouse (quietEnv.GetAction 10000 (CKey.ofButton quietEnv.MouseGetKey 0) true)
          = false)
    ∧ (ProcessMouse quietEnv activeMouseManager 10000).1 = true
    ∧ (ProcessMouse quietEnv activeMouseManager 10000).2.m_mouseActive = true
    ∧ (mouseScreensaverEnv.GetAction 10000
          (CKey.ofButton mouseScreensaverEnv.MouseGetKey 0) true).id = 0
    ∧ (ProcessMouse mouseScreensaverEnv activeMouseManager 10000).1 = true
    ∧ (ProcessMouse mouseScreensaverEnv activeMouseManager 10000).2.m_mouseActive = true := by
  decide

/-- C19 (amended): the mouse is active, the application focused, the mouse key is not
`KEY_MOUSE_NOOP` and waking the screensaver does not consume the event.  When the translated
action is `ACTION_NOOP` or has id 0, `ProcessMouse` returns false and dispatches no action;
and the mouse is deactivated exactly when the translated action is not a mouse action. -/
theorem ProcessMouse_noop_or_unknown (env : Env) (s : CInputManager) (windowId : Int)
    (hActive : s.m_mouseActive = true) (hFocus : env.IsAppFocused = true)
    (hKey : env.MouseGetKey ≠ env.c.KEY_MOUSE_NOOP)
    (hWake : env.WakeUpScreenSaverAndDPMS false = false)
    (hId : (env.GetAction windowId (CKey.ofButton env.MouseGetKey 0) true).id = env.c.ACTION_NOOP
      ∨ (env.GetAction windowId (CKey.ofButton env.MouseGetKey 0) true).id = 0) :
    (ProcessMouse env s windowId).1 = false
    ∧ dispatched (ProcessMouse env s windowId).2.trace = dispatched s.trace
    ∧ ((ProcessMouse env s windowId).2.m_mouseActive = false
        ↔ env.IsMouse (env.GetAction windowId (CKey.ofButton env.MouseGetKey 0) true) = false) := by
  have h1 : ¬ (¬ s.m_mouseActive = true ∨ ¬ env.IsAppFocused = true) := by
    simp [hActive, hFocus]
  have h2 : ¬ env.WakeUpScreenSaverAndDPMS false = true := by
    rw [hWake]; exact Bool.false_ne_true
  have hcases : (env.GetAction windowId (CKey.ofButton env.MouseGetKey 0) true).id
        = env.c.ACTION_NOOP
      ∨ (¬ (env.GetAction windowId (CKey.ofButton env.MouseGetKey 0) true).id = env.c.ACTION_NOOP
        ∧ (env.GetAction windowId (CKey.ofButton env.MouseGetKey 0) true).id = 0) := by
    by_cases h : (env.GetAction windowId (CKey.ofButton env.MouseGetKey 0) true).id
        = env.c.ACTION_NOOP
    · exact Or.inl h
    · exact Or.inr ⟨h, hId.resolve_left h⟩
  simp only [ProcessMouse, if_neg h1, if_neg hKey, if_neg h2, translatorGetAction]
  by_cases hm : env.IsMouse (env.GetAction windowId (CKey.ofButton env.MouseGetKey 0) true) = true
  · rcases hcases with h | ⟨h, h0⟩
    · simp [h, hm, hActive, CInputManager.emit, dispatched_append, dispatched]
    · simp [h, h0, hm, hActive, CInputManager.emit, dispatched_append, dispatched]
  · rcases hcases with h | ⟨h, h0⟩
    · simp [h, hm, CInputManager.emit, CInputManager.SetMouseActive, dispatched_append,
        dispatched]
    · simp [h, h0, hm, CInputManager.emit, CInputManager.SetMouseActive, dispatched_append,
        dispatched]

/-- Witness of C19 (amended): active mouse, unmapped mouse key 0xE000. -/
theorem ProcessMouse_noop_or_unknown_witness :
    (activeMouseManager.m_mouseActive = true ∧ mouseEnv.IsAppFocused = true
      ∧ mouseEnv.MouseGetKey ≠ mouseEnv.c.KEY_MOUSE_NOOP
      ∧ mouseEnv.WakeUpScreenSaverAndDPMS false = false)
    ∧ ((ProcessMouse mouseEnv activeMouseManager 10000).1 = false
      ∧ dispatched (ProcessMouse mouseEnv activeMouseManager 10000).2.trace
          = dispatched activeMouseManager.trace
      ∧ ((ProcessMouse mouseEnv activeMouseManager 10000).2.m_mouseActive = false
          ↔ mouseEnv.IsMouse
              (mouseEnv.GetAction 10000 (CKey.ofButton mouseEnv.MouseGetKey 0) true) = false)) :=
  ⟨by decide,
   ProcessMouse_noop_or_unknown mouseEnv activeMouseManager 10000 rfl rfl (by decide) rfl
     (Or.inr (by decide))⟩

/-! ## `OnAction`, `OnKeyUp`, the CEC built-ins and the rating: theorems -/

/-- C25: `CInputManager::OnAction` returns true exactly when the action id is not
`ACTION_NONE`; it queues the action (through `QueueAction`) exactly when the id is not
`ACTION_NONE` and the action is analog, or has hold time 0, or has one of the six navigation
ids; otherwise the state is left as it is, so a held non-analog action with another id is
reported handled and dropped. -/
theorem OnAction_queues (env : Env) (s : CInputManager) (a : CAction) :
    ((OnAction env s a).1 = true ↔ a.id ≠ env.c.ACTION_NONE)
    ∧ (OnAction env s a).2 =
        (if a.id ≠ env.c.ACTION_NONE
            ∧ (env.IsAnalog a = true ∨ a.holdTime = 0
              ∨ a.id = env.c.ACTION_MOVE_LEFT ∨ a.id = env.c.ACTION_MOVE_RIGHT
              ∨ a.id = env.c.ACTION_MOVE_UP ∨ a.id = env.c.ACTION_MOVE_DOWN
              ∨ a.id = env.c.ACTION_PAGE_UP ∨ a.id = env.c.ACTION_PAGE_DOWN)
          then QueueAction env s a else s)
    ∧ (OnAction env s a).2.trace = s.trace := by
  by_cases hn : a.id ≠ env.c.ACTION_NONE
  · by_cases ha : env.IsAnalog a = true
    · simp [OnAction, hn, ha, QueueAction]
    · by_cases hh : a.holdTime = 0
      · simp [OnAction, hn, ha, hh, QueueAction]
      · by_cases hnav : a.id = env.c.ACTION_MOVE_LEFT ∨ a.id = env.c.ACTION_MOVE_RIGHT
            ∨ a.id = env.c.ACTION_MOVE_UP ∨ a.id = env.c.ACTION_MOVE_DOWN
            ∨ a.id = env.c.ACTION_PAGE_UP ∨ a.id = env.c.ACTION_PAGE_DOWN
        · simp only [OnAction, if_pos hn, if_neg ha, if_neg hh, decide_eq_true_eq, if_pos hnav]
          refine ⟨by simp [hn], ?_, by simp [QueueAction]⟩
          rw [if_pos ⟨hn, Or.inr (Or.inr hnav)⟩]
        · simp only [OnAction, if_pos hn, if_neg ha, if_neg hh, decide_eq_true_eq, if_neg hnav]
          refine ⟨by simp [hn], ?_, trivial⟩
          rw [if_neg]
          rintro ⟨_, h | h | h⟩
          · exact ha h
          · exact hh h
          · exact hnav h
  · simp [OnAction, hn]

/-- C26: `OnKeyUp` looks at the tracked key only: for every released key `k` and every state,
`HandleKey` is entered, once and with the tracked key, exactly when the tracked key has a
button code other than `KEY_INVALID` without the `MODIFIER_LONG` bit; the released key makes
no difference; the tracker is invalid afterwards. -/
theorem OnKeyUp_acts_on_tracked_key (env : Env) (s : CInputManager) (k k2 : CKey) :
    handleKeyCalls (OnKeyUp env s k).trace = handleKeyCalls s.trace ++
        (if s.m_LastKey.buttonCode ≠ env.c.KEY_INVALID
            ∧ s.m_LastKey.buttonCode &&& env.c.MODIFIER_LONG = 0 then [s.m_LastKey]
         else [])
    ∧ handleKeyCalls (OnKeyUp env s k).trace = handleKeyCalls (OnKeyUp env s k2).trace
    ∧ (OnKeyUp env s k).m_LastKey = CKey.Reset env.c
    ∧ (OnKeyUp env s k).m_LastKey.buttonCode = env.c.KEY_INVALID := by
  obtain ⟨_, u2, u3⟩ := OnKeyUp_spec env s k
  obtain ⟨_, _, v3⟩ := OnKeyUp_spec env s k2
  refine ⟨?_, by rw [u3, v3], u2, by rw [u2]; rfl⟩
  rw [u3]
  simp only [not_not]

theorem cecMessages_append (t u : List Event) :
    cecMessages (t ++ u) = cecMessages t ++ cecMessages u := by
  induction t with
  | nil => rfl
  | cons e t ih => cases e <;> simp [cecMessages, ih]

theorem HandleKeyResolve_cecMessages (env : Env) (t : CInputManager) (key : CKey) (iWin : Int)
    (a : CAction) (pk : Bool) :
    cecMessages (HandleKeyResolve env t key iWin a pk).2.trace = cecMessages t.trace := by
  have hx : ∀ (u : CInputManager) (x : CAction),
      cecMessages (ExecuteInputAction env u x).2.trace = cecMessages u.trace := by
    intro u x
    simp only [ExecuteInputAction, g_application_OnAction]
    split_ifs <;> simp [CInputManager.emit, cecMessages_append, cecMessages]
  have hk : ∀ u, cecMessages (keyboardAction env u key).2.trace = cecMessages u.trace := by
    intro u
    simp only [keyboardAction, translatorGetAction]
    split_ifs <;> simp [CInputManager.emit, cecMessages_append, cecMessages]
  have hw : ∀ u w x, cecMessages (windowAction env u w key x).2.trace = cecMessages u.trace := by
    intro u w x
    simp only [windowAction, translatorGetAction]
    split_ifs <;> simp [CInputManager.emit, cecMessages_append, cecMessages]
  simp only [HandleKeyResolve]
  split_ifs <;>
    simp [hx, hk, hw, g_application_OnAction, CInputManager.emit, cecMessages_append,
      cecMessages]

/-- C24: `HandleKey` hands the messenger exactly one power-management message when the
resolved action name starts with `CECToggleState` (the synchronous toggle message, whatever
result it reports) or, failing that, with `CECStandby` (the posted standby message), and none
otherwise.  The toggle message is sent right after the idle timer is reset and before the
screensaver is touched; when it reports false `HandleKey` returns true at once, when it
reports true `HandleKey` goes on with the normal processing from the state after the message.
In both short-circuits (standby, or toggle reporting false) `HandleKey` returns true right
after the message: the screensaver is neither reset nor woken and no action is dispatched. -/
theorem HandleKey_cec_short_circuit (env : Env) (s : CInputManager) (key : CKey) :
    cecMessages (HandleKey env s key).2.trace = cecMessages s.trace ++
        (if env.StartsWithNoCase (env.GetAction env.GetActiveWindowID key true).name
              "CECToggleState" = true then [Event.SendMsgCecToggleState]
         else if env.StartsWithNoCase (env.GetAction env.GetActiveWindowID key true).name
              "CECStandby" = true then [Event.PostMsgCecStandby]
         else [])
    ∧ (env.StartsWithNoCase (env.GetAction env.GetActiveWindowID key true).name
          "CECToggleState" = true →
        (∃ rest : List Event,
          (HandleKey env s key).2.trace = s.trace ++
            [Event.HandleKey key s.m_LastKey, Event.GetAction env.GetActiveWindowID key true,
             Event.ResetSystemIdleTimer, Event.SendMsgCecToggleState] ++ rest
          ∧ cecMessages rest = []
          ∧ (env.cecToggleResult = false → rest = []))
        ∧ (env.cecToggleResult = false → (HandleKey env s key).1 = true)
        ∧ (env.cecToggleResult = true →
            HandleKey env s key
              = HandleKeyResolve env
                  { s with
                    m_mouseActive := false,
                    trace := s.trace ++
                      [Event.HandleKey key s.m_LastKey,
                       Event.GetAction env.GetActiveWindowID key true,
                       Event.ResetSystemIdleTimer, Event.SendMsgCecToggleState] }
                  key env.GetActiveWindowID (env.GetAction env.GetActiveWindowID key true)
                  (AlwaysProcess env (env.GetAction env.GetActiveWindowID key true))))
    ∧ (cecShortCircuit env (env.GetAction env.GetActiveWindowID key true) = true →
        HandleKey env s key
          = (true, { s with
              m_mouseActive := false,
              trace := s.trace ++
                [Event.HandleKey key s.m_LastKey, Event.GetAction env.GetActiveWindowID key true,
                 Event.ResetSystemIdleTimer,
                 (if env.StartsWithNoCase (env.GetAction env.GetActiveWindowID key true).name
                      "CECToggleState" = true then Event.SendMsgCecToggleState
                  else Event.PostMsgCecStandby)] })
        ∧ dispatched (HandleKey env s key).2.trace = dispatched s.trace)
    ∧ (env.StartsWithNoCase (env.GetAction env.GetActiveWindowID key true).name
          "CECStandby" = true →
        env.StartsWithNoCase (env.GetAction env.GetActiveWindowID key true).name
          "CECToggleState" = false →
        (HandleKey env s key).1 = true
        ∧ (HandleKey env s key).2.trace = s.trace ++
            [Event.HandleKey key s.m_LastKey, Event.GetAction env.GetActiveWindowID key true,
             Event.ResetSystemIdleTimer, Event.PostMsgCecStandby]) := by
  have hshort : cecShortCircuit env (env.GetAction env.GetActiveWindowID key true) = true →
      HandleKey env s key
        = (true, { s with
            m_mouseActive := false,
            trace := s.trace ++
              [Event.HandleKey key s.m_LastKey, Event.GetAction env.GetActiveWindowID key true,
               Event.ResetSystemIdleTimer,
               (if env.StartsWithNoCase (env.GetAction env.GetActiveWindowID key true).name
                    "CECToggleState" = true then Event.SendMsgCecToggleState
                else Event.PostMsgCecStandby)] }) := by
    intro hCec
    unfold cecShortCircuit at hCec
    by_cases ht : env.StartsWithNoCase (env.GetAction env.GetActiveWindowID key true).name
        "CECToggleState" = true
    · rw [if_pos ht] at hCec
      have hres : env.cecToggleResult = false := by simpa using hCec
      simp only [HandleKey, translatorGetAction, ht, hres, CInputManager.emit]
      simp
    · rw [if_neg ht] at hCec
      simp only [HandleKey, translatorGetAction, ht, hCec, CInputManager.emit]
      simp
  refine ⟨?_, ?_, ?_, ?_⟩
  · simp only [HandleKey, translatorGetAction]
    split_ifs <;>
      simp_all [HandleKeyResolve_cecMessages, CInputManager.emit, cecMessages_append,
        cecMessages]
  · intro ht
    obtain ⟨b, R, hR, _⟩ := HandleKeyResolve_frame env key env.GetActiveWindowID
      (env.GetAction env.GetActiveWindowID key true)
      (AlwaysProcess env (env.GetAction env.GetActiveWindowID key true))
    have hRc : cecMessages R = [] := by
      have h := HandleKeyResolve_cecMessages env s key env.GetActiveWindowID
        (env.GetAction env.GetActiveWindowID key true)
        (AlwaysProcess env (env.GetAction env.GetActiveWindowID key true))
      rw [hR s] at h
      simpa [cecMessages_append] using h
    have htr := HandleKey_trace_of_resolve env s key R (fun t => by rw [hR t])
    rw [if_pos ht] at htr
    refine ⟨⟨if env.cecToggleResult = true then R else [], ?_, ?_, ?_⟩, ?_, ?_⟩
    · rw [htr]
      simp
    · split_ifs
      · exact hRc
      · rfl
    · intro hres
      simp [hres]
    · intro hres
      simp [HandleKey, translatorGetAction, ht, hres]
    · intro hres
      simp only [HandleKey, translatorGetAction, ht, hres, CInputManager.emit]
      simp
  · intro hCec
    refine ⟨hshort hCec, ?_⟩
    rw [hshort hCec]
    simp only [dispatched_append]
    split_ifs <;> simp [dispatched]
  · intro hs ht
    have hCec : cecShortCircuit env (env.GetAction env.GetActiveWindowID key true) = true := by
      simp [cecShortCircuit, ht, hs]
    rw [hshort hCec]
    simp [ht]

/-- Witness of C24: an environment in which every action name starts with `CECStandby`, and
one in which every action name starts with `CECToggleState` and the toggle reports true. -/
theorem HandleKey_cec_short_circuit_witness :
    (cecShortCircuit standbyEnv (standbyEnv.GetAction standbyEnv.GetActiveWindowID keyA true)
        = true
      ∧ toggleOnEnv.StartsWithNoCase
          (toggleOnEnv.GetAction toggleOnEnv.GetActiveWindowID keyA true).name "CECToggleState"
          = true
      ∧ toggleOnEnv.cecToggleResult = true)
    ∧ ((HandleKey standbyEnv freshManager keyA).1 = true
      ∧ (HandleKey standbyEnv freshManager keyA).2.trace
        = freshManager.trace ++
          [Event.HandleKey keyA freshManager.m_LastKey,
           Event.GetAction standbyEnv.GetActiveWindowID keyA true,
           Event.ResetSystemIdleTimer, Event.PostMsgCecStandby])
    ∧ cecMessages (HandleKey toggleOnEnv freshManager keyA).2.trace
        = cecMessages freshManager.trace ++ [Event.SendMsgCecToggleState]
    ∧ dispatched (HandleKey standbyEnv freshManager keyA).2.trace
        = dispatched freshManager.trace :=
  ⟨by decide,
   (HandleKey_cec_short_circuit standbyEnv freshManager keyA).2.2.2 (by decide) (by decide),
   (HandleKey_cec_short_circuit toggleOnEnv freshManager keyA).1.trans (by decide),
   ((HandleKey_cec_short_circuit standbyEnv freshManager keyA).2.2.1 (by decide)).2⟩

/-- C27: `SetUserrating(r)` leaves the user rating at `r` clamped to 0..10 and sends the
update-item notification exactly when the clamped value differs from the current rating; so
`ACTION_INCREASE_RATING` at rating 10 and `ACTION_DECREASE_RATING` at rating 0 change nothing
and send nothing. -/
theorem SetUserrating_clamps (c : Consts) (base : CAction → Bool) (d : CGUIDialogMusicInfo)
    (r : Int) (a : CAction) (hDistinct : c.ACTION_INCREASE_RATING ≠ c.ACTION_DECREASE_RATING) :
    (d.SetUserrating r).userrating = clampRating r
    ∧ (d.SetUserrating r).trace = d.trace ++
        (if clampRating r ≠ d.userrating then [DialogEvent.SendUpdateItem (clampRating r)]
         else [])
    ∧ (0 ≤ clampRating r ∧ clampRating r ≤ 10 ∧ (0 ≤ r → r ≤ 10 → clampRating r = r))
    ∧ (d.userrating = 10 → a.id = c.ACTION_INCREASE_RATING
        → CGUIDialogMusicInfo.OnAction c base d a = (true, d))
    ∧ (d.userrating = 0 → a.id = c.ACTION_DECREASE_RATING
        → CGUIDialogMusicInfo.OnAction c base d a = (true, d)) := by
  have hclamp : ∀ x : Int, (if (if x < 0 then 0 else x) > 10 then 10 else (if x < 0 then 0 else x))
      = clampRating x := by
    intro x
    unfold clampRating
    split_ifs <;> omega
  have hset : ∀ x : Int, d.SetUserrating x
      = (if clampRating x ≠ d.userrating then
          { userrating := clampRating x,
            trace := d.trace ++ [DialogEvent.SendUpdateItem (clampRating x)] }
         else d) := by
    intro x
    simp only [CGUIDialogMusicInfo.SetUserrating, hclamp]
  refine ⟨?_, ?_, ?_, ?_, ?_⟩
  · rw [hset]
    split_ifs with h
    · rfl
    · exact (not_not.mp h).symm
  · rw [hset]
    split_ifs <;> simp
  · unfold clampRating
    refine ⟨by omega, by omega, fun h1 h2 => by omega⟩
  · intro h10 ha
    have hc : clampRating (wrapInt32 (d.userrating + 1)) = d.userrating := by
      rw [h10]; decide
    simp only [CGUIDialogMusicInfo.OnAction, if_pos ha, hset, hc, ne_eq, not_true_eq_false,
      if_false]
  · intro h0 ha
    have hne : ¬ a.id = c.ACTION_INCREASE_RATING := by
      rw [ha]; exact fun e => hDistinct e.symm
    have hc : clampRating (wrapInt32 (d.userrating - 1)) = d.userrating := by
      rw [h0]; decide
    simp only [CGUIDialogMusicInfo.OnAction, if_neg hne, if_pos ha, hset, hc, ne_eq,
      not_true_eq_false, if_false]

/-- Witness of C27: rating 10, increase requested; rating 0, decrease requested. -/
theorem SetUserrating_clamps_witness :
    sampleConsts.ACTION_INCREASE_RATING ≠ sampleConsts.ACTION_DECREASE_RATING
    ∧ CGUIDialogMusicInfo.OnAction sampleConsts (fun _ => false)
        { userrating := 10, trace := [] } (CAction.ofId 136)
        = (true, { userrating := 10, trace := [] })
    ∧ CGUIDialogMusicInfo.OnAction sampleConsts (fun _ => false)
        { userrating := 0, trace := [] } (CAction.ofId 137)
        = (true, { userrating := 0, trace := [] })
    ∧ (CGUIDialogMusicInfo.SetUserrating { userrating := 3, trace := [] } 42).userrating
        = clampRating 42 :=
  ⟨by decide,
   (SetUserrating_clamps sampleConsts (fun _ => false) { userrating := 10, trace := [] } 42
      (CAction.ofId 136) (by decide)).2.2.2.1 rfl rfl,
   (SetUserrating_clamps sampleConsts (fun _ => false) { userrating := 0, trace := [] } 42
      (CAction.ofId 137) (by decide)).2.2.2.2 rfl rfl,
   (SetUserrating_clamps sampleConsts (fun _ => false) { userrating := 3, trace := [] } 42
      (CAction.ofId 136) (by decide)).1⟩

/-! ## The joystick rejection and the keyboard keymap filter: theorems -/

theorem quiet_of_mem_esPreamble (evs : List Event)
    (h : ∀ e ∈ evs, e ∈ [Event.EsExecuteNextAction, Event.ResetSystemIdleTimer,
      Event.ResetScreenSaver, Event.WakeUpScreenSaverAndDPMS false, Event.EsGetButtonCode]) :
    dispatched evs = [] ∧ handleKeyCalls evs = [] ∧ offeredTo evs = [] := by
  induction evs with
  | nil => exact ⟨rfl, rfl, rfl⟩
  | cons e t ih =>
    obtain ⟨i1, i2, i3⟩ := ih (fun x hx => h x (List.mem_cons_of_mem _ hx))
    have he := h e (List.mem_cons_self _ _)
    simp only [List.mem_cons, List.mem_singleton, List.not_mem_nil, or_false] at he
    rcases he with r | r | r | r | r <;> subst r <;>
      exact ⟨by simpa [dispatched] using i1, by simpa [handleKeyCalls] using i2,
        by simpa [offeredTo] using i3⟩

/-- C22: when the event server reports a non-zero button code with a non-empty device map
name and the joystick flag, `ProcessEventServer` returns false; all it has done is run the
pending event-server action (with the timer resets that follow it) and fetch the button: no
`OnKey`, no custom-controller translation, no action dispatched. -/
theorem ProcessEventServer_joystick (env : Env) (s : CInputManager) (windowId frameTime : Int)
    (hKey : env.esGetButtonCode.wKeyID ≠ 0)
    (hMap : env.esGetButtonCode.strMapName.length > 0)
    (hJoy : env.esGetButtonCode.isJoystick = true) :
    (ProcessEventServer env s windowId frameTime).1 = false
    ∧ (∃ evs : List Event,
        (ProcessEventServer env s windowId frameTime).2 = { s with trace := s.trace ++ evs }
        ∧ (∀ e ∈ evs, e ∈ [Event.EsExecuteNextAction, Event.ResetSystemIdleTimer,
            Event.ResetScreenSaver, Event.WakeUpScreenSaverAndDPMS false,
            Event.EsGetButtonCode]))
    ∧ dispatched (ProcessEventServer env s windowId frameTime).2.trace = dispatched s.trace
    ∧ handleKeyCalls (ProcessEventServer env s windowId frameTime).2.trace
        = handleKeyCalls s.trace
    ∧ offeredTo (ProcessEventServer env s windowId frameTime).2.trace = offeredTo s.trace := by
  have hb : ∀ t, esButtons env t windowId frameTime = (false, t.emit Event.EsGetButtonCode) := by
    intro t
    simp [esButtons, hKey, hMap, hJoy]
  have key_fact : ∃ evs : List Event,
      ProcessEventServer env s windowId frameTime = (false, { s with trace := s.trace ++ evs })
      ∧ (∀ e ∈ evs, e ∈ [Event.EsExecuteNextAction, Event.ResetSystemIdleTimer,
            Event.ResetScreenSaver, Event.WakeUpScreenSaverAndDPMS false,
            Event.EsGetButtonCode]) := by
    by_cases h1 : esUnavailable env.es = true
    · exact ⟨[], by simp [ProcessEventServer, h1], by simp⟩
    · by_cases hx : env.esExecuteNextAction = true
      · by_cases h2 : esUnavailable env.esAfter = true
        · refine ⟨[Event.EsExecuteNextAction, Event.ResetSystemIdleTimer,
            Event.ResetScreenSaver, Event.WakeUpScreenSaverAndDPMS false], ?_, by simp⟩
          simp [ProcessEventServer, h1, hx, h2, CInputManager.emit]
        · refine ⟨[Event.EsExecuteNextAction, Event.ResetSystemIdleTimer,
            Event.ResetScreenSaver, Event.WakeUpScreenSaverAndDPMS false,
            Event.EsGetButtonCode], ?_, by simp⟩
          simp [ProcessEventServer, h1, hx, h2, hb, CInputManager.emit]
      · by_cases h2 : esUnavailable env.esAfter = true
        · refine ⟨[Event.EsExecuteNextAction], ?_, by simp⟩
          simp [ProcessEventServer, h1, hx, h2, CInputManager.emit]
        · refine ⟨[Event.EsExecuteNextAction, Event.EsGetButtonCode], ?_, by simp⟩
          simp [ProcessEventServer, h1, hx, h2, hb, CInputManager.emit]
  obtain ⟨evs, heq, hmem⟩ := key_fact
  obtain ⟨q1, q2, q3⟩ := quiet_of_mem_esPreamble evs hmem
  rw [heq]
  refine ⟨rfl, ⟨evs, rfl, hmem⟩, ?_, ?_, ?_⟩
  · simp [dispatched_append, q1]
  · simp [handleKeyCalls_append, q2]
  · simp [offeredTo_append, q3]

/-- Witness of C22: an event server with one client reporting button 5 of the joystick map
`pad`. -/
theorem ProcessEventServer_joystick_witness :
    (joystickEnv.esGetButtonCode.wKeyID ≠ 0
      ∧ joystickEnv.esGetButtonCode.strMapName.length > 0
      ∧ joystickEnv.esGetButtonCode.isJoystick = true)
    ∧ (ProcessEventServer joystickEnv freshManager 10000 0).1 = false
    ∧ dispatched (ProcessEventServer joystickEnv freshManager 10000 0).2.trace
        = dispatched freshManager.trace :=
  ⟨by decide,
   (ProcessEventServer_joystick joystickEnv freshManager 10000 0 (by decide) (by decide)
      (by decide)).1,
   (ProcessEventServer_joystick joystickEnv freshManager 10000 0 (by decide) (by decide)
      (by decide)).2.2.1⟩

theorem handleKeyDispatched_keyboard (env : Env) (s : CInputManager) (key : CKey)
    (hNonFS : env.GetActiveWindowID ≠ env.c.WINDOW_FULLSCREEN_VIDEO
      ∧ env.GetActiveWindowID ≠ env.c.WINDOW_FULLSCREEN_GAME)
    (hUk : useKeyboard env env.GetActiveWindowID key = true)
    (hCec : cecShortCircuit env (env.GetAction env.GetActiveWindowID key true) = false)
    (hWake : wakeShortCircuit env (env.GetAction env.GetActiveWindowID key true) = false) :
    handleKeyDispatched env s key
      = (keyboardAction env s key).1 ::
          (if env.appOnAction (keyboardAction env s key).1 = true then []
           else [env.GetAction env.GetActiveWindowID key true]) := by
  have hw : ¬ (env.WakeUpScreenSaverAndDPMS
      (AlwaysProcess env (env.GetAction env.GetActiveWindowID key true))
      && !AlwaysProcess env (env.GetAction env.GetActiveWindowID key true)) = true := by
    unfold wakeShortCircuit at hWake
    rw [hWake]; exact Bool.false_ne_true
  unfold handleKeyDispatched resolveDispatched
  rw [hCec, if_neg Bool.false_ne_true, if_neg hw, if_pos hNonFS, if_pos hUk, windowAction_fst]
  split_ifs <;> rfl

/-- Counterexample to C23: edit control focused, the `WINDOW_DIALOG_KEYBOARD` keymap maps
the key to backspace, the key comes from a service (built as `ProcessEventServer` builds it).
The backspace action is discarded, and the action dispatched in its place is
`CAction(buttonCode, unicode)`, none of the three actions the claim lists. -/
theorem HandleKey_service_key_raw_action :
    (useKeyboard backspaceEnv backspaceEnv.GetActiveWindowID serviceKeyA = true
      ∧ serviceKeyA.fromService = true
      ∧ (backspaceEnv.GetAction backspaceEnv.c.WINDOW_DIALOG_KEYBOARD serviceKeyA true).id
          = backspaceEnv.c.ACTION_BACKSPACE)
    ∧ serviceKeyA = { CKey.ofButton 0xF041 0 with fromService := true }
    ∧ dispatched (HandleKey backspaceEnv freshManager serviceKeyA).2.trace
        = [CAction.ofUnicode 61505 0, CAction.ofId 0]
    ∧ CAction.ofUnicode 61505 0 ≠ CAction.ofId backspaceEnv.c.ACTION_PASTE
    ∧ CAction.ofUnicode 61505 0 ≠ charAction backspaceEnv serviceKeyA
    ∧ CAction.ofUnicode 61505 0
        ≠ CAction.ofId (((serviceKeyA.vkey ||| backspaceEnv.c.KEY_VKEY : Nat) : Int)) := by
  decide

/-- C23 (amended): in the virtual-keyboard path of `HandleKey` (not short-circuited) the
first action dispatched is the keymap action only when it is a navigation action of the
lookup with fallback or a `REMOTE_0 .. REMOTE_9` action of the lookup without fallback that is
none of backspace, shift, symbols, cursor left, cursor right; every other keymap action is
discarded and the raw key action is dispatched in its place: for a key from a service
`CAction(buttonCode, unicode)` (id 0 for the invalid key), otherwise `ACTION_PASTE` for the
paste shortcut, `key.GetAscii() | KEY_ASCII` with the unicode when that is non-zero,
`vkey | KEY_VKEY` otherwise.  The id `key.GetAscii() | KEY_ASCII` is the or of two `int`s, the
first one the promoted `char`: the byte or `KEY_ASCII` for a byte below `0x80` or an unsigned
`char`, a negative number for a byte of `0x80` or more and a signed `char`. -/
theorem HandleKey_keyboard_filter (env : Env) (s : CInputManager) (key : CKey)
    (hNonFS : env.GetActiveWindowID ≠ env.c.WINDOW_FULLSCREEN_VIDEO
      ∧ env.GetActiveWindowID ≠ env.c.WINDOW_FULLSCREEN_GAME)
    (hUk : useKeyboard env env.GetActiveWindowID key = true)
    (hCec : cecShortCircuit env (env.GetAction env.GetActiveWindowID key true) = false)
    (hWake : wakeShortCircuit env (env.GetAction env.GetActiveWindowID key true) = false) :
    dispatched (HandleKey env s key).2.trace
      = dispatched s.trace ++
          ((keyboardAction env s key).1 ::
            (if env.appOnAction (keyboardAction env s key).1 = true then []
             else [env.GetAction env.GetActiveWindowID key true]))
    ∧ (((keyboardAction env s key).1 = env.GetAction env.c.WINDOW_DIALOG_KEYBOARD key true
          ∧ isPlainNavigation env.c
              (env.GetAction env.c.WINDOW_DIALOG_KEYBOARD key true).id = true)
        ∨ ((keyboardAction env s key).1 = env.GetAction env.c.WINDOW_DIALOG_KEYBOARD key false
          ∧ keptKeyboardDigit env.c
              (env.GetAction env.c.WINDOW_DIALOG_KEYBOARD key false).id = true)
        ∨ (keyboardAction env s key).1 = rawKeyAction env key)
    ∧ (isPlainNavigation env.c (env.GetAction env.c.WINDOW_DIALOG_KEYBOARD key true).id = false
        → keptKeyboardDigit env.c
            (env.GetAction env.c.WINDOW_DIALOG_KEYBOARD key false).id = false
        → (keyboardAction env s key).1 = rawKeyAction env key)
    ∧ (∀ id : Int, keptKeyboardDigit env.c id = true →
        (id ≥ env.c.REMOTE_0 ∧ id ≤ env.c.REMOTE_9) ∧ id ≠ env.c.ACTION_BACKSPACE
        ∧ id ≠ env.c.ACTION_SHIFT ∧ id ≠ env.c.ACTION_SYMBOLS
        ∧ id ≠ env.c.ACTION_CURSOR_LEFT ∧ id ≠ env.c.ACTION_CURSOR_RIGHT)
    ∧ rawKeyAction env key =
        (if key.fromService = true then
          CAction.ofUnicode
            (if key.buttonCode ≠ env.c.KEY_INVALID then toInt32 key.buttonCode else 0) key.unicode
         else if isPasteKeypress env key = true then CAction.ofId env.c.ACTION_PASTE
         else if key.unicode ≠ 0 then CAction.ofUnicode (asciiKeyId env key) key.unicode
         else CAction.ofId (((key.vkey ||| env.c.KEY_VKEY : Nat) : Int)))
    ∧ (env.c.KEY_ASCII < 2147483648 →
        asciiKeyId env key =
          (if env.charIsSigned = true ∧ key.ascii % 256 ≥ 128 then
            ((key.ascii % 256 + 4294967040 ||| env.c.KEY_ASCII : Nat) : Int) - 4294967296
           else ((key.ascii % 256 ||| env.c.KEY_ASCII : Nat) : Int))
        ∧ (env.charIsSigned = true ∧ key.ascii % 256 ≥ 128 → asciiKeyId env key < 0)) := by
  refine ⟨?_, ?_, ?_, ?_, rfl, asciiKeyId_eq env key⟩
  · rw [HandleKey_dispatched, handleKeyDispatched_keyboard env s key hNonFS hUk hCec hWake]
  · rw [keyboardAction_fst]
    split_ifs with h1 h2 h3
    · exact Or.inr (Or.inr rfl)
    · exact Or.inl ⟨rfl, h1⟩
    · exact Or.inr (Or.inl ⟨rfl, h3⟩)
    · exact Or.inr (Or.inr rfl)
  · intro h1 h2
    rw [keyboardAction_fst, h1, h2]
    simp
  · intro id hid
    simp only [keptKeyboardDigit, decide_eq_true_eq] at hid
    exact ⟨hid.1, hid.2.1, hid.2.2.1, hid.2.2.2.1, hid.2.2.2.2.1, hid.2.2.2.2.2.1⟩

/-- Witness of C23 (amended): the run of the counterexample; and the key `é`, whose raw key
action has a negative id where `char` is signed. -/
theorem HandleKey_keyboard_filter_witness :
    (backspaceEnv.GetActiveWindowID ≠ backspaceEnv.c.WINDOW_FULLSCREEN_VIDEO
      ∧ backspaceEnv.GetActiveWindowID ≠ backspaceEnv.c.WINDOW_FULLSCREEN_GAME
      ∧ useKeyboard backspaceEnv backspaceEnv.GetActiveWindowID serviceKeyA = true)
    ∧ ((useKeyboard backspaceEnv backspaceEnv.GetActiveWindowID keyEacute = true
        ∧ backspaceEnv.c.KEY_ASCII < 2147483648
        ∧ backspaceEnv.charIsSigned = true ∧ keyEacute.ascii % 256 ≥ 128)
      ∧ asciiKeyId backspaceEnv keyEacute < 0)
    ∧ dispatched (HandleKey backspaceEnv freshManager serviceKeyA).2.trace
      = dispatched freshManager.trace ++
          ((keyboardAction backspaceEnv freshManager serviceKeyA).1 ::
            (if backspaceEnv.appOnAction
                (keyboardAction backspaceEnv freshManager serviceKeyA).1 = true then []
             else [backspaceEnv.GetAction backspaceEnv.GetActiveWindowID serviceKeyA true])) :=
  ⟨by decide,
   ⟨by decide,
    ((HandleKey_keyboard_filter backspaceEnv freshManager keyEacute (by decide) (by decide)
      (by decide) (by decide)).2.2.2.2.2 (by decide)).2 ⟨rfl, by decide⟩⟩,
   (HandleKey_keyboard_filter backspaceEnv freshManager serviceKeyA (by decide) (by decide)
      (by decide) (by decide)).1⟩

/-! ## The mouse position injection of `ProcessEventServer`: theorems -/

theorem appEvents_append (t u : List Event) :
    appEvents (t ++ u) = appEvents t ++ appEvents u := by
  induction t with
  | nil => rfl
  | cons e t ih => cases e <;> simp [appEvents, ih]

theorem g_application_OnAction_appEvents (env : Env) (s : CInputManager) (a : CAction) :
    appEvents (g_application_OnAction env s a).2.trace = appEvents s.trace := by
  simp [g_application_OnAction, CInputManager.emit, appEvents_append, appEvents]

theorem ExecuteInputAction_appEvents (env : Env) (s : CInputManager) (a : CAction) :
    appEvents (ExecuteInputAction env s a).2.trace = appEvents s.trace := by
  simp only [ExecuteInputAction, g_application_OnAction]
  split_ifs <;> simp [CInputManager.emit, appEvents_append, appEvents]

theorem HandleKey_appEvents (env : Env) (s : CInputManager) (key : CKey) :
    appEvents (HandleKey env s key).2.trace = appEvents s.trace := by
  have hk : ∀ t, appEvents (keyboardAction env t key).2.trace = appEvents t.trace := by
    intro t
    simp only [keyboardAction, translatorGetAction]
    split_ifs <;> simp [CInputManager.emit, appEvents_append, appEvents]
  have hw : ∀ t iWin a, appEvents (windowAction env t iWin key a).2.trace = appEvents t.trace := by
    intro t iWin a
    simp only [windowAction, translatorGetAction]
    split_ifs <;> simp [CInputManager.emit, appEvents_append, appEvents]
  have hr : ∀ t iWin a pk,
      appEvents (HandleKeyResolve env t key iWin a pk).2.trace = appEvents t.trace := by
    intro t iWin a pk
    simp only [HandleKeyResolve]
    split_ifs <;>
      simp [ExecuteInputAction_appEvents, g_application_OnAction_appEvents, hk, hw,
        CInputManager.emit, appEvents_append, appEvents]
  simp only [HandleKey, translatorGetAction]
  split_ifs <;> simp [hr, CInputManager.emit, appEvents_append, appEvents]

theorem appEvents_map_OnKeyPress (key : CKey) (hs : List Handler) :
    appEvents (hs.map (fun h => Event.OnKeyPress h key)) = [] := by
  induction hs with
  | nil => rfl
  | cons h t ih => simpa [appEvents] using ih

theorem OnKey_appEvents (env : Env) (s : CInputManager) (key : CKey) :
    appEvents (OnKey env s key).2.trace = appEvents s.trace := by
  simp only [OnKey, offerKeyPress_eq]
  split_ifs <;>
    simp [HandleKey_appEvents, appEvents_append, appEvents_map_OnKeyPress]

theorem esMousePosition_eq (env : Env) (s : CInputManager) :
    esMousePosition env s =
      (match env.esGetMousePos with
       | some pos =>
         if env.MouseIsEnabled = true then
           (env.appOnAction (esMouseMoveAction env pos),
            { s with trace := s.trace ++
                [Event.EsGetMousePos,
                 Event.AppOnEvent (XBMC_Event.MouseMotion (pos.1 % 65536) (pos.2 % 65536)),
                 Event.OnAction (esMouseMoveAction env pos)] })
         else (false, { s with trace := s.trace ++ [Event.EsGetMousePos] })
       | none => (false, { s with trace := s.trace ++ [Event.EsGetMousePos] })) := by
  simp only [esMousePosition, esMouseMoveAction, g_application_OnAction]
  cases env.esGetMousePos with
  | none => simp [CInputManager.emit]
  | some pos =>
    by_cases he : env.MouseIsEnabled = true
    · simp [he, CInputManager.emit]
    · simp [he, CInputManager.emit]

theorem esButtons_appEvents (env : Env) (t : CInputManager) (w ft : Int) :
    appEvents (esButtons env t w ft).2.trace = appEvents t.trace ++
      (match env.esGetMousePos with
       | some pos =>
         if esInjectsMouse env w = true then
           [XBMC_Event.MouseMotion (pos.1 % 65536) (pos.2 % 65536)]
         else []
       | none => []) := by
  simp only [esButtons, esInjectsMouse]
  by_cases hk : env.esGetButtonCode.wKeyID = 0
  · simp only [hk, ne_eq, not_true_eq_false, if_false, esMousePosition_eq]
    cases env.esGetMousePos with
    | none => simp [CInputManager.emit, appEvents_append, appEvents]
    | some pos =>
      by_cases he : env.MouseIsEnabled = true
      · simp [he, CInputManager.emit, appEvents_append, appEvents]
      · simp [he, CInputManager.emit, appEvents_append, appEvents]
  · by_cases hm : env.esGetButtonCode.strMapName.length > 0
    · by_cases hj : env.esGetButtonCode.isJoystick = true
      · simp only [ne_eq, hk, not_false_eq_true, if_true, hm, hj]
        cases env.esGetMousePos <;>
          simp [CInputManager.emit, appEvents_append, appEvents]
      · rcases Option.eq_none_or_eq_some (env.TranslateCustomControllerString w
            env.esGetButtonCode.strMapName env.esGetButtonCode.wKeyID) with hT | ⟨a, hT⟩
        · simp only [ne_eq, hk, not_false_eq_true, if_true, hm, hj, hT, esMousePosition_eq]
          cases env.esGetMousePos with
          | none => simp [CInputManager.emit, appEvents_append, appEvents]
          | some pos =>
            by_cases he : env.MouseIsEnabled = true
            · simp [he, CInputManager.emit, appEvents_append, appEvents]
            · simp [he, CInputManager.emit, appEvents_append, appEvents]
        · simp only [ne_eq, hk, not_false_eq_true, if_true, hm, hj, hT]
          by_cases hw : env.WakeUpScreenSaverAndDPMS false = true
          · cases env.esGetMousePos <;>
              simp [hw, CInputManager.emit, appEvents_append, appEvents]
          · cases env.esGetMousePos <;>
              simp [hw, ExecuteInputAction_appEvents, CInputManager.SetMouseActive,
                CInputManager.emit, appEvents_append, appEvents]
    · simp only [ne_eq, hk, not_false_eq_true, if_true, hm, if_false]
      split_ifs <;> cases env.esGetMousePos <;>
        simp_all [OnKey_appEvents, CInputManager.emit, appEvents_append, appEvents]

theorem esButtons_inject (env : Env) (t : CInputManager) (w ft : Int) (pos : Int × Int)
    (hp : env.esGetMousePos = some pos) (hin : esInjectsMouse env w = true) :
    (esButtons env t w ft).1 = env.appOnAction (esMouseMoveAction env pos)
    ∧ dispatched (esButtons env t w ft).2.trace
        = dispatched t.trace ++ [esMouseMoveAction env pos]
    ∧ handleKeyCalls (esButtons env t w ft).2.trace = handleKeyCalls t.trace
    ∧ offeredTo (esButtons env t w ft).2.trace = offeredTo t.trace := by
  simp only [esInjectsMouse, Bool.and_eq_true, Bool.or_eq_true, decide_eq_true_eq,
    Bool.not_eq_true', Option.isNone_iff_eq_none] at hin
  obtain ⟨⟨hcase, _⟩, he⟩ := hin
  rcases hcase with hk | ⟨⟨hm, hj⟩, hT⟩
  · simp [esButtons, hk, esMousePosition_eq, hp, he, CInputManager.emit, dispatched_append,
      dispatched, handleKeyCalls_append, handleKeyCalls, offeredTo_append, offeredTo]
  · by_cases hk : env.esGetButtonCode.wKeyID = 0
    · simp [esButtons, hk, esMousePosition_eq, hp, he, CInputManager.emit, dispatched_append,
        dispatched, handleKeyCalls_append, handleKeyCalls, offeredTo_append, offeredTo]
    · simp [esButtons, hk, hm, hj, hT, esMousePosition_eq, hp, he, CInputManager.emit,
        dispatched_append, dispatched, handleKeyCalls_append, handleKeyCalls, offeredTo_append,
        offeredTo]

/-- Counterexample to C21: the event server (running, one client) reports the non-zero
button code 5 for the custom-controller map `pad`, which has no mapping; a mouse position
is pending and the mouse is enabled.  `ProcessEventServer` hands the mouse motion to the
application and dispatches the synthesized `ACTION_MOUSE_MOVE` action. -/
theorem ProcessEventServer_button_and_mouse_move :
    (esUnavailable unmappedControllerEnv.es = false
      ∧ esUnavailable unmappedControllerEnv.esAfter = false
      ∧ unmappedControllerEnv.esGetButtonCode.wKeyID = 5)
    ∧ appEvents (ProcessEventServer unmappedControllerEnv freshManager 10000 0).2.trace
        = [XBMC_Event.MouseMotion 3 4]
    ∧ dispatched (ProcessEventServer unmappedControllerEnv freshManager 10000 0).2.trace
        = [CAction.ofAmounts unmappedControllerEnv.c.ACTION_MOUSE_MOVE 3 4 ""]
    ∧ (ProcessEventServer unmappedControllerEnv freshManager 10000 0).1 = true := by
  decide

/-- C21 (amended): with a running event server that has a client (before and after the
pending event-server action), `ProcessEventServer` injects the pending mouse position (mouse
motion handed to the application, then the `ACTION_MOUSE_MOVE` action dispatched directly,
`OnKey` not called) if and only if a mouse position is pending, the mouse is enabled, and the
event server reported either button code 0 or a non-zero button code with a device map name,
no joystick flag and no custom-controller mapping. -/
theorem ProcessEventServer_mouse_injection (env : Env) (s : CInputManager)
    (windowId frameTime : Int)
    (hEs : esUnavailable env.es = false) (hEsAfter : esUnavailable env.esAfter = false) :
    appEvents (ProcessEventServer env s windowId frameTime).2.trace = appEvents s.trace ++
      (match env.esGetMousePos with
       | some pos =>
         if esInjectsMouse env windowId = true then
           [XBMC_Event.MouseMotion (pos.1 % 65536) (pos.2 % 65536)]
         else []
       | none => [])
    ∧ (∀ pos : Int × Int, env.esGetMousePos = some pos → esInjectsMouse env windowId = true →
        (ProcessEventServer env s windowId frameTime).1
            = env.appOnAction (esMouseMoveAction env pos)
        ∧ dispatched (ProcessEventServer env s windowId frameTime).2.trace
            = dispatched s.trace ++ [esMouseMoveAction env pos]
        ∧ handleKeyCalls (ProcessEventServer env s windowId frameTime).2.trace
            = handleKeyCalls s.trace
        ∧ offeredTo (ProcessEventServer env s windowId frameTime).2.trace = offeredTo s.trace)
    ∧ (esInjectsMouse env windowId = true ↔
        ((env.esGetButtonCode.wKeyID = 0
            ∨ (env.esGetButtonCode.wKeyID ≠ 0 ∧ env.esGetButtonCode.strMapName.length > 0
                ∧ env.esGetButtonCode.isJoystick = false
                ∧ env.TranslateCustomControllerString windowId
                    env.esGetButtonCode.strMapName env.esGetButtonCode.wKeyID = none))
          ∧ env.esGetMousePos ≠ none ∧ env.MouseIsEnabled = true)) := by
  have h1 : ¬ esUnavailable env.es = true := by rw [hEs]; exact Bool.false_ne_true
  have h2 : ¬ esUnavailable env.esAfter = true := by rw [hEsAfter]; exact Bool.false_ne_true
  refine ⟨?_, ?_, ?_⟩
  · simp only [ProcessEventServer, if_neg h1, if_neg h2, esButtons_appEvents]
    split_ifs <;> simp [CInputManager.emit, appEvents_append, appEvents]
  · intro pos hp hin
    simp only [ProcessEventServer, if_neg h1, if_neg h2]
    obtain ⟨r1, r2, r3, r4⟩ := esButtons_inject env
      (if env.esExecuteNextAction = true then
        (((s.emit Event.EsExecuteNextAction).emit Event.ResetSystemIdleTimer).emit
          Event.ResetScreenSaver).emit (Event.WakeUpScreenSaverAndDPMS false)
       else s.emit Event.EsExecuteNextAction) windowId frameTime pos hp hin
    refine ⟨r1, ?_, ?_, ?_⟩
    · rw [r2]
      split_ifs <;> simp [CInputManager.emit, dispatched_append, dispatched]
    · rw [r3]
      split_ifs <;> simp [CInputManager.emit, handleKeyCalls_append, handleKeyCalls]
    · rw [r4]
      split_ifs <;> simp [CInputManager.emit, offeredTo_append, offeredTo]
  · simp only [esInjectsMouse, Bool.and_eq_true, Bool.or_eq_true, decide_eq_true_eq,
      Bool.not_eq_true', Option.isNone_iff_eq_none, Option.isSome_iff_ne_none]
    constructor
    · rintro ⟨⟨hc, hp⟩, he⟩
      refine ⟨?_, hp, he⟩
      rcases hc with hk | ⟨⟨hm, hj⟩, hT⟩
      · exact Or.inl hk
      · by_cases hk : env.esGetButtonCode.wKeyID = 0
        · exact Or.inl hk
        · exact Or.inr ⟨hk, hm, hj, hT⟩
    · rintro ⟨hc, hp, he⟩
      refine ⟨⟨?_, hp⟩, he⟩
      rcases hc with hk | ⟨_, hm, hj, hT⟩
      · exact Or.inl hk
      · exact Or.inr ⟨⟨hm, hj⟩, hT⟩

/-- Witness of C21 (amended): no button reported, mouse position (3, 4) pending. -/
theorem ProcessEventServer_mouse_injection_witness :
    (esUnavailable mousePositionEnv.es = false ∧ esUnavailable mousePositionEnv.esAfter = false)
    ∧ appEvents (ProcessEventServer mousePositionEnv freshManager 10000 0).2.trace
      = appEvents freshManager.trace ++
        (match mousePositionEnv.esGetMousePos with
         | some pos =>
           if esInjectsMouse mousePositionEnv 10000 = true then
             [XBMC_Event.MouseMotion (pos.1 % 65536) (pos.2 % 65536)]
           else []
         | none => []) :=
  ⟨by decide,
   (ProcessEventServer_mouse_injection mousePositionEnv freshManager 10000 0 (by decide)
      (by decide)).1⟩

end InputManager
